import Mathlib

/-!
hllrcon: the RCON frame codec and protocol client.

A shallow embedding of `rcon/protocol.go`, `rcon/client.go`,
`session/manager.go` and `parseContentBody` of `api/handlers.go`.

* A Go `[]byte` is a `List Nat` whose elements are bytes (values below 256).
* A Go `uint32` is a `Nat` reduced `% 2 ^ 32` wherever the source converts or
  increments; a Go `int` is an `Int` (64-bit platforms: every length fits).
* The process-wide `requestIDCounter` and the `net.Conn` behind a client are
  passed explicitly as state.
* A `time.Time` obtained from `time.Now()` is an `Int`, its reading of the
  monotonic clock in nanoseconds, and a `time.Duration` is an `Int`; `Sub` is
  subtraction.
* A Go map from strings is an association list, read through `mapGet`.
* `encoding/json` and `encoding/base64` are libraries, not part of the
  repository: the functions of them that the source calls are gathered in the
  structure `StdLib`, every definition takes such a library as a parameter, and
  `goStd` is an executable instance used to run the definitions on concrete
  inputs.
-/

namespace Rcon

set_option maxRecDepth 100000

/-! ## Constants (`protocol.go`, lines 11-14) -/

def HeaderSize : Nat := 8

def Version : Int := 2

/-! ## `XOR` (`protocol.go`, lines 97-108) -/

/-- The source's `XOR`: when the key is empty the data is returned as it is;
otherwise a result of the same length is filled with
`result[i] = data[i] ^ key[i % len(key)]` for `i = 0 .. len(data) - 1`. -/
def XOR (data key : List Nat) : List Nat :=
  if key.length = 0 then data
  else (List.range data.length).map
    (fun i => Nat.xor (data.getD i 0) (key.getD (i % key.length) 0))

/-! ## Data model (`protocol.go`, lines 16-33; `client.go`, lines 14-25) -/

/-- A Go string: an immutable byte sequence. -/
abbrev GoString := List Nat

/-- The bytes of a text given as a Lean string whose characters are ASCII. -/
def ascii (s : String) : GoString := s.toList.map Char.toNat

/-- A value of Go's `any` as the source meets it: `null` is the nil interface,
`str` a Go string, `num`, `bool`, `arr` and `obj` the other values JSON can
carry (an object lists its members in the order they are written), and
`unsupported` a value `json.Marshal` rejects (a channel, a function). -/
inductive Value where
  | null
  | bool (b : Bool)
  | num (n : Int)
  | str (s : GoString)
  | arr (xs : List Value)
  | obj (kvs : List (GoString × Value))
  | unsupported

instance : Inhabited Value := ⟨Value.null⟩

/-- The struct `Request`. -/
structure Request where
  authToken : GoString
  version : Int
  name : GoString
  contentBody : GoString
  deriving DecidableEq

/-- The struct `Response`. -/
structure Response where
  statusCode : Int
  statusMessage : GoString
  version : Int
  name : GoString
  contentBody : Value

/-- The errors the package builds with `fmt.Errorf`, one constructor for each
message; a wrapped error keeps its cause. `closeFailed` is the error of
`conn.Close()` on a closed connection, and `nilConn` stands for the run-time
panic of a method call on the nil connection, which no caller of
`exchangeUnlocked` can reach. `responseTooShort` and `incompleteBody` are the
first two errors of `UnpackResponse`. -/
inductive Error where
  | marshalContentBody
  | marshalRequest
  | requestTooLarge (size : Nat) (max : Int)
  | sendFailed
  | readHeaderFailed
  | responseTooLarge (size : Nat) (max : Int)
  | readBodyFailed
  | unmarshalResponse
  | responseIDMismatch (expected got : Nat)
  | notConnected
  | dialFailed
  | serverConnectFailed (cause : Error)
  | serverConnectStatus (statusMessage : GoString)
  | invalidKeyType
  | decodeKeyFailed
  | loginFailed (cause : Error)
  | loginStatus (statusMessage : GoString)
  | invalidTokenType
  | closeFailed
  | nilConn
  | responseTooShort (size : Nat)
  | incompleteBody
  deriving DecidableEq

/-- The functions of Go's standard library that the source calls and that are
not modelled byte for byte here: `json.Marshal` on an `any` and on a `Request`,
`json.Unmarshal` into a zero `Response` and into an `any`, and
`base64.StdEncoding.DecodeString` (the bytes it returns and whether it
succeeded). `none` stands for a returned error. -/
structure StdLib where
  jsonMarshal : Value → Option (List Nat)
  jsonMarshalRequest : Request → Option (List Nat)
  jsonUnmarshalResponse : List Nat → Option Response
  jsonUnmarshal : List Nat → Option Value
  base64Decode : GoString → List Nat × Bool

/-! ## `encoding/binary` -/

/-- The four bytes `binary.LittleEndian.PutUint32` stores for `v`. -/
def putUint32 (v : Nat) : List Nat :=
  [v % 256, v / 256 % 256, v / 65536 % 256, v / 16777216 % 256]

/-- The value `binary.LittleEndian.Uint32` reads from the first four bytes of `b`. -/
def uint32LE (b : List Nat) : Nat :=
  b.getD 0 0 + b.getD 1 0 * 256 + b.getD 2 0 * 65536 + b.getD 3 0 * 16777216

/-- The two header fields as the source reads them: `Uint32(h[0:4])` and
`Uint32(h[4:8])`. -/
def decodeHeader (h : List Nat) : Nat × Nat :=
  (uint32LE (h.take 4), uint32LE ((h.drop 4).take 4))

/-! ## `PackRequest` (`protocol.go`, lines 35-74) -/

/-- The `switch` of `PackRequest` that turns the content body into a string. -/
def contentBodyString (L : StdLib) (contentBody : Value) : Except Error GoString :=
  match contentBody with
  | Value.str v => Except.ok v
  | Value.null => Except.ok []
  | v =>
    match L.jsonMarshal v with
    | none => Except.error Error.marshalContentBody
    | some encoded => Except.ok encoded

/-- The source's `PackRequest`, with the process-wide `requestIDCounter` passed
in and out: the first component is the counter after `atomic.AddUint32`, the
second the returned `(bytes, requestID)` or the error. -/
def PackRequest (L : StdLib) (counter : Nat) (authToken command : GoString)
    (contentBody : Value) : Nat × Except Error (List Nat × Nat) :=
  let requestID := (counter + 1) % 2 ^ 32
  match contentBodyString L contentBody with
  | Except.error e => (requestID, Except.error e)
  | Except.ok contentBodyStr =>
    let req : Request :=
      { authToken := authToken, version := Version, name := command,
        contentBody := contentBodyStr }
    match L.jsonMarshalRequest req with
    | none => (requestID, Except.error Error.marshalRequest)
    | some jsonBody =>
      let header := putUint32 requestID ++ putUint32 (jsonBody.length % 2 ^ 32)
      (requestID, Except.ok (header ++ jsonBody, requestID))

/-! ## `UnpackResponse` (`protocol.go`, lines 76-95) -/

/-- The source's `UnpackResponse`. The result `none` is the run-time panic of
the slice expression `data[HeaderSize:HeaderSize+contentLength]`, whose upper
bound is computed in `uint32` and so modulo `2 ^ 32`: the expression panics when
that bound is below `HeaderSize` or above the length of `data`. -/
def UnpackResponse (L : StdLib) (data : List Nat) : Option (Except Error (Response × Nat)) :=
  if data.length < HeaderSize then
    some (Except.error (Error.responseTooShort data.length))
  else
    let requestID := uint32LE (data.take 4)
    let contentLength := uint32LE ((data.drop 4).take 4)
    if (data.length : Int) < (HeaderSize : Int) + (contentLength : Int) then
      some (Except.error Error.incompleteBody)
    else
      let high := (HeaderSize + contentLength) % 2 ^ 32
      if high < HeaderSize ∨ data.length < high then none
      else
        match L.jsonUnmarshalResponse ((data.take high).drop HeaderSize) with
        | none => some (Except.error Error.unmarshalResponse)
        | some resp => some (Except.ok (resp, requestID))

/-! ## The connection (`net.Conn`) -/

/-- What the transport does at one `Read` call: it has the bytes `bs` at hand,
or it reports an error. -/
inductive ReadEvent where
  | data (bs : List Nat)
  | err
  deriving DecidableEq

/-- The state of a `net.Conn`: what the coming `Read` calls will meet (an empty
list is the end of the stream), every byte written so far, whether the
transport refuses writes, and whether `Close` has been called. -/
structure Conn where
  incoming : List ReadEvent
  written : List Nat
  writeFails : Bool
  closed : Bool
  deriving DecidableEq

/-- The call `conn.Write(data)`: it fails, sending nothing, on a closed
connection or a refusing transport, and otherwise sends all of `data`. -/
def Conn.Write (conn : Conn) (data : List Nat) : Conn × Bool :=
  if conn.closed || conn.writeFails then (conn, false)
  else ({ conn with written := conn.written ++ data }, true)

/-- The call `conn.Read(buf)` with `len(buf) = n`: the bytes it stores at the
start of `buf`, or `none` for an error. At most `n` bytes of the event at hand
are taken; what is left of it stays for the next call. -/
def Conn.Read (conn : Conn) (n : Nat) : Conn × Option (List Nat) :=
  if conn.closed then (conn, none)
  else
    match conn.incoming with
    | [] => (conn, none)
    | ReadEvent.err :: rest => ({ conn with incoming := rest }, none)
    | ReadEvent.data bs :: rest =>
      if bs.length ≤ n then ({ conn with incoming := rest }, some bs)
      else ({ conn with incoming := ReadEvent.data (bs.drop n) :: rest }, some (bs.take n))

/-- The call `conn.Close()`: an open connection becomes closed; closing a closed
connection is an error. -/
def Conn.Close (conn : Conn) : Conn × Bool :=
  if conn.closed then (conn, false) else ({ conn with closed := true }, true)

/-- The buffer `buf` after `got` has been stored at offset `off`. -/
def storeAt (buf : List Nat) (off : Nat) (got : List Nat) : List Nat :=
  buf.take off ++ got ++ buf.drop (off + got.length)

/-! ## The client (`client.go`) -/

/-- The struct `Client`, without its mutex; `conn = none` is the nil
connection. -/
structure Client where
  host : GoString
  port : Int
  password : GoString
  conn : Option Conn
  authToken : GoString
  xorKey : List Nat
  dialTimeout : Int
  maxRequestSize : Int
  maxResponseSize : Int

/-- The source's `NewClient`. -/
def NewClient (host : GoString) (port : Int) (password : GoString) (dialTimeout : Int)
    (maxRequestSize maxResponseSize : Int) : Client :=
  { host := host, port := port, password := password, conn := none, authToken := [],
    xorKey := [], dialTimeout := dialTimeout, maxRequestSize := maxRequestSize,
    maxResponseSize := maxResponseSize }

/-- The frame handed to `conn.Write` (`client.go`, lines 149-153): with a
non-empty key, `data[:HeaderSize]` followed by `XOR(data[HeaderSize:], key)`. -/
def encryptFrame (data key : List Nat) : List Nat :=
  if key.length > 0 then data.take HeaderSize ++ XOR (data.drop HeaderSize) key
  else data

/-- The body loop (`client.go`, lines 176-183): while `totalRead <
contentLength`, read into `body[totalRead:]`. One unit of `fuel` is spent for
each `Read` call; `none` in the result means the fuel ran out. -/
def readBody : Nat → Conn → Nat → List Nat → Nat → Conn × Option (Except Error (List Nat))
  | 0, conn, contentLength, body, totalRead =>
    if totalRead < contentLength then (conn, none) else (conn, some (Except.ok body))
  | fuel + 1, conn, contentLength, body, totalRead =>
    if totalRead < contentLength then
      match conn.Read (body.length - totalRead) with
      | (conn1, none) => (conn1, some (Except.error Error.readBodyFailed))
      | (conn1, some got) =>
        readBody fuel conn1 contentLength (storeAt body totalRead got) (totalRead + got.length)
    else (conn, some (Except.ok body))

/-- The source's `exchangeUnlocked`, on the counter and the client. Each
`Read` call consumes an event of the connection or fills its buffer, so the
body loop makes at most `len(incoming) + 1` calls; that is its fuel. -/
def exchangeUnlocked (L : StdLib) (counter : Nat) (c : Client) (command : GoString)
    (contentBody : Value) : Nat × Client × Except Error Response :=
  match PackRequest L counter c.authToken command contentBody with
  | (counter1, Except.error e) => (counter1, c, Except.error e)
  | (counter1, Except.ok (data, requestID)) =>
    if (data.length : Int) > c.maxRequestSize then
      (counter1, c, Except.error (Error.requestTooLarge data.length c.maxRequestSize))
    else
      match c.conn with
      | none => (counter1, c, Except.error Error.nilConn)
      | some conn =>
        match conn.Write (encryptFrame data c.xorKey) with
        | (conn1, false) => (counter1, { c with conn := some conn1 }, Except.error Error.sendFailed)
        | (conn1, true) =>
          match conn1.Read HeaderSize with
          | (conn2, none) =>
            (counter1, { c with conn := some conn2 }, Except.error Error.readHeaderFailed)
          | (conn2, some got) =>
            let header := storeAt (List.replicate HeaderSize 0) 0 got
            let respID := uint32LE (header.take 4)
            let contentLength := uint32LE ((header.drop 4).take 4)
            if (contentLength : Int) > c.maxResponseSize then
              (counter1, { c with conn := some conn2 },
                Except.error (Error.responseTooLarge contentLength c.maxResponseSize))
            else
              match readBody (conn2.incoming.length + 1) conn2 contentLength
                  (List.replicate contentLength 0) 0 with
              | (conn3, none) =>
                (counter1, { c with conn := some conn3 }, Except.error Error.readBodyFailed)
              | (conn3, some (Except.error e)) =>
                (counter1, { c with conn := some conn3 }, Except.error e)
              | (conn3, some (Except.ok body0)) =>
                let body := if c.xorKey.length > 0 then XOR body0 c.xorKey else body0
                match L.jsonUnmarshalResponse body with
                | none =>
                  (counter1, { c with conn := some conn3 }, Except.error Error.unmarshalResponse)
                | some resp =>
                  if respID ≠ requestID then
                    (counter1, { c with conn := some conn3 },
                      Except.error (Error.responseIDMismatch requestID respID))
                  else (counter1, { c with conn := some conn3 }, Except.ok resp)

/-- The source's `Execute`. -/
def Execute (L : StdLib) (counter : Nat) (c : Client) (command : GoString)
    (contentBody : Value) : Nat × Client × Except Error Response :=
  match c.conn with
  | none => (counter, c, Except.error Error.notConnected)
  | some _ => exchangeUnlocked L counter c command contentBody

/-- The source's `Close`: the connection, when there is one, is closed and the
result of `conn.Close()` returned; the field `conn` is left as it is. -/
def Close (c : Client) : Client × Except Error Unit :=
  match c.conn with
  | some conn =>
    match conn.Close with
    | (conn1, true) => ({ c with conn := some conn1 }, Except.ok ())
    | (conn1, false) => ({ c with conn := some conn1 }, Except.error Error.closeFailed)
  | none => (c, Except.ok ())

/-- The statement `c.conn.Close()` of `Connect`, whose result is dropped. -/
def closeConn (c : Client) : Client :=
  match c.conn with
  | some conn => { c with conn := some conn.Close.1 }
  | none => c

/-- The source's `DecodeXORKey`. -/
def DecodeXORKey (L : StdLib) (encodedKey : GoString) : List Nat × Bool :=
  L.base64Decode encodedKey

/-- The source's `Connect`; `dial` is what `net.DialTimeout` returns (`none`
for an error). -/
def Connect (L : StdLib) (counter : Nat) (c : Client) (dial : Option Conn) :
    Nat × Client × Except Error Unit :=
  match dial with
  | none => (counter, c, Except.error Error.dialFailed)
  | some conn =>
    let c1 := { c with conn := some conn }
    match exchangeUnlocked L counter c1 (ascii "ServerConnect") (Value.str []) with
    | (counter1, c2, Except.error e) =>
      (counter1, closeConn c2, Except.error (Error.serverConnectFailed e))
    | (counter1, c2, Except.ok resp) =>
      if resp.statusCode ≠ 200 then
        (counter1, closeConn c2, Except.error (Error.serverConnectStatus resp.statusMessage))
      else
        match resp.contentBody with
        | Value.str xorKeyStr =>
          match DecodeXORKey L xorKeyStr with
          | (key, false) =>
            (counter1, closeConn { c2 with xorKey := key }, Except.error Error.decodeKeyFailed)
          | (key, true) =>
            let c3 := { c2 with xorKey := key }
            match exchangeUnlocked L counter1 c3 (ascii "Login") (Value.str c3.password) with
            | (counter2, c4, Except.error e) =>
              (counter2, closeConn c4, Except.error (Error.loginFailed e))
            | (counter2, c4, Except.ok resp2) =>
              if resp2.statusCode ≠ 200 then
                (counter2, closeConn c4, Except.error (Error.loginStatus resp2.statusMessage))
              else
                match resp2.contentBody with
                | Value.str authTokenStr =>
                  (counter2, { c4 with authToken := authTokenStr }, Except.ok ())
                | _ => (counter2, closeConn c4, Except.error Error.invalidTokenType)
        | _ => (counter1, closeConn c2, Except.error Error.invalidKeyType)


/-! ## An executable standard library

`goStd` follows `encoding/json` and `encoding/base64` on JSON texts whose
numbers are integer literals and on strings that hold valid UTF-8. -/

/-- The lower-case hexadecimal digit of `n < 16`. -/
def hexDigit (n : Nat) : Nat := if n < 10 then 48 + n else 87 + n

/-- The escape `json.Marshal` writes for one byte of a string (HTML escaping
on). -/
def escapeByte (b : Nat) : List Nat :=
  if b = 34 then [92, 34]
  else if b = 92 then [92, 92]
  else if b = 8 then [92, 98]
  else if b = 12 then [92, 102]
  else if b = 10 then [92, 110]
  else if b = 13 then [92, 114]
  else if b = 9 then [92, 116]
  else if b < 32 ∨ b = 60 ∨ b = 62 ∨ b = 38 then
    [92, 117, 48, 48, hexDigit (b / 16), hexDigit (b % 16)]
  else [b]

def quoteString (s : GoString) : List Nat :=
  [34] ++ s.flatMap escapeByte ++ [34]

/-- The decimal text of an integer. -/
def intText (n : Int) : List Nat :=
  match n with
  | Int.ofNat m => (Nat.toDigits 10 m).map Char.toNat
  | Int.negSucc m => 45 :: (Nat.toDigits 10 (m + 1)).map Char.toNat

mutual
/-- The text `json.Marshal` produces for a value. -/
def marshalValue : Value → Option (List Nat)
  | Value.null => some (ascii "null")
  | Value.bool true => some (ascii "true")
  | Value.bool false => some (ascii "false")
  | Value.num n => some (intText n)
  | Value.str s => some (quoteString s)
  | Value.arr xs => (marshalElems xs).map (fun b => [91] ++ b ++ [93])
  | Value.obj kvs => (marshalMembers kvs).map (fun b => [123] ++ b ++ [125])
  | Value.unsupported => none
def marshalElems : List Value → Option (List Nat)
  | [] => some []
  | v :: vs =>
    match marshalValue v, marshalElems vs with
    | some a, some b => some (if vs.isEmpty then a else a ++ [44] ++ b)
    | _, _ => none
def marshalMembers : List (GoString × Value) → Option (List Nat)
  | [] => some []
  | (k, v) :: kvs =>
    match marshalValue v, marshalMembers kvs with
    | some a, some b =>
      some (if kvs.isEmpty then quoteString k ++ [58] ++ a
        else quoteString k ++ [58] ++ a ++ [44] ++ b)
    | _, _ => none
end

/-- The text `json.Marshal` produces for a `Request`: its four fields in the
order of the struct, under the names of their tags. -/
def marshalRequest (r : Request) : List Nat :=
  ascii "\x7b\"authToken\":" ++ quoteString r.authToken ++
  ascii ",\"version\":" ++ intText r.version ++
  ascii ",\"name\":" ++ quoteString r.name ++
  ascii ",\"contentBody\":" ++ quoteString r.contentBody ++ ascii "\x7d"

def isSpace (b : Nat) : Bool := b = 32 || b = 9 || b = 10 || b = 13

def skipWs : List Nat → List Nat
  | [] => []
  | b :: rest => if isSpace b then skipWs rest else b :: rest

def hexVal (b : Nat) : Option Nat :=
  if 48 ≤ b ∧ b ≤ 57 then some (b - 48)
  else if 97 ≤ b ∧ b ≤ 102 then some (b - 87)
  else if 65 ≤ b ∧ b ≤ 70 then some (b - 55)
  else none

def hex4 : List Nat → Option (Nat × List Nat)
  | a :: b :: c :: d :: rest =>
    match hexVal a, hexVal b, hexVal c, hexVal d with
    | some a, some b, some c, some d => some (((a * 16 + b) * 16 + c) * 16 + d, rest)
    | _, _, _, _ => none
  | _ => none

/-- The UTF-8 bytes of a code point. -/
def utf8Encode (cp : Nat) : List Nat :=
  if cp < 128 then [cp]
  else if cp < 2048 then [192 + cp / 64, 128 + cp % 64]
  else if cp < 65536 then [224 + cp / 4096, 128 + cp / 64 % 64, 128 + cp % 64]
  else [240 + cp / 262144, 128 + cp / 4096 % 64, 128 + cp / 64 % 64, 128 + cp % 64]

/-- The code point of a `\u` escape whose four digits gave `cp`, and the input
after it: a high surrogate followed by an escaped low surrogate is the pair's
code point, any other surrogate is U+FFFD. -/
def unescapeU (cp : Nat) (rest : List Nat) : Nat × List Nat :=
  if 55296 ≤ cp ∧ cp < 56320 then
    match rest with
    | b :: u :: rest1 =>
      if b = 92 ∧ u = 117 then
        match hex4 rest1 with
        | some (lo, rest2) =>
          if 56320 ≤ lo ∧ lo < 57344 then
            (65536 + (cp - 55296) * 1024 + (lo - 56320), rest2)
          else (65533, rest)
        | none => (65533, rest)
      else (65533, rest)
    | _ => (65533, rest)
  else if 56320 ≤ cp ∧ cp < 57344 then (65533, rest)
  else (cp, rest)

/-- The rest of a string literal after its opening quote: the bytes it denotes
and the input after the closing quote. -/
def parseStringBody : Nat → List Nat → List Nat → Option (GoString × List Nat)
  | 0, _, _ => none
  | _ + 1, [], _ => none
  | fuel + 1, b :: rest, acc =>
    if b = 34 then some (acc, rest)
    else if b = 92 then
      match rest with
      | [] => none
      | e :: rest1 =>
        if e = 117 then
          match hex4 rest1 with
          | none => none
          | some (cp, rest2) =>
            parseStringBody fuel (unescapeU cp rest2).2 (acc ++ utf8Encode (unescapeU cp rest2).1)
        else if e = 34 ∨ e = 92 ∨ e = 47 then parseStringBody fuel rest1 (acc ++ [e])
        else if e = 98 then parseStringBody fuel rest1 (acc ++ [8])
        else if e = 102 then parseStringBody fuel rest1 (acc ++ [12])
        else if e = 110 then parseStringBody fuel rest1 (acc ++ [10])
        else if e = 114 then parseStringBody fuel rest1 (acc ++ [13])
        else if e = 116 then parseStringBody fuel rest1 (acc ++ [9])
        else none
    else if b < 32 then none
    else parseStringBody fuel rest (acc ++ [b])

def isDigit (b : Nat) : Bool := decide (48 ≤ b) && decide (b ≤ 57)

/-- An integer literal at the start of the input. A literal with a fraction or
an exponent is outside what this instance reads. -/
def parseNumber (s : List Nat) : Option (Int × List Nat) :=
  let neg := s.head? = some 45
  let s1 := if neg then s.drop 1 else s
  let ds := s1.takeWhile isDigit
  let rest := s1.dropWhile isDigit
  let n : Nat := ds.foldl (fun a d => a * 10 + (d - 48)) 0
  if ds.isEmpty then none
  else if ds.length > 1 ∧ ds.head? = some 48 then none
  else if rest.head? = some 46 ∨ rest.head? = some 101 ∨ rest.head? = some 69 then none
  else some (if neg then - (n : Int) else (n : Int), rest)

mutual
/-- One JSON value at the start of the input, and the input after it. -/
def parseValue : Nat → List Nat → Option (Value × List Nat)
  | 0, _ => none
  | fuel + 1, s =>
    match skipWs s with
    | [] => none
    | b :: rest =>
      if b = 123 then parseMembers fuel rest []
      else if b = 91 then parseElems fuel rest []
      else if b = 34 then
        (parseStringBody (rest.length + 1) rest []).map (fun p => (Value.str p.1, p.2))
      else if b = 116 then
        if rest.take 3 = ascii "rue" then some (Value.bool true, rest.drop 3) else none
      else if b = 102 then
        if rest.take 4 = ascii "alse" then some (Value.bool false, rest.drop 4) else none
      else if b = 110 then
        if rest.take 3 = ascii "ull" then some (Value.null, rest.drop 3) else none
      else (parseNumber (b :: rest)).map (fun p => (Value.num p.1, p.2))
/-- The elements of an array after its opening bracket (or after a comma). -/
def parseElems : Nat → List Nat → List Value → Option (Value × List Nat)
  | 0, _, _ => none
  | fuel + 1, s, acc =>
    match skipWs s with
    | [] => none
    | b :: rest =>
      if b = 93 then (if acc.isEmpty then some (Value.arr [], rest) else none)
      else
        match parseValue fuel (b :: rest) with
        | none => none
        | some (v, rest1) =>
          match skipWs rest1 with
          | [] => none
          | c :: rest2 =>
            if c = 44 then parseElems fuel rest2 (acc ++ [v])
            else if c = 93 then some (Value.arr (acc ++ [v]), rest2)
            else none
/-- The members of an object after its opening brace (or after a comma). -/
def parseMembers : Nat → List Nat → List (GoString × Value) → Option (Value × List Nat)
  | 0, _, _ => none
  | fuel + 1, s, acc =>
    match skipWs s with
    | [] => none
    | b :: rest =>
      if b = 125 then (if acc.isEmpty then some (Value.obj [], rest) else none)
      else if b = 34 then
        match parseStringBody (rest.length + 1) rest [] with
        | none => none
        | some (k, rest1) =>
          match skipWs rest1 with
          | [] => none
          | c :: rest2 =>
            if c = 58 then
              match parseValue fuel rest2 with
              | none => none
              | some (v, rest3) =>
                match skipWs rest3 with
                | [] => none
                | d :: rest4 =>
                  if d = 44 then parseMembers fuel rest4 (acc ++ [(k, v)])
                  else if d = 125 then some (Value.obj (acc ++ [(k, v)]), rest4)
                  else none
            else none
      else none
end

/-- The value `json.Unmarshal` stores into an `any`: the input is one JSON value
between optional white space. -/
def unmarshalValue (s : List Nat) : Option Value :=
  match parseValue (s.length + 1) s with
  | some (v, rest) => if (skipWs rest).isEmpty then some v else none
  | none => none

def lower (b : Nat) : Nat := if 65 ≤ b ∧ b ≤ 90 then b + 32 else b

/-- Do a JSON key and a field name agree up to the case of letters? -/
def foldEq (a b : GoString) : Bool := a.map lower = b.map lower

/-- A `Response` after one member of the JSON object has been stored in it: a
member is matched to a field by its name up to case, `null` leaves a typed
field as it is, and a value of the wrong type is an error. -/
def setField (r : Response) (k : GoString) (v : Value) : Option Response :=
  if foldEq k (ascii "statusCode") then
    match v with
    | Value.null => some r
    | Value.num n =>
      if -9223372036854775808 ≤ n ∧ n ≤ 9223372036854775807 then some { r with statusCode := n }
      else none
    | _ => none
  else if foldEq k (ascii "statusMessage") then
    match v with
    | Value.null => some r
    | Value.str s => some { r with statusMessage := s }
    | _ => none
  else if foldEq k (ascii "version") then
    match v with
    | Value.null => some r
    | Value.num n =>
      if -9223372036854775808 ≤ n ∧ n ≤ 9223372036854775807 then some { r with version := n }
      else none
    | _ => none
  else if foldEq k (ascii "name") then
    match v with
    | Value.null => some r
    | Value.str s => some { r with name := s }
    | _ => none
  else if foldEq k (ascii "contentBody") then some { r with contentBody := v }
  else some r

def setFields : List (GoString × Value) → Response → Option Response
  | [], r => some r
  | (k, v) :: kvs, r =>
    match setField r k v with
    | none => none
    | some r1 => setFields kvs r1

/-- The `Response` `json.Unmarshal` leaves in a zero `Response`. -/
def unmarshalResponse (s : List Nat) : Option Response :=
  match unmarshalValue s with
  | some (Value.obj kvs) =>
    setFields kvs
      { statusCode := 0, statusMessage := [], version := 0, name := [],
        contentBody := Value.null }
  | some Value.null =>
    some { statusCode := 0, statusMessage := [], version := 0, name := [],
           contentBody := Value.null }
  | _ => none

def b64Val (b : Nat) : Option Nat :=
  if 65 ≤ b ∧ b ≤ 90 then some (b - 65)
  else if 97 ≤ b ∧ b ≤ 122 then some (b - 71)
  else if 48 ≤ b ∧ b ≤ 57 then some (b + 4)
  else if b = 43 then some 62
  else if b = 47 then some 63
  else none

/-- Standard base64 with padding, four characters at a time: the bytes decoded
so far and whether the whole input was well formed. -/
def b64Quanta : List Nat → List Nat → List Nat × Bool
  | [], acc => (acc, true)
  | a :: b :: c :: d :: rest, acc =>
    match b64Val a, b64Val b with
    | some va, some vb =>
      if c = 61 then
        if d = 61 ∧ rest.isEmpty then (acc ++ [(va * 4 + vb / 16) % 256], true)
        else (acc, false)
      else
        match b64Val c with
        | none => (acc, false)
        | some vc =>
          if d = 61 then
            if rest.isEmpty then
              (acc ++ [(va * 4 + vb / 16) % 256, (vb * 16 + vc / 4) % 256], true)
            else (acc, false)
          else
            match b64Val d with
            | none => (acc, false)
            | some vd =>
              b64Quanta rest
                (acc ++ [(va * 4 + vb / 16) % 256, (vb * 16 + vc / 4) % 256,
                  (vc * 64 + vd) % 256])
    | _, _ => (acc, false)
  | _, acc => (acc, false)

/-- The result of `base64.StdEncoding.DecodeString`, which skips carriage
returns and line feeds. -/
def base64Decode (s : GoString) : List Nat × Bool :=
  b64Quanta (s.filter (fun b => b ≠ 13 ∧ b ≠ 10)) []

/-- The executable library. -/
def goStd : StdLib :=
  { jsonMarshal := marshalValue
    jsonMarshalRequest := fun r => some (marshalRequest r)
    jsonUnmarshalResponse := unmarshalResponse
    jsonUnmarshal := unmarshalValue
    base64Decode := base64Decode }


/-! ## `parseContentBody` (`api/handlers.go`, lines 100-121) -/

/-- The source's `parseContentBody`: a value that is not a string and the empty
string are returned as they are; another string is returned decoded when
`json.Unmarshal` accepts it and as it is otherwise. -/
def parseContentBody (L : StdLib) (contentBody : Value) : Value :=
  match contentBody with
  | Value.str str =>
    if str = [] then Value.str str
    else
      match L.jsonUnmarshal str with
      | none => Value.str str
      | some parsed => parsed
  | v => v

/-! ## The session manager (`session/manager.go`) -/

/-- The struct `Session`; the client it points to is held by value. -/
structure Session where
  id : GoString
  client : Client
  host : GoString
  port : Int
  createdAt : Int
  lastUsed : Int

/-- The value `m[id]` of a map, with whether the key is present. -/
def mapGet : List (GoString × Session) → GoString → Option Session
  | [], _ => none
  | (k, s) :: rest, id => if k = id then some s else mapGet rest id

/-- The map after `delete(m, id)`. -/
def mapDelete (m : List (GoString × Session)) (id : GoString) : List (GoString × Session) :=
  m.filter (fun p => p.1 ≠ id)

/-- The map after `m[id] = s`. -/
def mapSet (m : List (GoString × Session)) (id : GoString) (s : Session) :
    List (GoString × Session) :=
  (id, s) :: mapDelete m id

/-- The struct `Manager`, without its lock. -/
structure Manager where
  sessions : List (GoString × Session)
  timeout : Int

/-- The source's `NewManager`; the sweep it starts is `Manager.cleanup`, run by
the environment once a minute. -/
def NewManager (timeout : Int) : Manager :=
  { sessions := [], timeout := timeout }

/-- The source's `generateSessionID`, on the 16 bytes `rand.Read` stored:
their lower-case hexadecimal text. -/
def generateSessionID (random : List Nat) : GoString :=
  random.flatMap (fun b => [hexDigit (b / 16), hexDigit (b % 16)])

/-- The source's `Manager.Create`. `dial` is the result of the dial inside
`Connect`, `random` the bytes of `rand.Read`, and `now1` and `now2` the two
readings of `time.Now()`. -/
def Manager.Create (L : StdLib) (counter : Nat) (m : Manager) (dial : Option Conn)
    (random : List Nat) (now1 now2 : Int) (host : GoString) (port : Int)
    (password : GoString) (dialTimeout maxRequestSize maxResponseSize : Int) :
    Nat × Manager × Except Error Session :=
  let client := NewClient host port password (dialTimeout * 1000000000) maxRequestSize
    maxResponseSize
  match Connect L counter client dial with
  | (counter1, _, Except.error err) => (counter1, m, Except.error err)
  | (counter1, client1, Except.ok _) =>
    let sessionID := generateSessionID random
    let session : Session :=
      { id := sessionID, client := client1, host := host, port := port,
        createdAt := now1, lastUsed := now2 }
    (counter1, { m with sessions := mapSet m.sessions sessionID session }, Except.ok session)

/-- The source's `Manager.Get` at the time `now`: the session, when there is
one, has its `lastUsed` set, in the map as in the result. -/
def Manager.Get (m : Manager) (now : Int) (sessionID : GoString) : Manager × Option Session :=
  match mapGet m.sessions sessionID with
  | some session =>
    ({ m with sessions := mapSet m.sessions sessionID { session with lastUsed := now } },
      some { session with lastUsed := now })
  | none => (m, none)

/-- The source's `Manager.Remove`; the second component lists the clients on
which `Close` was called, as `Close` left them. -/
def Manager.Remove (m : Manager) (sessionID : GoString) : Manager × List Client :=
  match mapGet m.sessions sessionID with
  | some session =>
    ({ m with sessions := mapDelete m.sessions sessionID }, [(Close session.client).1])
  | none => (m, [])

/-- One step of the loop of `cleanup`, on the entry `(id, session)`. -/
def cleanupStep (now timeout : Int) (acc : List (GoString × Session) × List Client)
    (p : GoString × Session) : List (GoString × Session) × List Client :=
  if now - p.2.lastUsed > timeout then
    (mapDelete acc.1 p.1, acc.2 ++ [(Close p.2.client).1])
  else acc

/-- The source's `Manager.cleanup` at the time `now`: the loop visits every
entry of the map once; the second component lists the clients on which `Close`
was called. -/
def Manager.cleanup (m : Manager) (now : Int) : Manager × List Client :=
  let r := m.sessions.foldl (cleanupStep now m.timeout) (m.sessions, [])
  ({ m with sessions := r.1 }, r.2)

/-! ## Values used in the examples -/

/-- An open connection on which the peer will deliver `incoming`. -/
def openConn (incoming : List ReadEvent) : Conn :=
  { incoming := incoming, written := [], writeFails := false, closed := false }

/-- The client of the end-to-end example, before `Connect`. -/
def freshClient : Client :=
  NewClient (ascii "127.0.0.1") 9001 (ascii "secret") 10 1048576 10485760

/-- A client with an open connection and no key, as `Connect` has it before
its first exchange. -/
def dialedClient (incoming : List ReadEvent) : Client :=
  { freshClient with conn := some (openConn incoming) }

/-- A client after a successful handshake: an open connection, the key
`testkey` and the token `tok-123`. -/
def readyClient (incoming : List ReadEvent) : Client :=
  { freshClient with
    conn := some (openConn incoming), xorKey := ascii "testkey", authToken := ascii "tok-123" }

/-- The keys of the map are pairwise different, as in every Go map. -/
def keysNodup (m : List (GoString × Session)) : Prop := (m.map Prod.fst).Nodup

/-- The frame of a response: the header with the id and the length of the
JSON text, then the text, encrypted with the key. -/
def replyFrame (id : Nat) (json key : List Nat) : List Nat :=
  putUint32 id ++ putUint32 json.length ++ XOR json key

/-- The answer to ServerConnect of the end-to-end example. -/
def keyReply : List Nat :=
  ascii ("\x7b\"statusCode\":200,\"statusMessage\":\"OK\",\"version\":2," ++
    "\"name\":\"ServerConnect\",\"contentBody\":\"dGVzdGtleQ==\"\x7d")

/-- An answer to ServerConnect whose content is not base64. -/
def badKeyReply : List Nat :=
  ascii ("\x7b\"statusCode\":200,\"statusMessage\":\"OK\",\"version\":2," ++
    "\"name\":\"ServerConnect\",\"contentBody\":\"!!!\"\x7d")

/-- The answer to Login of the end-to-end example. -/
def loginReply : List Nat :=
  ascii ("\x7b\"statusCode\":200,\"statusMessage\":\"OK\",\"version\":2," ++
    "\"name\":\"Login\",\"contentBody\":\"tok-123\"\x7d")

/-- The answer to GetServerInformation of the end-to-end example: its content
is the string `{"players":[]}`. -/
def playersReply : List Nat :=
  ascii ("\x7b\"statusCode\":200,\"statusMessage\":\"OK\",\"version\":2," ++
    "\"name\":\"GetServerInformation\",\"contentBody\":\"\x7b\\\"players\\\":[]\x7d\"\x7d")

/-- An answer with a status other than 200. -/
def rejectedReply : List Nat :=
  ascii ("\x7b\"statusCode\":400,\"statusMessage\":\"Bad Request\",\"version\":2," ++
    "\"name\":\"GetServerInformation\",\"contentBody\":\"\"\x7d")

/-- What the peer of the end-to-end example sends during the handshake, when
the request ids are 1 and 2. -/
def handshakeScript : List ReadEvent :=
  [ReadEvent.data (replyFrame 1 keyReply []),
   ReadEvent.data (replyFrame 2 loginReply (ascii "testkey"))]

/-- A session whose client is connected. -/
def exampleSession (id : GoString) (lastUsed : Int) : Session :=
  { id := id, client := readyClient [], host := ascii "127.0.0.1", port := 9001,
    createdAt := 0, lastUsed := lastUsed }

/-- A manager with an idle timeout of 50 and two sessions, last used at the
times 0 and 100. -/
def exampleManager : Manager :=
  { sessions := [(ascii "aa", exampleSession (ascii "aa") 0),
                 (ascii "bb", exampleSession (ascii "bb") 100)],
    timeout := 50 }

/-- The client of the end-to-end example after its handshake; the peer will
next answer the request with id 3. -/
def exampleReady : Client :=
  (Connect goStd 0 freshClient (some (openConn (handshakeScript ++
    [ReadEvent.data (replyFrame 3 playersReply (ascii "testkey"))])))).2.1

/-! ## Facts about `XOR` -/

theorem XOR_length (data key : List Nat) : (XOR data key).length = data.length := by
  unfold XOR
  split <;> simp

theorem XOR_nil_key (data : List Nat) : XOR data [] = data := by
  simp [XOR]

theorem XOR_getD (data key : List Nat) (hk : key ≠ []) (i : Nat) (hi : i < data.length) :
    (XOR data key).getD i 0 = Nat.xor (data.getD i 0) (key.getD (i % key.length) 0) := by
  have hlen : key.length ≠ 0 := by
    intro h
    exact hk (List.length_eq_zero.mp h)
  simp [XOR, hlen, List.getD_eq_getElem?_getD, List.getElem?_map, List.getElem?_range hi]

/-- The result of `XOR` on bytes is made of bytes. -/
theorem XOR_bytes (data key : List Nat) (hd : ∀ b ∈ data, b < 256) (hk : ∀ b ∈ key, b < 256) :
    ∀ b ∈ XOR data key, b < 256 := by
  unfold XOR
  split
  · exact hd
  · rename_i hne
    intro b hb
    simp only [List.mem_map, List.mem_range] at hb
    obtain ⟨i, hi, rfl⟩ := hb
    have h1 : data.getD i 0 < 2 ^ 8 := by
      rw [List.getD_eq_getElem _ _ hi]
      exact hd _ (List.getElem_mem hi)
    have hi2 : i % key.length < key.length := Nat.mod_lt _ (Nat.pos_of_ne_zero hne)
    have h2 : key.getD (i % key.length) 0 < 2 ^ 8 := by
      rw [List.getD_eq_getElem _ _ hi2]
      exact hk _ (List.getElem_mem hi2)
    exact Nat.xor_lt_two_pow h1 h2

theorem XOR_XOR (data key : List Nat) : XOR (XOR data key) key = data := by
  by_cases hk : key = []
  · subst hk
    simp [XOR_nil_key]
  · apply List.ext_getElem
    · simp [XOR_length]
    · intro i h1 h2
      have hi : i < (XOR data key).length := by simpa [XOR_length] using h2
      have e1 := XOR_getD (XOR data key) key hk i hi
      have e2 := XOR_getD data key hk i h2
      rw [e2] at e1
      have e3 : (XOR (XOR data key) key).getD i 0 = data.getD i 0 := by
        rw [e1]
        exact Nat.xor_cancel_right _ _
      simpa [List.getD_eq_getElem?_getD, List.getElem?_eq_getElem h1,
        List.getElem?_eq_getElem h2] using e3

/-- C1: for every byte sequence `d` and every non-empty key `k`,
`XOR (XOR d k) k = d`. -/
theorem XOR_involutive (d k : List Nat) (_hk : k ≠ []) : XOR (XOR d k) k = d :=
  XOR_XOR d k

theorem XOR_involutive_witness :
    ([116, 101, 115, 116] : List Nat) ≠ [] ∧
      XOR (XOR [1, 2, 3, 250, 255, 0] [116, 101, 115, 116]) [116, 101, 115, 116]
        = [1, 2, 3, 250, 255, 0] :=
  ⟨by decide, XOR_involutive [1, 2, 3, 250, 255, 0] [116, 101, 115, 116] (by decide)⟩

/-- C2: with an empty key `XOR data key` is `data`; with a non-empty key the
result has the length of `data` and its byte at every index `i < len(data)` is
`data[i] xor key[i mod len(key)]`. -/
theorem XOR_spec (data key : List Nat) :
    (key = [] → XOR data key = data) ∧
    (key ≠ [] →
      (XOR data key).length = data.length ∧
      ∀ i, i < data.length →
        (XOR data key)[i]? = some (Nat.xor (data.getD i 0) (key.getD (i % key.length) 0))) := by
  refine ⟨?_, ?_⟩
  · intro hk
    subst hk
    exact XOR_nil_key data
  · intro hk
    refine ⟨XOR_length data key, ?_⟩
    intro i hi
    have hi2 : i < (XOR data key).length := by simpa [XOR_length] using hi
    have e := XOR_getD data key hk i hi
    rw [← e]
    simp [List.getD_eq_getElem?_getD, List.getElem?_eq_getElem hi2]

theorem XOR_spec_witness :
    XOR [1, 2, 3] [] = [1, 2, 3] ∧
    (XOR [1, 2, 3] [7, 9]).length = 3 ∧
    (XOR [1, 2, 3] [7, 9])[2]? = some (Nat.xor 3 7) :=
  ⟨(XOR_spec [1, 2, 3] []).1 rfl,
   ((XOR_spec [1, 2, 3] [7, 9]).2 (by decide)).1,
   ((XOR_spec [1, 2, 3] [7, 9]).2 (by decide)).2 2 (by decide)⟩

/-! ## Facts about the header and `PackRequest` -/

theorem putUint32_length (v : Nat) : (putUint32 v).length = 4 := rfl

theorem uint32LE_putUint32 (v : Nat) : uint32LE (putUint32 v) = v % 2 ^ 32 := by
  simp only [uint32LE, putUint32, List.getD_cons_zero, List.getD_cons_succ]
  omega

theorem decodeHeader_frame (a b : Nat) (body : List Nat) :
    decodeHeader ((putUint32 a ++ putUint32 b ++ body).take HeaderSize)
      = (a % 2 ^ 32, b % 2 ^ 32) := by
  have e1 : (putUint32 a ++ putUint32 b ++ body).take HeaderSize
      = putUint32 a ++ putUint32 b := by
    simp [putUint32, HeaderSize]
  have e2 : (putUint32 a ++ putUint32 b).take 4 = putUint32 a := by simp [putUint32]
  have e3 : ((putUint32 a ++ putUint32 b).drop 4).take 4 = putUint32 b := by simp [putUint32]
  rw [e1, decodeHeader, e2, e3, uint32LE_putUint32, uint32LE_putUint32]

/-- What a successful `PackRequest` returns, in terms of the string chosen for
the content body and the JSON text of the request. -/
theorem PackRequest_ok (L : StdLib) (counter : Nat) (tok cmd : GoString) (cb : Value)
    (data : List Nat) (id : Nat)
    (h : (PackRequest L counter tok cmd cb).2 = Except.ok (data, id)) :
    ∃ s body, contentBodyString L cb = Except.ok s ∧
      L.jsonMarshalRequest
        { authToken := tok, version := Version, name := cmd, contentBody := s } = some body ∧
      id = (counter + 1) % 2 ^ 32 ∧
      data = putUint32 id ++ putUint32 (body.length % 2 ^ 32) ++ body := by
  unfold PackRequest at h
  cases hs : contentBodyString L cb with
  | error e => simp [hs] at h
  | ok s =>
    simp only [hs] at h
    cases hb : L.jsonMarshalRequest
        { authToken := tok, version := Version, name := cmd, contentBody := s } with
    | none => simp [hb] at h
    | some body =>
      simp only [hb, Except.ok.injEq, Prod.mk.injEq] at h
      obtain ⟨h1, h2⟩ := h
      exact ⟨s, body, rfl, hb, h2.symm, by rw [← h1, ← h2]⟩

theorem PackRequest_counter (L : StdLib) (counter : Nat) (tok cmd : GoString) (cb : Value) :
    (PackRequest L counter tok cmd cb).1 = (counter + 1) % 2 ^ 32 := by
  unfold PackRequest
  cases contentBodyString L cb with
  | error e => rfl
  | ok s =>
    simp only
    cases L.jsonMarshalRequest
        { authToken := tok, version := Version, name := cmd, contentBody := s } <;> rfl

/-! ## C3: the frame `PackRequest` returns -/

theorem escape_replicate (n : Nat) :
    (List.replicate n 97).flatMap escapeByte = List.replicate n 97 := by
  induction n with
  | zero => rfl
  | succ n ih =>
    rw [List.replicate_succ, List.flatMap_cons, ih]
    rfl

theorem marshalRequest_replicate_length (n : Nat) :
    (marshalRequest
      { authToken := [], version := Version, name := [],
        contentBody := List.replicate n 97 }).length = n + 55 := by
  have e : ∀ (a b c : List Nat), (a ++ ([34] ++ b ++ [34]) ++ c).length
      = a.length + c.length + 2 + b.length := by
    intro a b c
    simp only [List.length_append, List.length_singleton]
    omega
  have hm : marshalRequest
      { authToken := [], version := Version, name := [],
        contentBody := List.replicate n 97 }
      = (ascii "\x7b\"authToken\":" ++ quoteString [] ++ ascii ",\"version\":" ++
          intText Version ++ ascii ",\"name\":" ++ quoteString [] ++
          ascii ",\"contentBody\":") ++
        ([34] ++ (List.replicate n 97).flatMap escapeByte ++ [34]) ++ ascii "\x7d" := rfl
  have h1 : (ascii "\x7b\"authToken\":" ++ quoteString [] ++ ascii ",\"version\":" ++
      intText Version ++ ascii ",\"name\":" ++ quoteString [] ++
      ascii ",\"contentBody\":").length = 52 := by decide
  have h2 : (ascii "\x7d").length = 1 := by decide
  rw [hm, escape_replicate, e, List.length_replicate, h1, h2]
  omega

/-- C3, counterexample: for a content body of `2 ^ 32` bytes `PackRequest`
succeeds and the length field of the header differs from the length of the
body that follows the header. -/
theorem PackRequest_header_counterexample :
    ∃ data id,
      (PackRequest goStd 0 [] [] (Value.str (List.replicate (2 ^ 32) 97))).2
        = Except.ok (data, id) ∧
      (decodeHeader (data.take HeaderSize)).2 ≠ (data.drop HeaderSize).length := by
  obtain ⟨body, hb⟩ : ∃ body, body = marshalRequest
      { authToken := [], version := Version, name := [],
        contentBody := List.replicate (2 ^ 32) 97 } := ⟨_, rfl⟩
  have hlen : body.length = 2 ^ 32 + 55 := by
    rw [hb]
    exact marshalRequest_replicate_length (2 ^ 32)
  refine ⟨putUint32 ((0 + 1) % 2 ^ 32) ++ putUint32 (body.length % 2 ^ 32) ++ body,
    (0 + 1) % 2 ^ 32, ?_, ?_⟩
  · rw [hb]
    rfl
  · rw [decodeHeader_frame]
    have hd : (putUint32 ((0 + 1) % 2 ^ 32) ++ putUint32 (body.length % 2 ^ 32) ++ body).drop
        HeaderSize = body := by
      simp [putUint32, HeaderSize]
    rw [hd, hlen]
    norm_num

/-- C3, amended: when `PackRequest` succeeds the returned bytes are an 8-byte
header followed by the JSON text of the request (total length `8 + len(body)`),
and the first 8 bytes decode, as two little-endian 32-bit integers, to the
returned request id and to `len(body) mod 2 ^ 32`: the length of the body
itself for every body shorter than `2 ^ 32` bytes. -/
theorem PackRequest_frame (L : StdLib) (counter : Nat) (tok cmd : GoString) (cb : Value)
    (data : List Nat) (id : Nat)
    (h : (PackRequest L counter tok cmd cb).2 = Except.ok (data, id)) :
    ∃ s body, contentBodyString L cb = Except.ok s ∧
      L.jsonMarshalRequest
        { authToken := tok, version := Version, name := cmd, contentBody := s } = some body ∧
      (data.take HeaderSize).length = 8 ∧
      data.drop HeaderSize = body ∧
      data.length = 8 + body.length ∧
      decodeHeader (data.take HeaderSize) = (id, body.length % 2 ^ 32) ∧
      (body.length < 2 ^ 32 → decodeHeader (data.take HeaderSize) = (id, body.length)) := by
  obtain ⟨s, body, hs, hb, hid, hdata⟩ := PackRequest_ok L counter tok cmd cb data id h
  have hidlt : id % 2 ^ 32 = id := by
    rw [hid]
    exact Nat.mod_mod _ _
  have hdec : decodeHeader (data.take HeaderSize) = (id, body.length % 2 ^ 32) := by
    rw [hdata, decodeHeader_frame, hidlt, Nat.mod_mod]
  refine ⟨s, body, hs, hb, ?_, ?_, ?_, hdec, ?_⟩
  · rw [hdata]
    simp [putUint32, HeaderSize]
  · rw [hdata]
    simp [putUint32, HeaderSize]
  · rw [hdata]
    simp [putUint32]
    omega
  · intro hlt
    rw [hdec, Nat.mod_eq_of_lt hlt]

theorem PackRequest_frame_witness :
    ∃ s body, contentBodyString goStd (Value.str []) = Except.ok s ∧
      goStd.jsonMarshalRequest
        { authToken := [], version := Version, name := ascii "ServerConnect",
          contentBody := s } = some body ∧
      ((putUint32 42 ++ putUint32 68 ++ marshalRequest
          { authToken := [], version := 2, name := ascii "ServerConnect",
            contentBody := [] }).take HeaderSize).length = 8 ∧
      (putUint32 42 ++ putUint32 68 ++ marshalRequest
          { authToken := [], version := 2, name := ascii "ServerConnect",
            contentBody := [] }).drop HeaderSize = body ∧
      (putUint32 42 ++ putUint32 68 ++ marshalRequest
          { authToken := [], version := 2, name := ascii "ServerConnect",
            contentBody := [] }).length = 8 + body.length ∧
      decodeHeader ((putUint32 42 ++ putUint32 68 ++ marshalRequest
          { authToken := [], version := 2, name := ascii "ServerConnect",
            contentBody := [] }).take HeaderSize) = (42, body.length % 2 ^ 32) ∧
      (body.length < 2 ^ 32 →
        decodeHeader ((putUint32 42 ++ putUint32 68 ++ marshalRequest
          { authToken := [], version := 2, name := ascii "ServerConnect",
            contentBody := [] }).take HeaderSize) = (42, body.length)) :=
  PackRequest_frame goStd 41 [] (ascii "ServerConnect") (Value.str [])
    (putUint32 42 ++ putUint32 68 ++ marshalRequest
      { authToken := [], version := 2, name := ascii "ServerConnect", contentBody := [] })
    42 rfl

/-! ## C4: the request `PackRequest` serialises -/

theorem contentBodyString_other (L : StdLib) (cb : Value)
    (h1 : ∀ t, cb ≠ Value.str t) (h2 : cb ≠ Value.null) :
    contentBodyString L cb =
      match L.jsonMarshal cb with
      | none => Except.error Error.marshalContentBody
      | some encoded => Except.ok encoded := by
  cases cb with
  | str t => exact absurd rfl (h1 t)
  | null => exact absurd rfl h2
  | bool b => rfl
  | num n => rfl
  | arr xs => rfl
  | obj kvs => rfl
  | unsupported => rfl

theorem PackRequest_of_string (L : StdLib) (counter : Nat) (tok cmd : GoString) (cb : Value)
    (s body : GoString) (hs : contentBodyString L cb = Except.ok s)
    (hb : L.jsonMarshalRequest
      { authToken := tok, version := Version, name := cmd, contentBody := s } = some body) :
    (PackRequest L counter tok cmd cb).2 =
      Except.ok (putUint32 ((counter + 1) % 2 ^ 32) ++ putUint32 (body.length % 2 ^ 32) ++ body,
        (counter + 1) % 2 ^ 32) := by
  unfold PackRequest
  simp only [hs, hb]

/-- C4: the request `PackRequest` serialises has `authToken` the given token,
`version` 2, `name` the command and a `contentBody` that is a string: the value
itself for a string, the empty string for nil, the JSON text of the value
otherwise; and `PackRequest` fails exactly when the content body is neither a
string nor nil and cannot be JSON-encoded. (`hreq`: `json.Marshal` does not
fail on a struct of strings and an integer.) -/
theorem PackRequest_request (L : StdLib)
    (hreq : ∀ r, ∃ body, L.jsonMarshalRequest r = some body)
    (counter : Nat) (tok cmd : GoString) (cb : Value) :
    (∀ s, (cb = Value.str s ∨ (cb = Value.null ∧ s = []) ∨
          ((∀ t, cb ≠ Value.str t) ∧ cb ≠ Value.null ∧ L.jsonMarshal cb = some s)) →
      ∃ body,
        L.jsonMarshalRequest
          { authToken := tok, version := 2, name := cmd, contentBody := s } = some body ∧
        (PackRequest L counter tok cmd cb).2 =
          Except.ok
            (putUint32 ((counter + 1) % 2 ^ 32) ++ putUint32 (body.length % 2 ^ 32) ++ body,
              (counter + 1) % 2 ^ 32)) ∧
    ((∃ e, (PackRequest L counter tok cmd cb).2 = Except.error e) ↔
      ((∀ t, cb ≠ Value.str t) ∧ cb ≠ Value.null ∧ L.jsonMarshal cb = none)) := by
  constructor
  · intro s hcase
    have hs : contentBodyString L cb = Except.ok s := by
      rcases hcase with h | ⟨h, h0⟩ | ⟨h1, h2, h3⟩
      · subst h
        rfl
      · subst h
        subst h0
        rfl
      · rw [contentBodyString_other L cb h1 h2, h3]
    obtain ⟨body, hb⟩ := hreq { authToken := tok, version := 2, name := cmd, contentBody := s }
    exact ⟨body, hb, PackRequest_of_string L counter tok cmd cb s body hs hb⟩
  · constructor
    · rintro ⟨e, he⟩
      by_cases h1 : ∀ t, cb ≠ Value.str t
      · by_cases h2 : cb = Value.null
        · subst h2
          obtain ⟨body, hb⟩ :=
            hreq { authToken := tok, version := Version, name := cmd, contentBody := [] }
          rw [PackRequest_of_string L counter tok cmd Value.null [] body rfl hb] at he
          cases he
        · refine ⟨h1, h2, ?_⟩
          cases hm : L.jsonMarshal cb with
          | none => rfl
          | some t =>
            have hs : contentBodyString L cb = Except.ok t := by
              rw [contentBodyString_other L cb h1 h2, hm]
            obtain ⟨body, hb⟩ :=
              hreq { authToken := tok, version := Version, name := cmd, contentBody := t }
            rw [PackRequest_of_string L counter tok cmd cb t body hs hb] at he
            cases he
      · push_neg at h1
        obtain ⟨t, ht⟩ := h1
        subst ht
        obtain ⟨body, hb⟩ :=
          hreq { authToken := tok, version := Version, name := cmd, contentBody := t }
        rw [PackRequest_of_string L counter tok cmd (Value.str t) t body rfl hb] at he
        cases he
    · rintro ⟨h1, h2, h3⟩
      refine ⟨Error.marshalContentBody, ?_⟩
      unfold PackRequest
      rw [contentBodyString_other L cb h1 h2, h3]

theorem PackRequest_request_witness :
    ∃ body,
      goStd.jsonMarshalRequest
        { authToken := ascii "tok-123", version := 2, name := ascii "GetServerInformation",
          contentBody := ascii "\x7b\"Name\":\"players\"\x7d" } = some body ∧
      (PackRequest goStd 7 (ascii "tok-123") (ascii "GetServerInformation")
          (Value.obj [(ascii "Name", Value.str (ascii "players"))])).2 =
        Except.ok
          (putUint32 ((7 + 1) % 2 ^ 32) ++ putUint32 (body.length % 2 ^ 32) ++ body,
            (7 + 1) % 2 ^ 32) :=
  (PackRequest_request goStd (fun r => ⟨marshalRequest r, rfl⟩) 7 (ascii "tok-123")
      (ascii "GetServerInformation")
      (Value.obj [(ascii "Name", Value.str (ascii "players"))])).1
    (ascii "\x7b\"Name\":\"players\"\x7d")
    (Or.inr (Or.inr ⟨fun _ h => Value.noConfusion h, fun h => Value.noConfusion h, rfl⟩))

/-! ## Facts about the connection and the body loop -/

theorem Conn.Read_written (conn : Conn) (n : Nat) : (conn.Read n).1.written = conn.written := by
  unfold Conn.Read
  split
  · rfl
  · split
    · rfl
    · rfl
    · split <;> rfl

theorem Conn.Read_closed (conn : Conn) (n : Nat) : (conn.Read n).1.closed = conn.closed := by
  unfold Conn.Read
  split
  · rfl
  · split
    · rfl
    · rfl
    · split <;> rfl

theorem Conn.Read_writeFails (conn : Conn) (n : Nat) :
    (conn.Read n).1.writeFails = conn.writeFails := by
  unfold Conn.Read
  split
  · rfl
  · split
    · rfl
    · rfl
    · split <;> rfl

/-- The body loop fails only with the read error. -/
theorem readBody_error (fuel : Nat) (conn : Conn) (contentLength : Nat) (body : List Nat)
    (totalRead : Nat) (conn1 : Conn) (e : Error)
    (h : readBody fuel conn contentLength body totalRead = (conn1, some (Except.error e))) :
    e = Error.readBodyFailed := by
  induction fuel generalizing conn body totalRead with
  | zero =>
    unfold readBody at h
    split at h <;> simp at h
  | succ fuel ih =>
    unfold readBody at h
    split at h
    · split at h
      · simp only [Prod.mk.injEq, Option.some.injEq, Except.error.injEq] at h
        exact h.2.symm
      · exact ih _ _ _ h
    · simp at h

/-- The body loop leaves the written bytes, the closed flag and the write flag
of the connection as they are. -/
theorem readBody_frame (fuel : Nat) (conn : Conn) (contentLength : Nat) (body : List Nat)
    (totalRead : Nat) :
    (readBody fuel conn contentLength body totalRead).1.written = conn.written ∧
    (readBody fuel conn contentLength body totalRead).1.closed = conn.closed ∧
    (readBody fuel conn contentLength body totalRead).1.writeFails = conn.writeFails := by
  induction fuel generalizing conn body totalRead with
  | zero =>
    unfold readBody
    split <;> exact ⟨rfl, rfl, rfl⟩
  | succ fuel ih =>
    unfold readBody
    split
    · have hw := Conn.Read_written conn (body.length - totalRead)
      have hc := Conn.Read_closed conn (body.length - totalRead)
      have hf := Conn.Read_writeFails conn (body.length - totalRead)
      split
      · rename_i conn1 heq
        rw [heq] at hw hc hf
        exact ⟨hw, hc, hf⟩
      · rename_i conn1 got heq
        rw [heq] at hw hc hf
        obtain ⟨i1, i2, i3⟩ := ih conn1 (storeAt body totalRead got) (totalRead + got.length)
        exact ⟨i1.trans hw, i2.trans hc, i3.trans hf⟩
    · exact ⟨rfl, rfl, rfl⟩

theorem storeAt_length (buf : List Nat) (off : Nat) (got : List Nat)
    (h : off + got.length ≤ buf.length) : (storeAt buf off got).length = buf.length := by
  simp only [storeAt, List.length_append, List.length_take, List.length_drop]
  omega

/-- The fuel `exchangeUnlocked` gives the body loop is enough: with more fuel
than the connection has events left, the loop ends with a body or an error. -/
theorem readBody_fuel (fuel : Nat) (conn : Conn) (contentLength : Nat) (body : List Nat)
    (totalRead : Nat) (hlen : body.length = contentLength) (ht : totalRead ≤ contentLength)
    (hf : conn.incoming.length < fuel ∨ contentLength ≤ totalRead) :
    (readBody fuel conn contentLength body totalRead).2 ≠ none := by
  induction fuel generalizing conn body totalRead with
  | zero =>
    have h0 : ¬ totalRead < contentLength := by
      rcases hf with h | h
      · exact absurd h (Nat.not_lt_zero _)
      · exact Nat.not_lt.mpr h
    unfold readBody
    simp [h0]
  | succ fuel ih =>
    unfold readBody
    by_cases hlt : totalRead < contentLength
    · simp only [hlt, if_true]
      have hfl : conn.incoming.length < fuel + 1 := by
        rcases hf with h | h
        · exact h
        · exact absurd hlt (Nat.not_lt.mpr h)
      cases hR : conn.Read (body.length - totalRead) with
      | mk conn1 og =>
        cases og with
        | none => simp
        | some got =>
          simp only
          unfold Conn.Read at hR
          split at hR
          · cases hR
          · split at hR
            · cases hR
            · cases hR
            · rename_i bs rest hinc
              rw [hinc] at hfl
              simp only [List.length_cons] at hfl
              split at hR
              · rename_i hle
                simp only [Prod.mk.injEq, Option.some.injEq] at hR
                obtain ⟨hc1, hg⟩ := hR
                subst hg
                subst hc1
                apply ih
                · rw [storeAt_length _ _ _ (by omega)]
                  exact hlen
                · omega
                · left
                  simp only
                  omega
              · rename_i hnle
                simp only [Prod.mk.injEq, Option.some.injEq] at hR
                obtain ⟨hc1, hg⟩ := hR
                subst hg
                subst hc1
                have hgl : (List.take (body.length - totalRead) bs).length
                    = body.length - totalRead := by
                  rw [List.length_take]
                  omega
                apply ih
                · rw [storeAt_length _ _ _ (by omega)]
                  exact hlen
                · omega
                · right
                  omega
    · simp [hlt]

theorem PackRequest_eq (L : StdLib) (counter : Nat) (tok cmd : GoString) (cb : Value)
    (r : Except Error (List Nat × Nat)) (h : (PackRequest L counter tok cmd cb).2 = r) :
    PackRequest L counter tok cmd cb = ((counter + 1) % 2 ^ 32, r) := by
  rw [← h, ← PackRequest_counter L counter tok cmd cb]

/-! ## C5: the request-size ceiling -/

/-- C5: when the frame `PackRequest` returns is longer than `maxRequestSize`
the exchange returns the request-too-large error and leaves the client, and so
its connection, as it was (nothing written, nothing read); a frame of length at
most `maxRequestSize` never gives the request-too-large error. -/
theorem exchange_request_too_large (L : StdLib) (counter : Nat) (c : Client)
    (cmd : GoString) (cb : Value) (data : List Nat) (id : Nat)
    (hp : (PackRequest L counter c.authToken cmd cb).2 = Except.ok (data, id)) :
    ((data.length : Int) > c.maxRequestSize →
      exchangeUnlocked L counter c cmd cb =
        ((counter + 1) % 2 ^ 32, c,
          Except.error (Error.requestTooLarge data.length c.maxRequestSize))) ∧
    ((data.length : Int) ≤ c.maxRequestSize →
      ∀ n m, (exchangeUnlocked L counter c cmd cb).2.2
        ≠ Except.error (Error.requestTooLarge n m)) := by
  have hfull := PackRequest_eq L counter c.authToken cmd cb _ hp
  constructor
  · intro hgt
    unfold exchangeUnlocked
    rw [hfull]
    simp only [hgt, if_true]
  · intro hle n m
    unfold exchangeUnlocked
    rw [hfull]
    simp only [not_lt.mpr hle, if_false]
    repeat' split
    all_goals first
      | (intro hcontra; cases hcontra; done)
      | (rename_i heq
         intro hcontra
         have := readBody_error _ _ _ _ _ _ _ heq
         simp only [Except.error.injEq] at hcontra
         rw [hcontra] at this
         cases this)

theorem exchange_request_too_large_witness :
    exchangeUnlocked goStd 0 { dialedClient [] with maxRequestSize := 10 }
        (ascii "ServerConnect") (Value.str []) =
      ((0 + 1) % 2 ^ 32, { dialedClient [] with maxRequestSize := 10 },
        Except.error (Error.requestTooLarge 76 10)) ∧
    ∀ n m, (exchangeUnlocked goStd 0 (dialedClient []) (ascii "ServerConnect")
        (Value.str [])).2.2 ≠ Except.error (Error.requestTooLarge n m) :=
  ⟨(exchange_request_too_large goStd 0 { dialedClient [] with maxRequestSize := 10 }
      (ascii "ServerConnect") (Value.str []) _ _ rfl).1 (by decide),
   (exchange_request_too_large goStd 0 (dialedClient [])
      (ascii "ServerConnect") (Value.str []) _ _ rfl).2 (by decide)⟩

/-! ## C6: the response-size ceiling -/

/-- The exchange from the point where the header has been read. -/
theorem exchange_after_header (L : StdLib) (counter : Nat) (c : Client)
    (cmd : GoString) (cb : Value) (data : List Nat) (id : Nat) (conn conn1 conn2 : Conn)
    (got : List Nat)
    (hp : (PackRequest L counter c.authToken cmd cb).2 = Except.ok (data, id))
    (hsz : (data.length : Int) ≤ c.maxRequestSize)
    (hc : c.conn = some conn)
    (hw : conn.Write (encryptFrame data c.xorKey) = (conn1, true))
    (hr : conn1.Read HeaderSize = (conn2, some got)) :
    exchangeUnlocked L counter c cmd cb =
      if ((decodeHeader (storeAt (List.replicate HeaderSize 0) 0 got)).2 : Int)
          > c.maxResponseSize then
        ((counter + 1) % 2 ^ 32, { c with conn := some conn2 },
          Except.error (Error.responseTooLarge
            (decodeHeader (storeAt (List.replicate HeaderSize 0) 0 got)).2 c.maxResponseSize))
      else
        match readBody (conn2.incoming.length + 1) conn2
            (decodeHeader (storeAt (List.replicate HeaderSize 0) 0 got)).2
            (List.replicate (decodeHeader (storeAt (List.replicate HeaderSize 0) 0 got)).2 0)
            0 with
        | (conn3, none) =>
          ((counter + 1) % 2 ^ 32, { c with conn := some conn3 },
            Except.error Error.readBodyFailed)
        | (conn3, some (Except.error e)) =>
          ((counter + 1) % 2 ^ 32, { c with conn := some conn3 }, Except.error e)
        | (conn3, some (Except.ok body0)) =>
          match L.jsonUnmarshalResponse
              (if c.xorKey.length > 0 then XOR body0 c.xorKey else body0) with
          | none =>
            ((counter + 1) % 2 ^ 32, { c with conn := some conn3 },
              Except.error Error.unmarshalResponse)
          | some resp =>
            if (decodeHeader (storeAt (List.replicate HeaderSize 0) 0 got)).1 ≠ id then
              ((counter + 1) % 2 ^ 32, { c with conn := some conn3 },
                Except.error (Error.responseIDMismatch id
                  (decodeHeader (storeAt (List.replicate HeaderSize 0) 0 got)).1))
            else ((counter + 1) % 2 ^ 32, { c with conn := some conn3 }, Except.ok resp) := by
  have hfull := PackRequest_eq L counter c.authToken cmd cb _ hp
  unfold exchangeUnlocked
  rw [hfull]
  simp only [not_lt.mpr hsz, if_false, hc, hw, hr]
  rfl

/-- C6: when the header that was read announces a content length above
`maxResponseSize` the exchange returns the response-too-large error and the
connection is in the state the header read left it in (no body read); a
content length of at most `maxResponseSize` never gives the response-too-large
error. -/
theorem exchange_response_too_large (L : StdLib) (counter : Nat) (c : Client)
    (cmd : GoString) (cb : Value) (data : List Nat) (id : Nat) (conn conn1 conn2 : Conn)
    (got : List Nat)
    (hp : (PackRequest L counter c.authToken cmd cb).2 = Except.ok (data, id))
    (hsz : (data.length : Int) ≤ c.maxRequestSize)
    (hc : c.conn = some conn)
    (hw : conn.Write (encryptFrame data c.xorKey) = (conn1, true))
    (hr : conn1.Read HeaderSize = (conn2, some got)) :
    (((decodeHeader (storeAt (List.replicate HeaderSize 0) 0 got)).2 : Int)
        > c.maxResponseSize →
      exchangeUnlocked L counter c cmd cb =
        ((counter + 1) % 2 ^ 32, { c with conn := some conn2 },
          Except.error (Error.responseTooLarge
            (decodeHeader (storeAt (List.replicate HeaderSize 0) 0 got)).2
            c.maxResponseSize))) ∧
    (((decodeHeader (storeAt (List.replicate HeaderSize 0) 0 got)).2 : Int)
        ≤ c.maxResponseSize →
      ∀ n m, (exchangeUnlocked L counter c cmd cb).2.2
        ≠ Except.error (Error.responseTooLarge n m)) := by
  rw [exchange_after_header L counter c cmd cb data id conn conn1 conn2 got hp hsz hc hw hr]
  constructor
  · intro hgt
    simp only [hgt, if_true]
  · intro hle n m
    simp only [not_lt.mpr hle, if_false]
    repeat' split
    all_goals first
      | (intro hcontra; cases hcontra; done)
      | (rename_i heq
         intro hcontra
         have := readBody_error _ _ _ _ _ _ _ heq
         simp only [Except.error.injEq] at hcontra
         rw [hcontra] at this
         cases this)

theorem exchange_response_too_large_witness :
    (exchangeUnlocked goStd 0
        (dialedClient [ReadEvent.data (putUint32 1 ++ putUint32 20000000 ++ [1, 2, 3])])
        (ascii "ServerConnect") (Value.str [])).2.2
      = Except.error (Error.responseTooLarge 20000000 10485760) ∧
    (exchangeUnlocked goStd 0
        (dialedClient [ReadEvent.data (putUint32 1 ++ putUint32 20000000 ++ [1, 2, 3])])
        (ascii "ServerConnect") (Value.str [])).2.1.conn.map Conn.incoming
      = some [ReadEvent.data [1, 2, 3]] := by
  have h := (exchange_response_too_large goStd 0
    (dialedClient [ReadEvent.data (putUint32 1 ++ putUint32 20000000 ++ [1, 2, 3])])
    (ascii "ServerConnect") (Value.str []) _ _
    (openConn [ReadEvent.data (putUint32 1 ++ putUint32 20000000 ++ [1, 2, 3])]) _ _ _
    rfl (by decide) rfl rfl rfl).1 (by decide)
  rw [h]
  exact ⟨rfl, rfl⟩

/-! ## C7: the bytes written -/

theorem Conn.Write_ok (conn : Conn) (data : List Nat) (hopen : conn.closed = false)
    (hwf : conn.writeFails = false) :
    conn.Write data = ({ conn with written := conn.written ++ data }, true) := by
  simp [Conn.Write, hopen, hwf]

/-- After an exchange that reaches the write on an open connection that accepts
writes, the connection has been written the frame and nothing else. -/
theorem exchange_conn_written (L : StdLib) (counter : Nat) (c : Client)
    (cmd : GoString) (cb : Value) (data : List Nat) (id : Nat) (conn : Conn)
    (hp : (PackRequest L counter c.authToken cmd cb).2 = Except.ok (data, id))
    (hsz : (data.length : Int) ≤ c.maxRequestSize)
    (hc : c.conn = some conn)
    (hopen : conn.closed = false) (hwf : conn.writeFails = false) :
    ∃ conn1, (exchangeUnlocked L counter c cmd cb).2.1.conn = some conn1 ∧
      conn1.written = conn.written ++ encryptFrame data c.xorKey ∧
      conn1.closed = false := by
  have hw := Conn.Write_ok conn (encryptFrame data c.xorKey) hopen hwf
  have hfull := PackRequest_eq L counter c.authToken cmd cb _ hp
  cases hr : Conn.Read { conn with written := conn.written ++ encryptFrame data c.xorKey }
      HeaderSize with
  | mk conn2 og =>
    have hw2 := Conn.Read_written
      { conn with written := conn.written ++ encryptFrame data c.xorKey } HeaderSize
    have hc2 := Conn.Read_closed
      { conn with written := conn.written ++ encryptFrame data c.xorKey } HeaderSize
    rw [hr] at hw2 hc2
    simp only at hw2 hc2
    cases og with
    | none =>
      refine ⟨conn2, ?_, hw2, hc2.trans hopen⟩
      unfold exchangeUnlocked
      rw [hfull]
      simp only [not_lt.mpr hsz, if_false, hc, hw, hr]
    | some got =>
      rw [exchange_after_header L counter c cmd cb data id conn _ conn2 got hp hsz hc hw hr]
      split
      · exact ⟨conn2, rfl, hw2, hc2.trans hopen⟩
      · obtain ⟨f1, f2, _⟩ := readBody_frame (conn2.incoming.length + 1) conn2
          (decodeHeader (storeAt (List.replicate HeaderSize 0) 0 got)).2
          (List.replicate (decodeHeader (storeAt (List.replicate HeaderSize 0) 0 got)).2 0) 0
        split
        · rename_i conn3 heq
          rw [heq] at f1 f2
          exact ⟨conn3, rfl, f1.trans hw2, f2.trans (hc2.trans hopen)⟩
        · rename_i conn3 e heq
          rw [heq] at f1 f2
          exact ⟨conn3, rfl, f1.trans hw2, f2.trans (hc2.trans hopen)⟩
        · rename_i conn3 body0 heq
          rw [heq] at f1 f2
          split
          · exact ⟨conn3, rfl, f1.trans hw2, f2.trans (hc2.trans hopen)⟩
          · split
            · exact ⟨conn3, rfl, f1.trans hw2, f2.trans (hc2.trans hopen)⟩
            · exact ⟨conn3, rfl, f1.trans hw2, f2.trans (hc2.trans hopen)⟩

theorem encryptFrame_eq (data key : List Nat) :
    encryptFrame data key =
      data.take HeaderSize ++ (if key = [] then data.drop HeaderSize
        else XOR (data.drop HeaderSize) key) := by
  unfold encryptFrame
  cases key with
  | nil => simp
  | cons k ks => simp

/-- C7, counterexample: with a request-size ceiling of `2 ^ 33` and a content
body of `2 ^ 32` bytes the exchange writes a frame whose header length field
differs from the number of body bytes written after the header. -/
theorem exchange_written_counterexample :
    ∃ conn1,
      (exchangeUnlocked goStd 0 { dialedClient [] with maxRequestSize := 2 ^ 33 } []
        (Value.str (List.replicate (2 ^ 32) 97))).2.1.conn = some conn1 ∧
      (decodeHeader (conn1.written.take HeaderSize)).2
        ≠ (conn1.written.drop HeaderSize).length := by
  obtain ⟨body, hb⟩ : ∃ body, body = marshalRequest
      { authToken := [], version := Version, name := [],
        contentBody := List.replicate (2 ^ 32) 97 } := ⟨_, rfl⟩
  have hlen : body.length = 2 ^ 32 + 55 := by
    rw [hb]
    exact marshalRequest_replicate_length (2 ^ 32)
  have hp : (PackRequest goStd 0
      ({ dialedClient [] with maxRequestSize := 2 ^ 33 } : Client).authToken []
      (Value.str (List.replicate (2 ^ 32) 97))).2
      = Except.ok (putUint32 ((0 + 1) % 2 ^ 32) ++ putUint32 (body.length % 2 ^ 32) ++ body,
          (0 + 1) % 2 ^ 32) := by
    have ha : ({ dialedClient [] with maxRequestSize := 2 ^ 33 } : Client).authToken = [] := rfl
    rw [ha, hb]
    rfl
  have hdl : (putUint32 ((0 + 1) % 2 ^ 32) ++ putUint32 (body.length % 2 ^ 32) ++ body).length
      = 2 ^ 32 + 63 := by
    rw [List.length_append, List.length_append, putUint32_length, putUint32_length, hlen]
    norm_num
  have hsz : (((putUint32 ((0 + 1) % 2 ^ 32) ++ putUint32 (body.length % 2 ^ 32) ++
      body).length : Nat) : Int)
      ≤ ({ dialedClient [] with maxRequestSize := 2 ^ 33 } : Client).maxRequestSize := by
    rw [hdl]
    show ((2 ^ 32 + 63 : Nat) : Int) ≤ 2 ^ 33
    norm_num
  obtain ⟨conn1, h1, h2, _⟩ := exchange_conn_written goStd 0
    { dialedClient [] with maxRequestSize := 2 ^ 33 } []
    (Value.str (List.replicate (2 ^ 32) 97)) _ _ (openConn []) hp hsz rfl rfl rfl
  refine ⟨conn1, h1, ?_⟩
  have h3 : conn1.written
      = putUint32 ((0 + 1) % 2 ^ 32) ++ putUint32 (body.length % 2 ^ 32) ++ body := by
    rw [h2]
    show [] ++ encryptFrame _ [] = _
    simp [encryptFrame]
  have hd : (putUint32 ((0 + 1) % 2 ^ 32) ++ putUint32 (body.length % 2 ^ 32) ++ body).drop
      HeaderSize = body := by
    simp [putUint32, HeaderSize]
  rw [h3, decodeHeader_frame, hd, hlen]
  norm_num

/-- C7, amended: an exchange that reaches the write, on a connection that
accepts it, appends to the connection the plaintext 8-byte header of
`PackRequest` followed by `XOR(body, key)` for a non-empty key and by the JSON
body itself for an empty key; the header's length field is the number of body
bytes written modulo `2 ^ 32`, so that number itself for every body shorter
than `2 ^ 32` bytes. -/
theorem exchange_written (L : StdLib) (counter : Nat) (c : Client)
    (cmd : GoString) (cb : Value) (data : List Nat) (id : Nat) (conn : Conn)
    (hp : (PackRequest L counter c.authToken cmd cb).2 = Except.ok (data, id))
    (hsz : (data.length : Int) ≤ c.maxRequestSize)
    (hc : c.conn = some conn)
    (hopen : conn.closed = false) (hwf : conn.writeFails = false) :
    ∃ conn1 s body,
      contentBodyString L cb = Except.ok s ∧
      L.jsonMarshalRequest
        { authToken := c.authToken, version := Version, name := cmd, contentBody := s }
          = some body ∧
      (exchangeUnlocked L counter c cmd cb).2.1.conn = some conn1 ∧
      data.take HeaderSize = putUint32 id ++ putUint32 (body.length % 2 ^ 32) ∧
      conn1.written = conn.written ++ data.take HeaderSize ++
        (if c.xorKey = [] then body else XOR body c.xorKey) ∧
      (if c.xorKey = [] then body else XOR body c.xorKey).length = body.length ∧
      (decodeHeader (data.take HeaderSize)).2 = body.length % 2 ^ 32 ∧
      (body.length < 2 ^ 32 →
        (decodeHeader (data.take HeaderSize)).2
          = (if c.xorKey = [] then body else XOR body c.xorKey).length) := by
  obtain ⟨s, body, hs, hb, _, hdata⟩ := PackRequest_ok L counter c.authToken cmd cb data id hp
  obtain ⟨conn1, h1, h2, _⟩ :=
    exchange_conn_written L counter c cmd cb data id conn hp hsz hc hopen hwf
  have htake : data.take HeaderSize = putUint32 id ++ putUint32 (body.length % 2 ^ 32) := by
    rw [hdata]
    simp [putUint32, HeaderSize]
  have hdrop : data.drop HeaderSize = body := by
    rw [hdata]
    simp [putUint32, HeaderSize]
  have hlenb : (if c.xorKey = [] then body else XOR body c.xorKey).length = body.length := by
    split
    · rfl
    · exact XOR_length body c.xorKey
  have hdec : (decodeHeader (data.take HeaderSize)).2 = body.length % 2 ^ 32 := by
    rw [hdata, decodeHeader_frame, Nat.mod_mod]
  refine ⟨conn1, s, body, hs, hb, h1, htake, ?_, hlenb, hdec, ?_⟩
  · rw [h2, encryptFrame_eq, hdrop, List.append_assoc]
  · intro hlt
    rw [hdec, hlenb, Nat.mod_eq_of_lt hlt]

theorem exchange_written_witness :
    ∃ conn1 s body,
      contentBodyString goStd (Value.str (ascii "secret")) = Except.ok s ∧
      goStd.jsonMarshalRequest
        { authToken := [], version := Version, name := ascii "Login", contentBody := s }
          = some body ∧
      (exchangeUnlocked goStd 1 { dialedClient [] with xorKey := ascii "testkey" }
        (ascii "Login") (Value.str (ascii "secret"))).2.1.conn = some conn1 ∧
      (putUint32 2 ++ putUint32 66 ++ marshalRequest
          { authToken := [], version := 2, name := ascii "Login",
            contentBody := ascii "secret" }).take HeaderSize
        = putUint32 2 ++ putUint32 (body.length % 2 ^ 32) ∧
      conn1.written = [] ++ (putUint32 2 ++ putUint32 66 ++ marshalRequest
          { authToken := [], version := 2, name := ascii "Login",
            contentBody := ascii "secret" }).take HeaderSize ++
        (if ascii "testkey" = [] then body else XOR body (ascii "testkey")) ∧
      (if ascii "testkey" = [] then body else XOR body (ascii "testkey")).length
        = body.length ∧
      (decodeHeader ((putUint32 2 ++ putUint32 66 ++ marshalRequest
          { authToken := [], version := 2, name := ascii "Login",
            contentBody := ascii "secret" }).take HeaderSize)).2 = body.length % 2 ^ 32 ∧
      (body.length < 2 ^ 32 →
        (decodeHeader ((putUint32 2 ++ putUint32 66 ++ marshalRequest
          { authToken := [], version := 2, name := ascii "Login",
            contentBody := ascii "secret" }).take HeaderSize)).2
          = (if ascii "testkey" = [] then body else XOR body (ascii "testkey")).length) :=
  exchange_written goStd 1 { dialedClient [] with xorKey := ascii "testkey" }
    (ascii "Login") (Value.str (ascii "secret"))
    (putUint32 2 ++ putUint32 66 ++ marshalRequest
      { authToken := [], version := 2, name := ascii "Login", contentBody := ascii "secret" })
    2 (openConn []) rfl (by decide) rfl rfl rfl

/-! ## C8: a response with a foreign id -/

/-- C8, counterexample: the request id is 1, the response header carries the
id 7 and a body that is not JSON; the exchange fails with the unmarshal error,
not with the response-ID-mismatch error. -/
theorem exchange_foreign_id_counterexample :
    (∃ data, (PackRequest goStd 0 [] (ascii "ServerConnect") (Value.str [])).2
      = Except.ok (data, 1)) ∧
    (decodeHeader (putUint32 7 ++ putUint32 4)).1 = 7 ∧
    (exchangeUnlocked goStd 0
      (dialedClient [ReadEvent.data (putUint32 7 ++ putUint32 4 ++ ascii "oops")])
      (ascii "ServerConnect") (Value.str [])).2.2 = Except.error Error.unmarshalResponse :=
  ⟨⟨_, rfl⟩, by decide, rfl⟩

/-- C8, amended: when the id of the response header that was read differs from
the request id, the exchange fails and returns no Response; the error is the
response-ID-mismatch error whenever the announced length is within the ceiling,
the body has been read in full and, once decrypted, decodes as a JSON Response
(otherwise an earlier step has failed with its own error). -/
theorem exchange_foreign_id (L : StdLib) (counter : Nat) (c : Client)
    (cmd : GoString) (cb : Value) (data : List Nat) (id : Nat) (conn conn1 conn2 : Conn)
    (got : List Nat)
    (hp : (PackRequest L counter c.authToken cmd cb).2 = Except.ok (data, id))
    (hsz : (data.length : Int) ≤ c.maxRequestSize)
    (hc : c.conn = some conn)
    (hw : conn.Write (encryptFrame data c.xorKey) = (conn1, true))
    (hr : conn1.Read HeaderSize = (conn2, some got))
    (hid : (decodeHeader (storeAt (List.replicate HeaderSize 0) 0 got)).1 ≠ id) :
    (∀ resp, (exchangeUnlocked L counter c cmd cb).2.2 ≠ Except.ok resp) ∧
    (∀ conn3 body0 resp,
      ((decodeHeader (storeAt (List.replicate HeaderSize 0) 0 got)).2 : Int)
        ≤ c.maxResponseSize →
      readBody (conn2.incoming.length + 1) conn2
          (decodeHeader (storeAt (List.replicate HeaderSize 0) 0 got)).2
          (List.replicate (decodeHeader (storeAt (List.replicate HeaderSize 0) 0 got)).2 0) 0
        = (conn3, some (Except.ok body0)) →
      L.jsonUnmarshalResponse (if c.xorKey.length > 0 then XOR body0 c.xorKey else body0)
        = some resp →
      (exchangeUnlocked L counter c cmd cb).2.2 =
        Except.error (Error.responseIDMismatch id
          (decodeHeader (storeAt (List.replicate HeaderSize 0) 0 got)).1)) := by
  rw [exchange_after_header L counter c cmd cb data id conn conn1 conn2 got hp hsz hc hw hr]
  constructor
  · intro resp
    repeat' split
    all_goals (intro hcontra; cases hcontra)
  · intro conn3 body0 resp hle hrb hu
    simp only [not_lt.mpr hle, if_false, hrb, hu, hid, ne_eq, not_false_eq_true, if_true]

theorem exchange_foreign_id_witness :
    (∀ resp, (exchangeUnlocked goStd 0
      (dialedClient [ReadEvent.data
        (putUint32 7 ++ putUint32 18 ++ ascii "\x7b\"statusCode\":200\x7d")])
      (ascii "ServerConnect") (Value.str [])).2.2 ≠ Except.ok resp) ∧
    (exchangeUnlocked goStd 0
      (dialedClient [ReadEvent.data
        (putUint32 7 ++ putUint32 18 ++ ascii "\x7b\"statusCode\":200\x7d")])
      (ascii "ServerConnect") (Value.str [])).2.2
      = Except.error (Error.responseIDMismatch 1 7) :=
  ⟨(exchange_foreign_id goStd 0
      (dialedClient [ReadEvent.data
        (putUint32 7 ++ putUint32 18 ++ ascii "\x7b\"statusCode\":200\x7d")])
      (ascii "ServerConnect") (Value.str []) _ 1
      (openConn [ReadEvent.data
        (putUint32 7 ++ putUint32 18 ++ ascii "\x7b\"statusCode\":200\x7d")])
      _ _ _ rfl (by decide) rfl rfl rfl (by decide)).1,
   (exchange_foreign_id goStd 0
      (dialedClient [ReadEvent.data
        (putUint32 7 ++ putUint32 18 ++ ascii "\x7b\"statusCode\":200\x7d")])
      (ascii "ServerConnect") (Value.str []) _ 1
      (openConn [ReadEvent.data
        (putUint32 7 ++ putUint32 18 ++ ascii "\x7b\"statusCode\":200\x7d")])
      _ _ _ rfl (by decide) rfl rfl rfl (by decide)).2 _ _ _ (by decide) rfl rfl⟩

/-! ## C9 and C10: `Execute` on a client that is not ready, and after a failure -/

theorem Conn.Write_closed (conn : Conn) (data : List Nat) :
    (conn.Write data).1.closed = conn.closed := by
  unfold Conn.Write
  split <;> rfl

theorem Conn.Write_of_closed (conn : Conn) (data : List Nat) (h : conn.closed = true) :
    conn.Write data = (conn, false) := by
  simp [Conn.Write, h]

theorem Conn.Close_closed (conn : Conn) : conn.Close.1.closed = true := by
  unfold Conn.Close
  split
  · assumption
  · rfl

theorem Client.conn_update (c : Client) (conn : Conn) (hc : c.conn = some conn) :
    { c with conn := some conn } = c := by
  cases c
  simp only at hc
  subst hc
  rfl

/-- An exchange leaves the client with a connection, closed exactly when the
connection it started with was: `exchangeUnlocked` never closes it. -/
theorem exchange_conn_closed (L : StdLib) (counter : Nat) (c : Client)
    (cmd : GoString) (cb : Value) (conn : Conn) (hc : c.conn = some conn) :
    ∃ conn1, (exchangeUnlocked L counter c cmd cb).2.1.conn = some conn1 ∧
      conn1.closed = conn.closed := by
  cases hP : PackRequest L counter c.authToken cmd cb with
  | mk ctr1 r =>
    cases r with
    | error e =>
      refine ⟨conn, ?_, rfl⟩
      unfold exchangeUnlocked
      rw [hP]
      exact hc
    | ok p =>
      obtain ⟨data, id⟩ := p
      have hp : (PackRequest L counter c.authToken cmd cb).2 = Except.ok (data, id) := by
        rw [hP]
      by_cases hsz : (data.length : Int) > c.maxRequestSize
      · refine ⟨conn, ?_, rfl⟩
        unfold exchangeUnlocked
        rw [hP]
        simp only [hsz, if_true]
        exact hc
      · cases hW : conn.Write (encryptFrame data c.xorKey) with
        | mk conn1 okw =>
          have hwc := Conn.Write_closed conn (encryptFrame data c.xorKey)
          rw [hW] at hwc
          simp only at hwc
          cases okw with
          | false =>
            refine ⟨conn1, ?_, hwc⟩
            unfold exchangeUnlocked
            rw [hP]
            simp only [hsz, if_false, hc, hW]
          | true =>
            cases hR : conn1.Read HeaderSize with
            | mk conn2 og =>
              have hrc := Conn.Read_closed conn1 HeaderSize
              rw [hR] at hrc
              simp only at hrc
              cases og with
              | none =>
                refine ⟨conn2, ?_, hrc.trans hwc⟩
                unfold exchangeUnlocked
                rw [hP]
                simp only [hsz, if_false, hc, hW, hR]
              | some got =>
                rw [exchange_after_header L counter c cmd cb data id conn conn1 conn2 got hp
                  (not_lt.mp hsz) hc hW hR]
                split
                · exact ⟨conn2, rfl, hrc.trans hwc⟩
                · obtain ⟨_, f2, _⟩ := readBody_frame (conn2.incoming.length + 1) conn2
                    (decodeHeader (storeAt (List.replicate HeaderSize 0) 0 got)).2
                    (List.replicate
                      (decodeHeader (storeAt (List.replicate HeaderSize 0) 0 got)).2 0) 0
                  split
                  · rename_i conn3 heq
                    rw [heq] at f2
                    exact ⟨conn3, rfl, f2.trans (hrc.trans hwc)⟩
                  · rename_i conn3 e heq
                    rw [heq] at f2
                    exact ⟨conn3, rfl, f2.trans (hrc.trans hwc)⟩
                  · rename_i conn3 body0 heq
                    rw [heq] at f2
                    split
                    · exact ⟨conn3, rfl, f2.trans (hrc.trans hwc)⟩
                    · split
                      · exact ⟨conn3, rfl, f2.trans (hrc.trans hwc)⟩
                      · exact ⟨conn3, rfl, f2.trans (hrc.trans hwc)⟩

/-- On a client whose connection is closed an exchange fails before anything is
sent, and the client is left as it was. -/
theorem exchange_on_closed (L : StdLib) (counter : Nat) (c : Client)
    (cmd : GoString) (cb : Value) (conn : Conn) (hc : c.conn = some conn)
    (hclosed : conn.closed = true) :
    (exchangeUnlocked L counter c cmd cb).2.1 = c ∧
    ∃ e, (exchangeUnlocked L counter c cmd cb).2.2 = Except.error e ∧
      (e = Error.marshalContentBody ∨ e = Error.marshalRequest ∨
        (∃ n m, e = Error.requestTooLarge n m) ∨ e = Error.sendFailed) := by
  cases hP : PackRequest L counter c.authToken cmd cb with
  | mk ctr1 r =>
    cases r with
    | error e =>
      have hp : (PackRequest L counter c.authToken cmd cb).2 = Except.error e := by rw [hP]
      have hres : exchangeUnlocked L counter c cmd cb = (ctr1, c, Except.error e) := by
        unfold exchangeUnlocked
        rw [hP]
      rw [hres]
      refine ⟨rfl, e, rfl, ?_⟩
      unfold PackRequest at hp
      cases hs : contentBodyString L cb with
      | error e1 =>
        simp only [hs, Except.error.injEq] at hp
        have he1 : e1 = Error.marshalContentBody := by
          unfold contentBodyString at hs
          split at hs
          · cases hs
          · cases hs
          · split at hs
            · simp only [Except.error.injEq] at hs
              exact hs.symm
            · cases hs
        rw [← hp, he1]
        exact Or.inl rfl
      | ok s1 =>
        simp only [hs] at hp
        split at hp
        · simp only [Except.error.injEq] at hp
          exact Or.inr (Or.inl hp.symm)
        · cases hp
    | ok p =>
      obtain ⟨data, id⟩ := p
      by_cases hsz : (data.length : Int) > c.maxRequestSize
      · have hres : exchangeUnlocked L counter c cmd cb =
            (ctr1, c, Except.error (Error.requestTooLarge data.length c.maxRequestSize)) := by
          unfold exchangeUnlocked
          rw [hP]
          simp only [hsz, if_true]
        rw [hres]
        exact ⟨rfl, _, rfl, Or.inr (Or.inr (Or.inl ⟨_, _, rfl⟩))⟩
      · have hres : exchangeUnlocked L counter c cmd cb =
            (ctr1, { c with conn := some conn }, Except.error Error.sendFailed) := by
          unfold exchangeUnlocked
          rw [hP]
          simp only [hsz, if_false, hc,
            Conn.Write_of_closed conn (encryptFrame data c.xorKey) hclosed]
        rw [hres]
        exact ⟨Client.conn_update c conn hc, _, rfl, Or.inr (Or.inr (Or.inr rfl))⟩

theorem closeConn_closed (c : Client) (conn : Conn) (hc : c.conn = some conn) :
    ∃ conn1, (closeConn c).conn = some conn1 ∧ conn1.closed = true := by
  unfold closeConn
  rw [hc]
  exact ⟨conn.Close.1, rfl, Conn.Close_closed conn⟩

/-- When `Connect` fails after the dial has succeeded, the client is left with
a closed connection (and not with the nil connection). -/
theorem Connect_failed_closed (L : StdLib) (counter : Nat) (c : Client) (conn0 : Conn)
    (counter1 : Nat) (c1 : Client) (e : Error)
    (h : Connect L counter c (some conn0) = (counter1, c1, Except.error e)) :
    ∃ conn1, c1.conn = some conn1 ∧ conn1.closed = true := by
  unfold Connect at h
  simp only at h
  cases hE1 : exchangeUnlocked L counter { c with conn := some conn0 }
      (ascii "ServerConnect") (Value.str []) with
  | mk ctr1 p =>
    obtain ⟨c2, r⟩ := p
    obtain ⟨k2, hk2, _⟩ := exchange_conn_closed L counter { c with conn := some conn0 }
      (ascii "ServerConnect") (Value.str []) conn0 rfl
    rw [hE1] at hk2 h
    simp only at hk2 h
    cases r with
    | error e1 =>
      simp only [Prod.mk.injEq] at h
      rw [← h.2.1]
      exact closeConn_closed c2 k2 hk2
    | ok resp =>
      simp only at h
      split at h
      · simp only [Prod.mk.injEq] at h
        rw [← h.2.1]
        exact closeConn_closed c2 k2 hk2
      · split at h
        · rename_i xorKeyStr hcb
          split at h
          · simp only [Prod.mk.injEq] at h
            rw [← h.2.1]
            exact closeConn_closed _ k2 hk2
          · rename_i key hkey
            cases hE2 : exchangeUnlocked L ctr1 { c2 with xorKey := key } (ascii "Login")
                (Value.str c2.password) with
            | mk ctr2 p2 =>
              obtain ⟨c4, r2⟩ := p2
              obtain ⟨k4, hk4, _⟩ := exchange_conn_closed L ctr1 { c2 with xorKey := key }
                (ascii "Login") (Value.str c2.password) k2 hk2
              rw [hE2] at hk4
              simp only at hk4
              have h2 : (match (ctr2, c4, r2) with
                  | (counter2, c4, Except.error e) =>
                    (counter2, closeConn c4, Except.error (Error.loginFailed e))
                  | (counter2, c4, Except.ok resp2) =>
                    if resp2.statusCode ≠ 200 then
                      (counter2, closeConn c4,
                        Except.error (Error.loginStatus resp2.statusMessage))
                    else
                      match resp2.contentBody with
                      | Value.str authTokenStr =>
                        (counter2, { c4 with authToken := authTokenStr }, Except.ok ())
                      | _ => (counter2, closeConn c4, Except.error Error.invalidTokenType))
                  = (counter1, c1, Except.error e) := by
                rw [← hE2]
                exact h
              cases r2 with
              | error e2 =>
                simp only [Prod.mk.injEq] at h2
                rw [← h2.2.1]
                exact closeConn_closed c4 k4 hk4
              | ok resp2 =>
                simp only at h2
                split at h2
                · simp only [Prod.mk.injEq] at h2
                  rw [← h2.2.1]
                  exact closeConn_closed c4 k4 hk4
                · split at h2
                  · simp only [Prod.mk.injEq] at h2
                    exact absurd h2.2.2 (by simp)
                  · simp only [Prod.mk.injEq] at h2
                    rw [← h2.2.1]
                    exact closeConn_closed c4 k4 hk4
        · simp only [Prod.mk.injEq] at h
          rw [← h.2.1]
          exact closeConn_closed c2 k2 hk2

theorem Close_conn (c : Client) (conn : Conn) (hc : c.conn = some conn) :
    (Close c).1.conn = some conn.Close.1 := by
  unfold Close
  rw [hc]
  simp only
  generalize conn.Close = p
  obtain ⟨conn1, okc⟩ := p
  cases okc <;> rfl

/-- C9, counterexample: on a client on which `Close` has been called, and on a
client whose `Connect` failed during the handshake, `Execute` fails with the
send error, not with the not-connected error. -/
theorem Execute_not_connected_counterexample :
    (Execute goStd 2 (Close (readyClient [])).1 (ascii "GetServerInformation")
      Value.null).2.2 = Except.error Error.sendFailed ∧
    (Connect goStd 0 freshClient (some (openConn []))).2.2
      = Except.error (Error.serverConnectFailed Error.readHeaderFailed) ∧
    (Execute goStd 1 (Connect goStd 0 freshClient (some (openConn []))).2.1
      (ascii "GetServerInformation") Value.null).2.2 = Except.error Error.sendFailed :=
  ⟨rfl, rfl, rfl⟩

/-- C9, amended: `Execute` fails without writing any byte (the client and its
connection are left as they were) whenever the client is not ready. On a client
without a connection, such as one that was never connected, the error is the
not-connected error. On a client whose `Connect` failed during the handshake
and on a client on which `Close` has been called the connection is closed but
not nil, and the error is that of the first failing step of the exchange: the
content body or the request cannot be encoded, the request is too large, or
the send fails. -/
theorem Execute_not_ready (L : StdLib) (counter : Nat) (cmd : GoString) (cb : Value) :
    (∀ c : Client, c.conn = none →
      Execute L counter c cmd cb = (counter, c, Except.error Error.notConnected)) ∧
    (∀ host port password dialTimeout maxRequestSize maxResponseSize,
      Execute L counter
          (NewClient host port password dialTimeout maxRequestSize maxResponseSize) cmd cb
        = (counter, NewClient host port password dialTimeout maxRequestSize maxResponseSize,
            Except.error Error.notConnected)) ∧
    (∀ (c0 : Client) (counter0 : Nat) (conn0 : Conn) (counter1 : Nat) (c : Client) (e : Error),
      Connect L counter0 c0 (some conn0) = (counter1, c, Except.error e) →
      (Execute L counter c cmd cb).2.1 = c ∧
      ∃ e1, (Execute L counter c cmd cb).2.2 = Except.error e1 ∧
        (e1 = Error.marshalContentBody ∨ e1 = Error.marshalRequest ∨
          (∃ n m, e1 = Error.requestTooLarge n m) ∨ e1 = Error.sendFailed)) ∧
    (∀ (c0 : Client) (conn0 : Conn), c0.conn = some conn0 →
      (Execute L counter (Close c0).1 cmd cb).2.1 = (Close c0).1 ∧
      ∃ e1, (Execute L counter (Close c0).1 cmd cb).2.2 = Except.error e1 ∧
        (e1 = Error.marshalContentBody ∨ e1 = Error.marshalRequest ∨
          (∃ n m, e1 = Error.requestTooLarge n m) ∨ e1 = Error.sendFailed)) := by
  have hnil : ∀ c : Client, c.conn = none →
      Execute L counter c cmd cb = (counter, c, Except.error Error.notConnected) := by
    intro c hc
    unfold Execute
    rw [hc]
  have hclosed : ∀ (c : Client) (conn : Conn), c.conn = some conn → conn.closed = true →
      (Execute L counter c cmd cb).2.1 = c ∧
      ∃ e1, (Execute L counter c cmd cb).2.2 = Except.error e1 ∧
        (e1 = Error.marshalContentBody ∨ e1 = Error.marshalRequest ∨
          (∃ n m, e1 = Error.requestTooLarge n m) ∨ e1 = Error.sendFailed) := by
    intro c conn hc hcl
    have hx : Execute L counter c cmd cb = exchangeUnlocked L counter c cmd cb := by
      unfold Execute
      rw [hc]
    rw [hx]
    exact exchange_on_closed L counter c cmd cb conn hc hcl
  refine ⟨hnil, ?_, ?_, ?_⟩
  · intro host port password dialTimeout maxRequestSize maxResponseSize
    exact hnil _ rfl
  · intro c0 counter0 conn0 counter1 c e hconn
    obtain ⟨conn1, h1, h2⟩ := Connect_failed_closed L counter0 c0 conn0 counter1 c e hconn
    exact hclosed c conn1 h1 h2
  · intro c0 conn0 hc0
    exact hclosed _ conn0.Close.1 (Close_conn c0 conn0 hc0) (Conn.Close_closed conn0)

theorem Execute_not_ready_witness :
    Execute goStd 0 freshClient (ascii "GetServerInformation") Value.null
      = (0, freshClient, Except.error Error.notConnected) ∧
    ((Execute goStd 1 (Connect goStd 0 freshClient (some (openConn []))).2.1
        (ascii "GetServerInformation") Value.null).2.1
      = (Connect goStd 0 freshClient (some (openConn []))).2.1 ∧
     ∃ e1, (Execute goStd 1 (Connect goStd 0 freshClient (some (openConn []))).2.1
        (ascii "GetServerInformation") Value.null).2.2 = Except.error e1 ∧
      (e1 = Error.marshalContentBody ∨ e1 = Error.marshalRequest ∨
        (∃ n m, e1 = Error.requestTooLarge n m) ∨ e1 = Error.sendFailed)) ∧
    ((Execute goStd 1 (Close (readyClient [])).1
        (ascii "GetServerInformation") Value.null).2.1 = (Close (readyClient [])).1 ∧
     ∃ e1, (Execute goStd 1 (Close (readyClient [])).1
        (ascii "GetServerInformation") Value.null).2.2 = Except.error e1 ∧
      (e1 = Error.marshalContentBody ∨ e1 = Error.marshalRequest ∨
        (∃ n m, e1 = Error.requestTooLarge n m) ∨ e1 = Error.sendFailed)) :=
  ⟨(Execute_not_ready goStd 0 (ascii "GetServerInformation") Value.null).1 freshClient rfl,
   (Execute_not_ready goStd 1 (ascii "GetServerInformation") Value.null).2.2.1
      freshClient 0 (openConn []) _ _ _ rfl,
   (Execute_not_ready goStd 1 (ascii "GetServerInformation") Value.null).2.2.2
      (readyClient []) (openConn []) rfl⟩

/-- C10, the code at a failing input: a connected client receives a response
whose header carries a foreign id. `Execute` fails with the response-ID-mismatch
error and the connection is still open when it returns; a second `Execute` on
the client sends its request on that connection. -/
theorem Execute_failure_leaves_conn_open :
    (Execute goStd 5
      (readyClient [ReadEvent.data (putUint32 99 ++ putUint32 18 ++
        XOR (ascii "\x7b\"statusCode\":200\x7d") (ascii "testkey"))])
      (ascii "GetServerInformation") Value.null).2.2
      = Except.error (Error.responseIDMismatch 6 99) ∧
    (Execute goStd 5
      (readyClient [ReadEvent.data (putUint32 99 ++ putUint32 18 ++
        XOR (ascii "\x7b\"statusCode\":200\x7d") (ascii "testkey"))])
      (ascii "GetServerInformation") Value.null).2.1.conn.map Conn.closed = some false ∧
    (Execute goStd 5
      (readyClient [ReadEvent.data (putUint32 99 ++ putUint32 18 ++
        XOR (ascii "\x7b\"statusCode\":200\x7d") (ascii "testkey"))])
      (ascii "GetServerInformation") Value.null).2.1.conn.map (fun k => k.written.length)
      = some 90 ∧
    (Execute goStd 6
      (Execute goStd 5
        (readyClient [ReadEvent.data (putUint32 99 ++ putUint32 18 ++
          XOR (ascii "\x7b\"statusCode\":200\x7d") (ascii "testkey"))])
        (ascii "GetServerInformation") Value.null).2.1
      (ascii "GetServerInformation") Value.null).2.1.conn.map (fun k => k.written.length)
      = some 180 :=
  ⟨rfl, rfl, rfl, rfl⟩


/-! ## C11 and C12: `Connect` -/

theorem exchange_fields (L : StdLib) (counter : Nat) (c : Client) (cmd : GoString)
    (cb : Value) :
    (exchangeUnlocked L counter c cmd cb).2.1
      = { c with conn := (exchangeUnlocked L counter c cmd cb).2.1.conn } := by
  have hfull := PackRequest_eq L counter c.authToken cmd cb _ rfl
  unfold exchangeUnlocked
  rw [hfull]
  generalize (PackRequest L counter c.authToken cmd cb).2 = r
  cases c
  cases r with
  | error e => rfl
  | ok p =>
    obtain ⟨data, id⟩ := p
    simp only
    repeat' split
    all_goals rfl

theorem exchange_fields_of_eq (L : StdLib) (counter : Nat) (c : Client) (cmd : GoString)
    (cb : Value) (ctr1 : Nat) (c2 : Client) (r : Except Error Response)
    (h : exchangeUnlocked L counter c cmd cb = (ctr1, c2, r)) :
    c2.authToken = c.authToken ∧ c2.password = c.password ∧ c2.xorKey = c.xorKey ∧
    c2.maxRequestSize = c.maxRequestSize ∧ c2.maxResponseSize = c.maxResponseSize := by
  have hf := exchange_fields L counter c cmd cb
  rw [h] at hf
  simp only at hf
  rw [hf]
  exact ⟨rfl, rfl, rfl, rfl, rfl⟩

theorem closeConn_authToken (c : Client) : (closeConn c).authToken = c.authToken := by
  unfold closeConn
  split <;> rfl

/-- When `Connect` fails, the auth token of the client is what it was. -/
theorem Connect_failed_authToken (L : StdLib) (counter : Nat) (c : Client)
    (dial : Option Conn) (counter1 : Nat) (c1 : Client) (e : Error)
    (h : Connect L counter c dial = (counter1, c1, Except.error e)) :
    c1.authToken = c.authToken := by
  cases dial with
  | none =>
    unfold Connect at h
    simp only [Prod.mk.injEq] at h
    rw [← h.2.1]
  | some conn0 =>
    unfold Connect at h
    simp only at h
    cases hE1 : exchangeUnlocked L counter { c with conn := some conn0 }
        (ascii "ServerConnect") (Value.str []) with
    | mk ctr1 p =>
      obtain ⟨c2, r⟩ := p
      obtain ⟨ha2, _⟩ := exchange_fields_of_eq L counter { c with conn := some conn0 }
        (ascii "ServerConnect") (Value.str []) ctr1 c2 r hE1
      rw [hE1] at h
      try simp only at h
      cases r with
      | error e1 =>
        simp only [Prod.mk.injEq] at h
        rw [← h.2.1, closeConn_authToken, ha2]
      | ok resp =>
        simp only at h
        split at h
        · simp only [Prod.mk.injEq] at h
          rw [← h.2.1, closeConn_authToken, ha2]
        · split at h
          · split at h
            · simp only [Prod.mk.injEq] at h
              rw [← h.2.1, closeConn_authToken]
              exact ha2
            · rename_i key hkey
              cases hE2 : exchangeUnlocked L ctr1 { c2 with xorKey := key } (ascii "Login")
                  (Value.str c2.password) with
              | mk ctr2 p2 =>
                obtain ⟨c4, r2⟩ := p2
                obtain ⟨ha4, _⟩ := exchange_fields_of_eq L ctr1 { c2 with xorKey := key }
                  (ascii "Login") (Value.str c2.password) ctr2 c4 r2 hE2
                have h2 : (match (ctr2, c4, r2) with
                    | (counter2, c4, Except.error e) =>
                      (counter2, closeConn c4, Except.error (Error.loginFailed e))
                    | (counter2, c4, Except.ok resp2) =>
                      if resp2.statusCode ≠ 200 then
                        (counter2, closeConn c4,
                          Except.error (Error.loginStatus resp2.statusMessage))
                      else
                        match resp2.contentBody with
                        | Value.str authTokenStr =>
                          (counter2, { c4 with authToken := authTokenStr }, Except.ok ())
                        | _ => (counter2, closeConn c4, Except.error Error.invalidTokenType))
                    = (counter1, c1, Except.error e) := by
                  rw [← hE2]
                  exact h
                have ha : c4.authToken = c.authToken := ha4.trans ha2
                cases r2 with
                | error e2 =>
                  simp only [Prod.mk.injEq] at h2
                  rw [← h2.2.1, closeConn_authToken, ha]
                | ok resp2 =>
                  simp only at h2
                  split at h2
                  · simp only [Prod.mk.injEq] at h2
                    rw [← h2.2.1, closeConn_authToken, ha]
                  · split at h2
                    · simp only [Prod.mk.injEq] at h2
                      exact absurd h2.2.2 (by simp)
                    · simp only [Prod.mk.injEq] at h2
                      rw [← h2.2.1, closeConn_authToken, ha]
          · simp only [Prod.mk.injEq] at h
            rw [← h.2.1, closeConn_authToken, ha2]

theorem triple_eta {α β γ : Type} (p : α × β × γ) (z : γ) (h : p.2.2 = z) :
    p = (p.1, p.2.1, z) := by
  rw [← h]

/-- C11: once the dial has succeeded, `Connect` returns an error in each of the
seven cases (the ServerConnect exchange fails, its status is not 200, its
content is not a string, its content is not valid base64, the Login exchange
fails, its status is not 200, its content is not a string); and whenever
`Connect` returns an error after the dial, the connection of the client is
closed and its auth token is what it was before. -/
theorem Connect_failure (L : StdLib) (counter : Nat) (c : Client) (conn0 : Conn)
    (ctr1 : Nat) (c2 : Client) (r1 : Except Error Response)
    (h1 : exchangeUnlocked L counter { c with conn := some conn0 } (ascii "ServerConnect")
      (Value.str []) = (ctr1, c2, r1)) :
    (∀ e, (Connect L counter c (some conn0)).2.2 = Except.error e →
      (∃ conn1, (Connect L counter c (some conn0)).2.1.conn = some conn1 ∧
        conn1.closed = true) ∧
      (Connect L counter c (some conn0)).2.1.authToken = c.authToken) ∧
    (∀ e, r1 = Except.error e →
      (Connect L counter c (some conn0)).2.2 = Except.error (Error.serverConnectFailed e)) ∧
    (∀ resp, r1 = Except.ok resp → resp.statusCode ≠ 200 →
      (Connect L counter c (some conn0)).2.2
        = Except.error (Error.serverConnectStatus resp.statusMessage)) ∧
    (∀ resp, r1 = Except.ok resp → resp.statusCode = 200 →
      (∀ s, resp.contentBody ≠ Value.str s) →
      (Connect L counter c (some conn0)).2.2 = Except.error Error.invalidKeyType) ∧
    (∀ resp s key, r1 = Except.ok resp → resp.statusCode = 200 →
      resp.contentBody = Value.str s → L.base64Decode s = (key, false) →
      (Connect L counter c (some conn0)).2.2 = Except.error Error.decodeKeyFailed) ∧
    (∀ resp s key ctr2 c4 r2, r1 = Except.ok resp → resp.statusCode = 200 →
      resp.contentBody = Value.str s → L.base64Decode s = (key, true) →
      exchangeUnlocked L ctr1 { c2 with xorKey := key } (ascii "Login")
        (Value.str c.password) = (ctr2, c4, r2) →
      (∀ e, r2 = Except.error e →
        (Connect L counter c (some conn0)).2.2 = Except.error (Error.loginFailed e)) ∧
      (∀ resp2, r2 = Except.ok resp2 → resp2.statusCode ≠ 200 →
        (Connect L counter c (some conn0)).2.2
          = Except.error (Error.loginStatus resp2.statusMessage)) ∧
      (∀ resp2, r2 = Except.ok resp2 → resp2.statusCode = 200 →
        (∀ t, resp2.contentBody ≠ Value.str t) →
        (Connect L counter c (some conn0)).2.2 = Except.error Error.invalidTokenType)) := by
  obtain ⟨_, hpw, _⟩ := exchange_fields_of_eq L counter { c with conn := some conn0 }
    (ascii "ServerConnect") (Value.str []) ctr1 c2 r1 h1
  have hpw2 : c2.password = c.password := hpw
  refine ⟨?_, ?_, ?_, ?_, ?_, ?_⟩
  · intro e he
    have ht := triple_eta (Connect L counter c (some conn0)) (Except.error e) he
    exact ⟨Connect_failed_closed L counter c conn0 _ _ e ht,
      Connect_failed_authToken L counter c (some conn0) _ _ e ht⟩
  · intro e hr
    subst hr
    unfold Connect
    simp only [h1]
  · intro resp hr hs
    subst hr
    unfold Connect
    simp only [h1, hs, ne_eq, not_false_eq_true, if_true]
  · intro resp hr hs hns
    subst hr
    unfold Connect
    simp only [h1, hs, ne_eq, not_true_eq_false, if_false]
  · intro resp s key hr hs hcb hd
    subst hr
    unfold Connect
    simp only [h1, hs, ne_eq, not_true_eq_false, if_false, hcb, DecodeXORKey, hd]
  · intro resp s key ctr2 c4 r2 hr hs hcb hd h2
    subst hr
    rw [← hpw2] at h2
    refine ⟨?_, ?_, ?_⟩
    · intro e hr2
      subst hr2
      unfold Connect
      simp only [h1, hs, ne_eq, not_true_eq_false, if_false, hcb, DecodeXORKey, hd, h2]
    · intro resp2 hr2 hs2
      subst hr2
      unfold Connect
      simp only [h1, hs, ne_eq, not_true_eq_false, if_false, hcb, DecodeXORKey, hd, h2, hs2,
        not_false_eq_true, if_true]
    · intro resp2 hr2 hs2 hnt
      subst hr2
      unfold Connect
      simp only [h1, hs, ne_eq, not_true_eq_false, if_false, hcb, DecodeXORKey, hd, h2, hs2]

theorem exchange_counter (L : StdLib) (counter : Nat) (c : Client) (cmd : GoString)
    (cb : Value) : (exchangeUnlocked L counter c cmd cb).1 = (counter + 1) % 2 ^ 32 := by
  have hfull := PackRequest_eq L counter c.authToken cmd cb _ rfl
  unfold exchangeUnlocked
  rw [hfull]
  generalize (PackRequest L counter c.authToken cmd cb).2 = r
  cases r with
  | error e => rfl
  | ok p =>
    obtain ⟨data, id⟩ := p
    simp only
    repeat' split
    all_goals rfl

theorem Conn.Write_true (conn conn1 : Conn) (data : List Nat)
    (h : conn.Write data = (conn1, true)) :
    conn.closed = false ∧ conn.writeFails = false := by
  unfold Conn.Write at h
  split at h
  · simp at h
  · rename_i hn
    simpa using hn

/-- A successful exchange has packed its request, found a connection and
appended the frame to what the connection had been written. -/
theorem exchange_ok_written (L : StdLib) (counter : Nat) (c : Client) (cmd : GoString)
    (cb : Value) (ctr1 : Nat) (c2 : Client) (resp : Response)
    (h : exchangeUnlocked L counter c cmd cb = (ctr1, c2, Except.ok resp)) :
    ∃ data id conn conn1,
      (PackRequest L counter c.authToken cmd cb).2 = Except.ok (data, id) ∧
      c.conn = some conn ∧ c2.conn = some conn1 ∧
      conn1.written = conn.written ++ encryptFrame data c.xorKey := by
  have hfull := PackRequest_eq L counter c.authToken cmd cb _ rfl
  cases hP : (PackRequest L counter c.authToken cmd cb).2 with
  | error e =>
    rw [hP] at hfull
    unfold exchangeUnlocked at h
    rw [hfull] at h
    simp at h
  | ok p =>
    obtain ⟨data, id⟩ := p
    rw [hP] at hfull
    by_cases hsz : (data.length : Int) > c.maxRequestSize
    · unfold exchangeUnlocked at h
      rw [hfull] at h
      simp [hsz] at h
    · cases hc : c.conn with
      | none =>
        unfold exchangeUnlocked at h
        rw [hfull] at h
        simp [hsz, hc] at h
      | some conn =>
        cases hW : conn.Write (encryptFrame data c.xorKey) with
        | mk conn1 okw =>
          cases okw with
          | false =>
            unfold exchangeUnlocked at h
            rw [hfull] at h
            simp [hsz, hc, hW] at h
          | true =>
            obtain ⟨hopen, hwf⟩ := Conn.Write_true conn conn1 _ hW
            obtain ⟨connF, hF1, hF2, _⟩ := exchange_conn_written L counter c cmd cb data id conn
              hP (not_lt.mp hsz) hc hopen hwf
            rw [h] at hF1
            exact ⟨data, id, conn, connF, rfl, rfl, hF1, hF2⟩

theorem encryptFrame_frame (a b : Nat) (body key : List Nat) :
    encryptFrame (putUint32 a ++ putUint32 b ++ body) key
      = putUint32 a ++ putUint32 b ++ XOR body key := by
  rw [encryptFrame_eq]
  have e1 : (putUint32 a ++ putUint32 b ++ body).take HeaderSize
      = putUint32 a ++ putUint32 b := by
    simp [putUint32, HeaderSize]
  have e2 : (putUint32 a ++ putUint32 b ++ body).drop HeaderSize = body := by
    simp [putUint32, HeaderSize]
  rw [e1, e2]
  split
  · rename_i hk
    rw [hk, XOR_nil_key]
  · rfl

/-- The handshake from the results of its two exchanges: for a client with an
empty key and an empty token whose ServerConnect
exchange returns status 200 and a string `K` that decodes as base64 to `key`,
and whose Login exchange then returns status 200 and a string `T`: `Connect`
succeeds, the key of the client is `key` and its token `T`, and the connection
has been written the plaintext ServerConnect request (empty token and content)
followed by the Login request, whose content is the password, encrypted with
`key`. -/
theorem Connect_success (L : StdLib) (counter : Nat) (c : Client) (conn0 : Conn)
    (ctr1 : Nat) (c2 : Client) (resp1 : Response) (K key : List Nat)
    (ctr2 : Nat) (c4 : Client) (resp2 : Response) (T : GoString)
    (hkey : c.xorKey = []) (htok : c.authToken = [])
    (h1 : exchangeUnlocked L counter { c with conn := some conn0 } (ascii "ServerConnect")
      (Value.str []) = (ctr1, c2, Except.ok resp1))
    (hs1 : resp1.statusCode = 200) (hK : resp1.contentBody = Value.str K)
    (hd : L.base64Decode K = (key, true))
    (h2 : exchangeUnlocked L ctr1 { c2 with xorKey := key } (ascii "Login")
      (Value.str c.password) = (ctr2, c4, Except.ok resp2))
    (hs2 : resp2.statusCode = 200) (hT : resp2.contentBody = Value.str T) :
    (Connect L counter c (some conn0)).2.2 = Except.ok () ∧
    (Connect L counter c (some conn0)).2.1.xorKey = key ∧
    (Connect L counter c (some conn0)).2.1.authToken = T ∧
    ∃ body1 body2 connF,
      L.jsonMarshalRequest
        { authToken := [], version := 2, name := ascii "ServerConnect", contentBody := [] }
          = some body1 ∧
      L.jsonMarshalRequest
        { authToken := [], version := 2, name := ascii "Login", contentBody := c.password }
          = some body2 ∧
      (Connect L counter c (some conn0)).2.1.conn = some connF ∧
      connF.written = conn0.written ++
        (putUint32 ((counter + 1) % 2 ^ 32) ++ putUint32 (body1.length % 2 ^ 32) ++ body1) ++
        (putUint32 (((counter + 1) % 2 ^ 32 + 1) % 2 ^ 32) ++ putUint32 (body2.length % 2 ^ 32)
          ++ XOR body2 key) := by
  obtain ⟨ha2, hpw2, hk2, _⟩ := exchange_fields_of_eq L counter { c with conn := some conn0 }
    (ascii "ServerConnect") (Value.str []) ctr1 c2 (Except.ok resp1) h1
  obtain ⟨ha4, _, hk4, _⟩ := exchange_fields_of_eq L ctr1 { c2 with xorKey := key }
    (ascii "Login") (Value.str c.password) ctr2 c4 (Except.ok resp2) h2
  have hctr1 : ctr1 = (counter + 1) % 2 ^ 32 := by
    have := exchange_counter L counter { c with conn := some conn0 } (ascii "ServerConnect")
      (Value.str [])
    rw [h1] at this
    exact this
  have h2' : exchangeUnlocked L ctr1 { c2 with xorKey := key } (ascii "Login")
      (Value.str c2.password) = (ctr2, c4, Except.ok resp2) := by
    have hpw : c2.password = c.password := hpw2
    have h2c := h2
    rw [← hpw] at h2c
    exact h2c
  have hres : Connect L counter c (some conn0)
      = (ctr2, { c4 with authToken := T }, Except.ok ()) := by
    unfold Connect
    simp only [h1, hs1, ne_eq, not_true_eq_false, if_false, hK, DecodeXORKey, hd, h2', hs2, hT]
  obtain ⟨data1, id1, connA, connB, hp1, hcA, hcB, hwB⟩ := exchange_ok_written L counter
    { c with conn := some conn0 } (ascii "ServerConnect") (Value.str []) ctr1 c2 resp1 h1
  obtain ⟨data2, id2, connC, connD, hp2, hcC, hcD, hwD⟩ := exchange_ok_written L ctr1
    { c2 with xorKey := key } (ascii "Login") (Value.str c.password) ctr2 c4 resp2 h2
  obtain ⟨s1, body1, hs1', hb1, hid1, hdata1⟩ := PackRequest_ok L counter _ _ _ data1 id1 hp1
  obtain ⟨s2, body2, hs2', hb2, hid2, hdata2⟩ := PackRequest_ok L ctr1 _ _ _ data2 id2 hp2
  have e1 : s1 = [] := by
    have : contentBodyString L (Value.str []) = Except.ok [] := rfl
    rw [this] at hs1'
    exact (Except.ok.inj hs1').symm
  have e2 : s2 = c.password := by
    have : contentBodyString L (Value.str c.password) = Except.ok c.password := rfl
    rw [this] at hs2'
    exact (Except.ok.inj hs2').symm
  subst e1
  subst e2
  simp only at hcA hcC hwB hwD hb1 hb2
  have hAB : connA = conn0 := by
    simpa using hcA.symm
  have hCB : connC = connB := by
    rw [hcB] at hcC
    simpa using hcC.symm
  rw [htok] at hb1
  rw [ha2] at hb2
  simp only at hb2
  rw [htok] at hb2
  rw [hres]
  refine ⟨rfl, hk4, rfl, body1, body2, connD, hb1, hb2, hcD, ?_⟩
  rw [hwD, hCB, hwB, hAB, hdata1, hdata2, hkey, encryptFrame_frame, encryptFrame_frame,
    XOR_nil_key, hid1, hid2, hctr1]

theorem Connect_failure_witness :
    (Connect goStd 0 freshClient
      (some (openConn [ReadEvent.data (replyFrame 1 badKeyReply [])]))).2.2
      = Except.error Error.decodeKeyFailed ∧
    (∃ conn1, (Connect goStd 0 freshClient
        (some (openConn [ReadEvent.data (replyFrame 1 badKeyReply [])]))).2.1.conn
          = some conn1 ∧ conn1.closed = true) ∧
    (Connect goStd 0 freshClient
      (some (openConn [ReadEvent.data (replyFrame 1 badKeyReply [])]))).2.1.authToken
      = freshClient.authToken := by
  have h := Connect_failure goStd 0 freshClient
    (openConn [ReadEvent.data (replyFrame 1 badKeyReply [])]) _ _ _ rfl
  have h5 := h.2.2.2.2.1 _ (ascii "!!!") [] rfl rfl rfl rfl
  exact ⟨h5, h.1 _ h5⟩

theorem Connect_success_witness :
    (Connect goStd 0 freshClient (some (openConn handshakeScript))).2.2 = Except.ok () ∧
    (Connect goStd 0 freshClient (some (openConn handshakeScript))).2.1.xorKey
      = ascii "testkey" ∧
    (Connect goStd 0 freshClient (some (openConn handshakeScript))).2.1.authToken
      = ascii "tok-123" ∧
    ∃ body1 body2 connF,
      goStd.jsonMarshalRequest
        { authToken := [], version := 2, name := ascii "ServerConnect", contentBody := [] }
          = some body1 ∧
      goStd.jsonMarshalRequest
        { authToken := [], version := 2, name := ascii "Login",
          contentBody := freshClient.password } = some body2 ∧
      (Connect goStd 0 freshClient (some (openConn handshakeScript))).2.1.conn = some connF ∧
      connF.written = (openConn handshakeScript).written ++
        (putUint32 ((0 + 1) % 2 ^ 32) ++ putUint32 (body1.length % 2 ^ 32) ++ body1) ++
        (putUint32 (((0 + 1) % 2 ^ 32 + 1) % 2 ^ 32) ++ putUint32 (body2.length % 2 ^ 32)
          ++ XOR body2 (ascii "testkey")) :=
  Connect_success goStd 0 freshClient (openConn handshakeScript) _ _ _
    (ascii "dGVzdGtleQ==") (ascii "testkey") _ _ _ (ascii "tok-123")
    rfl rfl rfl rfl rfl rfl rfl rfl rfl

/-- C12, the code at a failing input: the peer of the end-to-end example answers
ServerConnect with status 200 and the key `dGVzdGtleQ==`, and Login with status
200 and the token `tok-123`. When each answer arrives in one read, `Connect`
succeeds with the key `testkey` and the token `tok-123`. When the first four
bytes of the ServerConnect answer arrive in a read of their own, `Connect` fails
at the ServerConnect exchange and the client has no key and no token; when the
first seven bytes of the Login answer arrive in a read of their own, `Connect`
fails at the Login exchange and the client has no token. -/
theorem Connect_short_header_read :
    ((Connect goStd 0 freshClient (some (openConn handshakeScript))).2.2 = Except.ok () ∧
      (Connect goStd 0 freshClient (some (openConn handshakeScript))).2.1.xorKey
        = ascii "testkey" ∧
      (Connect goStd 0 freshClient (some (openConn handshakeScript))).2.1.authToken
        = ascii "tok-123") ∧
    ((Connect goStd 0 freshClient (some (openConn
        [ReadEvent.data ((replyFrame 1 keyReply []).take 4),
         ReadEvent.data ((replyFrame 1 keyReply []).drop 4),
         ReadEvent.data (replyFrame 2 loginReply (ascii "testkey"))]))).2.2
        = Except.error (Error.serverConnectFailed Error.unmarshalResponse) ∧
      (Connect goStd 0 freshClient (some (openConn
        [ReadEvent.data ((replyFrame 1 keyReply []).take 4),
         ReadEvent.data ((replyFrame 1 keyReply []).drop 4),
         ReadEvent.data (replyFrame 2 loginReply (ascii "testkey"))]))).2.1.xorKey = [] ∧
      (Connect goStd 0 freshClient (some (openConn
        [ReadEvent.data ((replyFrame 1 keyReply []).take 4),
         ReadEvent.data ((replyFrame 1 keyReply []).drop 4),
         ReadEvent.data (replyFrame 2 loginReply (ascii "testkey"))]))).2.1.authToken = []) ∧
    ((Connect goStd 0 freshClient (some (openConn
        [ReadEvent.data (replyFrame 1 keyReply []),
         ReadEvent.data ((replyFrame 2 loginReply (ascii "testkey")).take 7),
         ReadEvent.data ((replyFrame 2 loginReply (ascii "testkey")).drop 7)]))).2.2
        = Except.error (Error.loginFailed Error.unmarshalResponse) ∧
      (Connect goStd 0 freshClient (some (openConn
        [ReadEvent.data (replyFrame 1 keyReply []),
         ReadEvent.data ((replyFrame 2 loginReply (ascii "testkey")).take 7),
         ReadEvent.data ((replyFrame 2 loginReply (ascii "testkey")).drop 7)]))).2.1.authToken
        = []) :=
  ⟨⟨rfl, rfl, rfl⟩, ⟨rfl, rfl, rfl⟩, ⟨rfl, rfl⟩⟩

/-! ## C14: request ids -/

/-- C14: every `PackRequest` call leaves the counter at `(counter + 1) mod
2 ^ 32`; a successful call returns that value as the request id and writes it
into the first four bytes of the frame; an exchange advances the counter as its
`PackRequest` call does; so of two successive calls that succeed the second id
is the first plus one modulo `2 ^ 32`, and greater than the first unless the
counter wraps. -/
theorem PackRequest_ids (L : StdLib) (counter : Nat) (tok cmd : GoString) (cb : Value) :
    (PackRequest L counter tok cmd cb).1 = (counter + 1) % 2 ^ 32 ∧
    (∀ data id, (PackRequest L counter tok cmd cb).2 = Except.ok (data, id) →
      id = (counter + 1) % 2 ^ 32 ∧ (decodeHeader (data.take HeaderSize)).1 = id) ∧
    (∀ c : Client, (exchangeUnlocked L counter c cmd cb).1 = (counter + 1) % 2 ^ 32) ∧
    (∀ tok2 cmd2 cb2 data1 id1 data2 id2,
      (PackRequest L counter tok cmd cb).2 = Except.ok (data1, id1) →
      (PackRequest L (PackRequest L counter tok cmd cb).1 tok2 cmd2 cb2).2
        = Except.ok (data2, id2) →
      id2 = (id1 + 1) % 2 ^ 32 ∧ (id1 + 1 < 2 ^ 32 → id1 < id2)) := by
  refine ⟨PackRequest_counter L counter tok cmd cb, ?_, ?_, ?_⟩
  · intro data id h
    obtain ⟨s, body, _, _, hid, hdata⟩ := PackRequest_ok L counter tok cmd cb data id h
    refine ⟨hid, ?_⟩
    rw [hdata, decodeHeader_frame, hid]
    exact Nat.mod_mod _ _
  · intro c
    exact exchange_counter L counter c cmd cb
  · intro tok2 cmd2 cb2 data1 id1 data2 id2 h1 h2
    obtain ⟨_, _, _, _, hid1, _⟩ := PackRequest_ok L counter tok cmd cb data1 id1 h1
    obtain ⟨_, _, _, _, hid2, _⟩ := PackRequest_ok L _ tok2 cmd2 cb2 data2 id2 h2
    rw [PackRequest_counter, ← hid1] at hid2
    refine ⟨hid2, ?_⟩
    intro hlt
    rw [hid2, Nat.mod_eq_of_lt hlt]
    exact Nat.lt_succ_self _

theorem PackRequest_ids_witness :
    (42 = (41 + 1) % 2 ^ 32 ∧
      (decodeHeader ((putUint32 42 ++ putUint32 68 ++ marshalRequest
        { authToken := [], version := 2, name := ascii "ServerConnect",
          contentBody := [] }).take HeaderSize)).1 = 42) ∧
    43 = (42 + 1) % 2 ^ 32 ∧ (42 + 1 < 2 ^ 32 → 42 < 43) :=
  ⟨(PackRequest_ids goStd 41 [] (ascii "ServerConnect") (Value.str [])).2.1
      (putUint32 42 ++ putUint32 68 ++ marshalRequest
        { authToken := [], version := 2, name := ascii "ServerConnect", contentBody := [] })
      42 rfl,
   (PackRequest_ids goStd 41 [] (ascii "ServerConnect") (Value.str [])).2.2.2
      [] (ascii "Login") (Value.str (ascii "secret"))
      (putUint32 42 ++ putUint32 68 ++ marshalRequest
        { authToken := [], version := 2, name := ascii "ServerConnect", contentBody := [] })
      42
      (putUint32 43 ++ putUint32 66 ++ marshalRequest
        { authToken := [], version := 2, name := ascii "Login",
          contentBody := ascii "secret" })
      43 rfl rfl⟩

/-! ## C13: a successful `Execute` -/

theorem readBody_done (fuel : Nat) (conn : Conn) (contentLength : Nat) (body : List Nat)
    (totalRead : Nat) (h : ¬ totalRead < contentLength) :
    readBody fuel conn contentLength body totalRead = (conn, some (Except.ok body)) := by
  cases fuel <;> simp [readBody, h]

theorem Conn.Read_data (conn : Conn) (n : Nat) (bs : List Nat) (rest : List ReadEvent)
    (hopen : conn.closed = false) (hin : conn.incoming = ReadEvent.data bs :: rest) :
    conn.Read n =
      if bs.length ≤ n then ({ conn with incoming := rest }, some bs)
      else ({ conn with incoming := ReadEvent.data (bs.drop n) :: rest }, some (bs.take n)) := by
  unfold Conn.Read
  simp only [hopen, hin]
  rfl

/-- On an open connection whose next events deliver the chunks `ds`, holding at
least the bytes still missing, the body loop returns the buffer filled with the
next bytes of the stream, whatever follows the chunks. -/
theorem readBody_chunks (contentLength : Nat) (fuel : Nat) :
    ∀ (conn : Conn) (body : List Nat) (totalRead : Nat) (ds : List (List Nat))
      (later : List ReadEvent),
      conn.closed = false →
      conn.incoming = ds.map ReadEvent.data ++ later →
      body.length = contentLength →
      totalRead ≤ contentLength →
      contentLength - totalRead ≤ ds.flatten.length →
      (conn.incoming.length < fuel ∨ contentLength ≤ totalRead) →
      ∃ conn1, readBody fuel conn contentLength body totalRead
        = (conn1, some (Except.ok (body.take totalRead ++
            ds.flatten.take (contentLength - totalRead)))) := by
  induction fuel with
  | zero =>
    intro conn body totalRead ds later _ _ hlen ht _ hf
    have hge : contentLength ≤ totalRead := by
      rcases hf with h | h
      · exact absurd h (Nat.not_lt_zero _)
      · exact h
    refine ⟨conn, ?_⟩
    rw [readBody_done 0 conn contentLength body totalRead (Nat.not_lt.mpr hge)]
    have e0 : contentLength - totalRead = 0 := by omega
    have e1 : body.take totalRead = body := List.take_of_length_le (by omega)
    rw [e0, e1]
    simp
  | succ fuel ih =>
    intro conn body totalRead ds later hopen hinc hlen ht hstream hf
    by_cases hlt : totalRead < contentLength
    · have hfl : conn.incoming.length < fuel + 1 := by
        rcases hf with h | h
        · exact h
        · exact absurd hlt (Nat.not_lt.mpr h)
      cases ds with
      | nil =>
        simp at hstream
        omega
      | cons bs ds1 =>
        have hinc1 : conn.incoming = ReadEvent.data bs :: (ds1.map ReadEvent.data ++ later) := by
          rw [hinc]
          rfl
        rw [hinc1] at hfl
        simp only [List.flatten_cons, List.length_append] at hstream
        simp only [List.length_cons] at hfl
        have hread := Conn.Read_data conn (body.length - totalRead) bs _ hopen hinc1
        unfold readBody
        simp only [hlt, if_true, hread, List.flatten_cons]
        by_cases hle : bs.length ≤ body.length - totalRead
        · simp only [hle, if_true]
          obtain ⟨conn1, h1⟩ := ih
            { conn with incoming := ds1.map ReadEvent.data ++ later }
            (storeAt body totalRead bs) (totalRead + bs.length) ds1 later hopen rfl
            (by rw [storeAt_length _ _ _ (by omega)]; exact hlen) (by omega)
            (by omega) (Or.inl (by simp only; omega))
          refine ⟨conn1, ?_⟩
          rw [h1]
          have e1 : (storeAt body totalRead bs).take (totalRead + bs.length)
              = body.take totalRead ++ bs := by
            unfold storeAt
            rw [List.take_append_of_le_length (by simp; omega)]
            rw [List.take_of_length_le (by simp)]
          have e2 : (bs ++ ds1.flatten).take (contentLength - totalRead)
              = bs ++ ds1.flatten.take (contentLength - (totalRead + bs.length)) := by
            rw [List.take_append_eq_append_take, List.take_of_length_le (by omega)]
            congr 2
            omega
          rw [e1, e2, List.append_assoc]
        · simp only [hle, if_false]
          have hgl : (bs.take (body.length - totalRead)).length = body.length - totalRead := by
            rw [List.length_take]
            omega
          have hdone := readBody_done fuel
            (⟨ReadEvent.data (bs.drop (body.length - totalRead)) ::
              (ds1.map ReadEvent.data ++ later), conn.written, conn.writeFails, conn.closed⟩ : Conn)
            contentLength (storeAt body totalRead (bs.take (body.length - totalRead)))
            (totalRead + (bs.take (body.length - totalRead)).length) (by omega)
          refine ⟨(⟨ReadEvent.data (bs.drop (body.length - totalRead)) ::
            (ds1.map ReadEvent.data ++ later), conn.written, conn.writeFails, conn.closed⟩ : Conn),
            ?_⟩
          rw [hdone]
          have e1 : storeAt body totalRead (bs.take (body.length - totalRead))
              = body.take totalRead ++ bs.take (body.length - totalRead) := by
            unfold storeAt
            rw [List.drop_of_length_le (by omega)]
            simp
          have e2 : (bs ++ ds1.flatten).take (contentLength - totalRead)
              = bs.take (body.length - totalRead) := by
            rw [List.take_append_eq_append_take, hlen]
            have : contentLength - totalRead - bs.length = 0 := by omega
            rw [this]
            simp
          rw [e1, e2]
    · refine ⟨conn, ?_⟩
      rw [readBody_done (fuel + 1) conn contentLength body totalRead hlt]
      have e0 : contentLength - totalRead = 0 := by omega
      have e1 : body.take totalRead = body := List.take_of_length_le (by omega)
      rw [e0, e1]
      simp

/-- The header read on an open connection whose first event holds at least the
eight bytes of the header and is followed by the chunks `ds`. -/
theorem Conn.Read_header_chunks (conn : Conn) (first : List Nat) (ds : List (List Nat))
    (later : List ReadEvent)
    (hopen : conn.closed = false)
    (hin : conn.incoming = ReadEvent.data first :: (ds.map ReadEvent.data ++ later))
    (h8 : HeaderSize ≤ first.length) :
    ∃ (conn2 : Conn) (ds2 : List (List Nat)), conn.Read HeaderSize = (conn2, some (first.take HeaderSize)) ∧
      conn2.closed = false ∧ conn2.incoming = ds2.map ReadEvent.data ++ later ∧
      ds2.flatten = (first ++ ds.flatten).drop HeaderSize := by
  rw [Conn.Read_data conn HeaderSize first _ hopen hin]
  by_cases hle : first.length ≤ HeaderSize
  · refine ⟨{ conn with incoming := ds.map ReadEvent.data ++ later }, ds, ?_, hopen, rfl, ?_⟩
    · simp only [hle, if_true]
      rw [List.take_of_length_le hle]
    · rw [List.drop_append_eq_append_drop, List.drop_of_length_le hle]
      have : HeaderSize - first.length = 0 := by omega
      rw [this]
      simp
  · refine ⟨(⟨ReadEvent.data (first.drop HeaderSize) :: (ds.map ReadEvent.data ++ later),
        conn.written, conn.writeFails, conn.closed⟩ : Conn),
      first.drop HeaderSize :: ds, ?_, hopen, rfl, ?_⟩
    · simp only [hle, if_false]
    · rw [List.flatten_cons, List.drop_append_eq_append_drop]
      have : HeaderSize - first.length = 0 := by omega
      rw [this]
      simp

theorem storeAt_header (got : List Nat) (h : got.length = HeaderSize) :
    storeAt (List.replicate HeaderSize 0) 0 got = got := by
  unfold storeAt
  rw [List.drop_of_length_le (by simp [h])]
  simp

/-- The exchange of `Execute` when the header arrives in the first read: a
connected client with key `k` sends a request with id `id`; the
peer's stream starts with a header carrying `id` and the length of `J`, within
the response ceiling, followed by `XOR(J, k)` (`J` itself for an empty key),
where `J` decodes as the JSON response `resp`. The first read delivers at least
the eight header bytes; the rest arrives in any chunks, followed by anything.
Then `Execute` returns `resp`, whatever its status code. -/
theorem Execute_success (L : StdLib) (counter : Nat) (c : Client) (cmd : GoString)
    (cb : Value) (data : List Nat) (id : Nat) (conn : Conn) (first : List Nat)
    (chunks : List (List Nat)) (later : List ReadEvent) (J tail : List Nat) (resp : Response)
    (hc : c.conn = some conn) (hopen : conn.closed = false) (hwf : conn.writeFails = false)
    (hp : (PackRequest L counter c.authToken cmd cb).2 = Except.ok (data, id))
    (hsz : (data.length : Int) ≤ c.maxRequestSize)
    (hin : conn.incoming = ReadEvent.data first :: (chunks.map ReadEvent.data ++ later))
    (h8 : HeaderSize ≤ first.length)
    (hstream : first ++ chunks.flatten =
      putUint32 id ++ putUint32 J.length ++
        (if c.xorKey = [] then J else XOR J c.xorKey) ++ tail)
    (h32 : J.length < 2 ^ 32)
    (hle : (J.length : Int) ≤ c.maxResponseSize)
    (hJ : L.jsonUnmarshalResponse J = some resp) :
    (Execute L counter c cmd cb).2.2 = Except.ok resp := by
  have hx : Execute L counter c cmd cb = exchangeUnlocked L counter c cmd cb := by
    unfold Execute
    rw [hc]
  have hw := Conn.Write_ok conn (encryptFrame data c.xorKey) hopen hwf
  obtain ⟨conn2, ds2, hr, hopen2, hin2, hs2⟩ := Conn.Read_header_chunks
    { conn with written := conn.written ++ encryptFrame data c.xorKey } first chunks later
    hopen hin h8
  have hgot : first.take HeaderSize = putUint32 id ++ putUint32 J.length := by
    have : first.take HeaderSize = (first ++ chunks.flatten).take HeaderSize := by
      rw [List.take_append_of_le_length h8]
    rw [this, hstream]
    simp [putUint32, HeaderSize]
  have hdrop : (first ++ chunks.flatten).drop HeaderSize
      = (if c.xorKey = [] then J else XOR J c.xorKey) ++ tail := by
    rw [hstream]
    simp [putUint32, HeaderSize]
  obtain ⟨_, _, _, _, hid, _⟩ := PackRequest_ok L counter c.authToken cmd cb data id hp
  have hidm : id % 2 ^ 32 = id := by
    rw [hid]
    exact Nat.mod_mod _ _
  have hhdr : storeAt (List.replicate HeaderSize 0) 0 (first.take HeaderSize)
      = putUint32 id ++ putUint32 J.length := by
    rw [storeAt_header _ (by rw [hgot]; rfl), hgot]
  have hdec : decodeHeader (putUint32 id ++ putUint32 J.length) = (id, J.length) := by
    have := decodeHeader_frame id J.length []
    simp only [List.append_nil] at this
    have e : (putUint32 id ++ putUint32 J.length).take HeaderSize
        = putUint32 id ++ putUint32 J.length := by
      simp [putUint32, HeaderSize]
    rw [e] at this
    rw [this, hidm, Nat.mod_eq_of_lt h32]
  have henc : (if c.xorKey = [] then J else XOR J c.xorKey).length = J.length := by
    split
    · rfl
    · exact XOR_length J c.xorKey
  obtain ⟨conn3, hrb⟩ := readBody_chunks J.length (conn2.incoming.length + 1) conn2
    (List.replicate J.length 0) 0 ds2 later hopen2 hin2 (by simp) (Nat.zero_le _)
    (by rw [hs2, hdrop, List.length_append, henc]; omega) (Or.inl (Nat.lt_succ_self _))
  have hbody : List.take 0 (List.replicate J.length 0) ++ ds2.flatten.take (J.length - 0)
      = (if c.xorKey = [] then J else XOR J c.xorKey) := by
    rw [hs2, hdrop]
    simp only [List.take_zero, List.nil_append, Nat.sub_zero]
    rw [List.take_append_of_le_length (by rw [henc]), List.take_of_length_le (by rw [henc])]
  rw [hbody] at hrb
  have hdecrypt : (if c.xorKey.length > 0 then
      XOR (if c.xorKey = [] then J else XOR J c.xorKey) c.xorKey
      else (if c.xorKey = [] then J else XOR J c.xorKey)) = J := by
    cases hk : c.xorKey with
    | nil => simp
    | cons k ks =>
      simp only [List.length_cons, gt_iff_lt, Nat.zero_lt_succ, if_true]
      rw [if_neg (by simp)]
      exact XOR_XOR J (k :: ks)
  rw [hx, exchange_after_header L counter c cmd cb data id conn _ conn2 _ hp hsz hc hw hr,
    hhdr, hdec]
  simp only [not_lt.mpr hle, if_false, hrb, hdecrypt, hJ, ne_eq, not_true_eq_false]

theorem Execute_success_witness :
    (Execute goStd 5
      (readyClient
        [ReadEvent.data ((replyFrame 6 rejectedReply (ascii "testkey")).take 20),
         ReadEvent.data (((replyFrame 6 rejectedReply (ascii "testkey")).drop 20).take 50),
         ReadEvent.data ((replyFrame 6 rejectedReply (ascii "testkey")).drop 70),
         ReadEvent.err])
      (ascii "GetServerInformation") Value.null).2.2
      = Except.ok
        { statusCode := 400, statusMessage := ascii "Bad Request", version := 2,
          name := ascii "GetServerInformation", contentBody := Value.str [] } :=
  Execute_success goStd 5
    (readyClient
      [ReadEvent.data ((replyFrame 6 rejectedReply (ascii "testkey")).take 20),
       ReadEvent.data (((replyFrame 6 rejectedReply (ascii "testkey")).drop 20).take 50),
       ReadEvent.data ((replyFrame 6 rejectedReply (ascii "testkey")).drop 70),
       ReadEvent.err])
    (ascii "GetServerInformation") Value.null _ 6
    (openConn
      [ReadEvent.data ((replyFrame 6 rejectedReply (ascii "testkey")).take 20),
       ReadEvent.data (((replyFrame 6 rejectedReply (ascii "testkey")).drop 20).take 50),
       ReadEvent.data ((replyFrame 6 rejectedReply (ascii "testkey")).drop 70),
       ReadEvent.err])
    ((replyFrame 6 rejectedReply (ascii "testkey")).take 20)
    [((replyFrame 6 rejectedReply (ascii "testkey")).drop 20).take 50,
     (replyFrame 6 rejectedReply (ascii "testkey")).drop 70]
    [ReadEvent.err] rejectedReply [] _
    rfl rfl rfl rfl (by decide) rfl (by decide) (by decide) (by decide) (by decide) rfl

/-- C13, the code at a failing input: a connected client with the key `testkey`
sends the request with id 6 and the peer replies with the header (6, 107) and
the body `XOR(J, testkey)`, where `J` is a response with status 400. When the
eight header bytes arrive in the first read, `Execute` returns the response of
`J`. When only seven of them arrive in the first read, the eighth header byte is
taken as the first byte of the body, the body that is decrypted is the frame
from byte 7 to byte 113, and `Execute` returns the unmarshal error, with the
last byte of the frame left unread on the connection. -/
theorem Execute_short_header_read :
    (Execute goStd 5
      (readyClient [ReadEvent.data ((replyFrame 6 rejectedReply (ascii "testkey")).take 8),
        ReadEvent.data ((replyFrame 6 rejectedReply (ascii "testkey")).drop 8)])
      (ascii "GetServerInformation") Value.null).2.2
      = Except.ok { statusCode := 400, statusMessage := ascii "Bad Request", version := 2,
                    name := ascii "GetServerInformation", contentBody := Value.str [] } ∧
    goStd.jsonUnmarshalResponse rejectedReply
      = some { statusCode := 400, statusMessage := ascii "Bad Request", version := 2,
               name := ascii "GetServerInformation", contentBody := Value.str [] } ∧
    (Execute goStd 5
      (readyClient [ReadEvent.data ((replyFrame 6 rejectedReply (ascii "testkey")).take 7),
        ReadEvent.data ((replyFrame 6 rejectedReply (ascii "testkey")).drop 7)])
      (ascii "GetServerInformation") Value.null).2.2
      = Except.error Error.unmarshalResponse ∧
    (Execute goStd 5
      (readyClient [ReadEvent.data ((replyFrame 6 rejectedReply (ascii "testkey")).take 7),
        ReadEvent.data ((replyFrame 6 rejectedReply (ascii "testkey")).drop 7)])
      (ascii "GetServerInformation") Value.null).2.1.conn.map Conn.incoming
      = some [ReadEvent.data ((replyFrame 6 rejectedReply (ascii "testkey")).drop 114)] :=
  ⟨rfl, rfl, rfl, rfl⟩

/-! ## Facts about the session map -/

theorem mapGet_mapDelete_self (m : List (GoString × Session)) (id : GoString) :
    mapGet (mapDelete m id) id = none := by
  induction m with
  | nil => rfl
  | cons p rest ih =>
    obtain ⟨k, s⟩ := p
    unfold mapDelete at ih ⊢
    by_cases hk : k = id
    · simp only [List.filter_cons, hk, ne_eq, not_true_eq_false, decide_False]
      exact ih
    · simp only [List.filter_cons, hk, ne_eq, not_false_eq_true, decide_True, if_true, mapGet,
        if_false]
      exact ih

theorem mapGet_mapDelete_ne (m : List (GoString × Session)) (id k : GoString) (h : k ≠ id) :
    mapGet (mapDelete m id) k = mapGet m k := by
  induction m with
  | nil => rfl
  | cons p rest ih =>
    obtain ⟨k1, s⟩ := p
    unfold mapDelete at ih ⊢
    by_cases hk : k1 = id
    · have hk1 : ¬ k1 = k := by
        rw [hk]
        exact fun e => h e.symm
      simp only [List.filter_cons, hk, ne_eq, not_true_eq_false, decide_False, mapGet]
      rw [← hk, if_neg hk1, hk]
      exact ih
    · simp only [List.filter_cons, hk, ne_eq, not_false_eq_true, decide_True, if_true, mapGet]
      rw [ih]

theorem mapGet_mapSet_self (m : List (GoString × Session)) (id : GoString) (s : Session) :
    mapGet (mapSet m id s) id = some s := by
  simp [mapSet, mapGet]

theorem mapGet_mapSet_ne (m : List (GoString × Session)) (id k : GoString) (s : Session)
    (h : k ≠ id) : mapGet (mapSet m id s) k = mapGet m k := by
  unfold mapSet
  rw [mapGet, if_neg (fun e => h e.symm)]
  exact mapGet_mapDelete_ne m id k h

theorem mapDelete_of_absent (m : List (GoString × Session)) (id : GoString)
    (h : mapGet m id = none) : mapDelete m id = m := by
  induction m with
  | nil => rfl
  | cons p rest ih =>
    obtain ⟨k, s⟩ := p
    unfold mapDelete at ih ⊢
    by_cases hk : k = id
    · simp [mapGet, hk] at h
    · simp only [mapGet, hk, if_false] at h
      simp only [List.filter_cons, hk, ne_eq, not_false_eq_true, decide_True, if_true]
      rw [ih h]

/-! ## C15: `Manager.Create` -/

/-- C15: when the `Connect` of the new client fails, `Manager.Create` returns
that error and the manager is unchanged; when it succeeds, the returned session
has the generated id, the connected client and the given host and port, the map
holds it under its id and every other key is as before; if the id was not in
use the map is the old map with that one entry added. -/
theorem Manager.Create_spec (L : StdLib) (counter : Nat) (m : Manager) (dial : Option Conn)
    (random : List Nat) (now1 now2 : Int) (host : GoString) (port : Int)
    (password : GoString) (dialTimeout maxRequestSize maxResponseSize : Int) :
    (∀ ctr1 c1 err,
      Connect L counter
        (NewClient host port password (dialTimeout * 1000000000) maxRequestSize
          maxResponseSize) dial = (ctr1, c1, Except.error err) →
      Manager.Create L counter m dial random now1 now2 host port password dialTimeout
        maxRequestSize maxResponseSize = (ctr1, m, Except.error err)) ∧
    (∀ ctr1 c1 u,
      Connect L counter
        (NewClient host port password (dialTimeout * 1000000000) maxRequestSize
          maxResponseSize) dial = (ctr1, c1, Except.ok u) →
      ∃ m1 session,
        Manager.Create L counter m dial random now1 now2 host port password dialTimeout
          maxRequestSize maxResponseSize = (ctr1, m1, Except.ok session) ∧
        session.id = generateSessionID random ∧ session.client = c1 ∧
        session.host = host ∧ session.port = port ∧
        session.createdAt = now1 ∧ session.lastUsed = now2 ∧
        m1.timeout = m.timeout ∧
        mapGet m1.sessions session.id = some session ∧
        (∀ k, k ≠ session.id → mapGet m1.sessions k = mapGet m.sessions k) ∧
        (mapGet m.sessions session.id = none →
          m1.sessions = (session.id, session) :: m.sessions)) := by
  constructor
  · intro ctr1 c1 err h
    unfold Manager.Create
    simp only [h]
  · intro ctr1 c1 u h
    refine ⟨(⟨mapSet m.sessions (generateSessionID random)
        ⟨generateSessionID random, c1, host, port, now1, now2⟩, m.timeout⟩ : Manager),
      { id := generateSessionID random, client := c1, host := host, port := port,
        createdAt := now1, lastUsed := now2 },
      ?_, rfl, rfl, rfl, rfl, rfl, rfl, rfl, ?_, ?_, ?_⟩
    · unfold Manager.Create
      simp only [h]
    · exact mapGet_mapSet_self _ _ _
    · intro k hk
      exact mapGet_mapSet_ne _ _ _ _ hk
    · intro habs
      simp only [mapSet]
      rw [mapDelete_of_absent _ _ habs]

/-! ## C16: `Manager.Get` -/

/-- C16: `Manager.Get` on an id that is not in the map reports not-found and
leaves the manager unchanged; on a known id it returns that session with
`lastUsed` set to the current time and its other fields unchanged, the map holds
the returned session under the id, and every other key is as before. -/
theorem Manager.Get_spec (m : Manager) (now : Int) (id : GoString) :
    (mapGet m.sessions id = none → Manager.Get m now id = (m, none)) ∧
    (∀ s, mapGet m.sessions id = some s →
      ∃ s1, (Manager.Get m now id).2 = some s1 ∧
        s1.lastUsed = now ∧ s1.id = s.id ∧ s1.client = s.client ∧ s1.host = s.host ∧
        s1.port = s.port ∧ s1.createdAt = s.createdAt ∧
        (Manager.Get m now id).1.timeout = m.timeout ∧
        mapGet (Manager.Get m now id).1.sessions id = some s1 ∧
        (∀ k, k ≠ id →
          mapGet (Manager.Get m now id).1.sessions k = mapGet m.sessions k)) := by
  constructor
  · intro h
    unfold Manager.Get
    rw [h]
  · intro s h
    have hg : Manager.Get m now id =
        ({ m with sessions := mapSet m.sessions id { s with lastUsed := now } },
          some { s with lastUsed := now }) := by
      unfold Manager.Get
      rw [h]
    rw [hg]
    refine ⟨_, rfl, rfl, rfl, rfl, rfl, rfl, rfl, rfl, ?_, ?_⟩
    · exact mapGet_mapSet_self _ _ _
    · intro k hk
      exact mapGet_mapSet_ne _ _ _ _ hk

/-! ## C17: `Manager.Remove` -/

/-- C17: `Manager.Remove` on a present id calls `Close` on that session's
client (which leaves its connection closed), deletes the entry and leaves every
other key as it was, so that a following `Get` reports not-found; on an absent
id it changes nothing and closes nothing; a second `Remove` of the same id
changes nothing and closes nothing. -/
theorem Manager.Remove_spec (m : Manager) (id : GoString) :
    (∀ s, mapGet m.sessions id = some s →
      (Manager.Remove m id).2 = [(Close s.client).1] ∧
      (∀ conn, s.client.conn = some conn →
        ∃ conn1, (Close s.client).1.conn = some conn1 ∧ conn1.closed = true) ∧
      (Manager.Remove m id).1.timeout = m.timeout ∧
      mapGet (Manager.Remove m id).1.sessions id = none ∧
      (∀ k, k ≠ id → mapGet (Manager.Remove m id).1.sessions k = mapGet m.sessions k) ∧
      (∀ now, Manager.Get (Manager.Remove m id).1 now id = ((Manager.Remove m id).1, none))) ∧
    (mapGet m.sessions id = none → Manager.Remove m id = (m, [])) ∧
    Manager.Remove (Manager.Remove m id).1 id = ((Manager.Remove m id).1, []) := by
  have habs : ∀ m1 : Manager, mapGet m1.sessions id = none → Manager.Remove m1 id = (m1, []) := by
    intro m1 h
    unfold Manager.Remove
    rw [h]
  have hpres : ∀ s, mapGet m.sessions id = some s →
      Manager.Remove m id
        = ({ m with sessions := mapDelete m.sessions id }, [(Close s.client).1]) := by
    intro s h
    unfold Manager.Remove
    rw [h]
  refine ⟨?_, habs m, ?_⟩
  · intro s h
    rw [hpres s h]
    refine ⟨rfl, ?_, rfl, mapGet_mapDelete_self _ _, ?_, ?_⟩
    · intro conn hc
      exact ⟨conn.Close.1, Close_conn s.client conn hc, Conn.Close_closed conn⟩
    · intro k hk
      exact mapGet_mapDelete_ne _ _ _ hk
    · intro now
      unfold Manager.Get
      simp only [mapGet_mapDelete_self]
  · cases h : mapGet m.sessions id with
    | none =>
      rw [habs m h]
      exact habs m h
    | some s =>
      rw [hpres s h]
      exact habs _ (mapGet_mapDelete_self _ _)

theorem Manager.Create_spec_witness :
    Manager.Create goStd 0 (NewManager 50) none (List.replicate 16 171) 10 11
        (ascii "127.0.0.1") 9001 (ascii "secret") 10 1048576 10485760
      = (0, NewManager 50, Except.error Error.dialFailed) ∧
    ∃ m1 session,
      Manager.Create goStd 0 (NewManager 50) (some (openConn handshakeScript))
          (List.replicate 16 171) 10 11 (ascii "127.0.0.1") 9001 (ascii "secret") 10
          1048576 10485760 = (2, m1, Except.ok session) ∧
      session.id = ascii "abababababababababababababababab" ∧
      session.host = ascii "127.0.0.1" ∧ session.port = 9001 ∧
      mapGet m1.sessions session.id = some session := by
  refine ⟨(Manager.Create_spec goStd 0 (NewManager 50) none (List.replicate 16 171) 10 11
    (ascii "127.0.0.1") 9001 (ascii "secret") 10 1048576 10485760).1 _ _ _ rfl, ?_⟩
  obtain ⟨m1, session, h, hid, _, hh, hp, _, _, _, hg, _, _⟩ :=
    (Manager.Create_spec goStd 0 (NewManager 50) (some (openConn handshakeScript))
      (List.replicate 16 171) 10 11 (ascii "127.0.0.1") 9001 (ascii "secret") 10
      1048576 10485760).2 _ _ _ rfl
  exact ⟨m1, session, h, hid, hh, hp, hg⟩

theorem Manager.Get_spec_witness :
    Manager.Get exampleManager 70 (ascii "cc") = (exampleManager, none) ∧
    ∃ s1, (Manager.Get exampleManager 70 (ascii "bb")).2 = some s1 ∧ s1.lastUsed = 70 ∧
      s1.createdAt = (exampleSession (ascii "bb") 100).createdAt ∧
      mapGet (Manager.Get exampleManager 70 (ascii "bb")).1.sessions (ascii "bb") = some s1 := by
  refine ⟨(Manager.Get_spec exampleManager 70 (ascii "cc")).1 rfl, ?_⟩
  obtain ⟨s1, h, hl, _, _, _, _, hc, _, hg, _⟩ :=
    (Manager.Get_spec exampleManager 70 (ascii "bb")).2 (exampleSession (ascii "bb") 100) rfl
  exact ⟨s1, h, hl, hc, hg⟩

theorem Manager.Remove_spec_witness :
    ((Manager.Remove exampleManager (ascii "aa")).2
        = [(Close (exampleSession (ascii "aa") 0).client).1] ∧
      mapGet (Manager.Remove exampleManager (ascii "aa")).1.sessions (ascii "aa") = none) ∧
    Manager.Remove exampleManager (ascii "cc") = (exampleManager, []) :=
  ⟨⟨((Manager.Remove_spec exampleManager (ascii "aa")).1
        (exampleSession (ascii "aa") 0) rfl).1,
    ((Manager.Remove_spec exampleManager (ascii "aa")).1
        (exampleSession (ascii "aa") 0) rfl).2.2.2.1⟩,
   (Manager.Remove_spec exampleManager (ascii "cc")).2.1 rfl⟩

/-! ## C18: the eviction sweep -/

theorem mapGet_none_of_not_mem (m : List (GoString × Session)) (k : GoString)
    (h : k ∉ m.map Prod.fst) : mapGet m k = none := by
  induction m with
  | nil => rfl
  | cons p rest ih =>
    obtain ⟨k1, s⟩ := p
    simp only [List.map_cons, List.mem_cons, not_or] at h
    rw [mapGet, if_neg (fun e => h.1 e.symm)]
    exact ih h.2

theorem mem_of_mapGet (m : List (GoString × Session)) (k : GoString) (s : Session)
    (h : mapGet m k = some s) : (k, s) ∈ m := by
  induction m with
  | nil => simp [mapGet] at h
  | cons p rest ih =>
    obtain ⟨k1, s1⟩ := p
    rw [mapGet] at h
    by_cases hk : k1 = k
    · rw [if_pos hk] at h
      cases h
      rw [hk]
      exact List.mem_cons_self _ _
    · rw [if_neg hk] at h
      exact List.mem_cons_of_mem _ (ih h)

theorem mapGet_filter (m : List (GoString × Session)) (hnd : keysNodup m)
    (P : GoString × Session → Bool) (k : GoString) :
    mapGet (m.filter P) k = (mapGet m k).filter (fun s => P (k, s)) := by
  induction m with
  | nil => rfl
  | cons p rest ih =>
    obtain ⟨k1, s1⟩ := p
    unfold keysNodup at hnd ih
    simp only [List.map_cons, List.nodup_cons] at hnd
    by_cases hk : k1 = k
    · subst hk
      have hrest : mapGet rest k1 = none := mapGet_none_of_not_mem rest k1 hnd.1
      by_cases hP : P (k1, s1) = true
      · simp [List.filter_cons, hP, mapGet, Option.filter]
      · have hnone : mapGet (rest.filter P) k1 = none := by
          rw [ih hnd.2, hrest]
          rfl
        simp [List.filter_cons, hP, mapGet, Option.filter, hnone]
    · by_cases hP : P (k1, s1) = true
      · simp only [List.filter_cons, hP, if_true, mapGet, hk, if_false]
        exact ih hnd.2
      · simp only [List.filter_cons, hP, if_false, mapGet, hk, Bool.false_eq_true]
        exact ih hnd.2

theorem keysNodup_filter (m : List (GoString × Session)) (hnd : keysNodup m)
    (P : GoString × Session → Bool) : keysNodup (m.filter P) := by
  unfold keysNodup at hnd ⊢
  exact List.Nodup.sublist (List.Sublist.map _ (List.filter_sublist m)) hnd

theorem keysNodup_mapSet (m : List (GoString × Session)) (hnd : keysNodup m)
    (id : GoString) (s : Session) : keysNodup (mapSet m id s) := by
  have h1 : keysNodup (mapDelete m id) := keysNodup_filter m hnd _
  unfold keysNodup at h1 ⊢
  unfold mapSet
  simp only [List.map_cons, List.nodup_cons]
  refine ⟨?_, h1⟩
  intro hmem
  simp only [mapDelete, List.mem_map, List.mem_filter] at hmem
  obtain ⟨p, ⟨_, hp⟩, hpk⟩ := hmem
  simp at hp
  exact hp hpk

/-- The loop of `cleanup` deletes from the map the keys of the expired entries
it visits and closes their clients, in the order of the visit. -/
theorem foldl_cleanupStep (now timeout : Int) (todo : List (GoString × Session)) :
    ∀ (cur : List (GoString × Session)) (closed : List Client),
      todo.foldl (cleanupStep now timeout) (cur, closed) =
        (cur.filter (fun p => decide (p.1 ∉
            (todo.filter (fun q => decide (now - q.2.lastUsed > timeout))).map Prod.fst)),
          closed ++ (todo.filter (fun q => decide (now - q.2.lastUsed > timeout))).map
            (fun q => (Close q.2.client).1)) := by
  induction todo with
  | nil =>
    intro cur closed
    simp
  | cons q qs ih =>
    intro cur closed
    rw [List.foldl_cons]
    by_cases hq : now - q.2.lastUsed > timeout
    · have hstep : cleanupStep now timeout (cur, closed) q
          = (mapDelete cur q.1, closed ++ [(Close q.2.client).1]) := by
        simp [cleanupStep, hq]
      rw [hstep, ih]
      simp only [List.filter_cons, hq, decide_True, if_true, List.map_cons, List.mem_cons,
        not_or, mapDelete, List.filter_filter, List.append_assoc, List.singleton_append]
      congr 1
      apply List.filter_congr
      intro p _
      simp only [ne_eq, Bool.decide_and, Bool.and_comm]
    · have hstep : cleanupStep now timeout (cur, closed) q = (cur, closed) := by
        simp [cleanupStep, hq]
      rw [hstep, ih]
      simp only [List.filter_cons, hq, decide_False, Bool.false_eq_true, if_false]

/-- On a map with pairwise different keys `cleanup` keeps exactly the entries
that are not expired and closes the clients of the others. -/
theorem Manager.cleanup_eq (m : Manager) (now : Int) (hnd : keysNodup m.sessions) :
    Manager.cleanup m now =
      ({ m with sessions :=
          m.sessions.filter (fun p => !decide (now - p.2.lastUsed > m.timeout)) },
        (m.sessions.filter (fun q => decide (now - q.2.lastUsed > m.timeout))).map
          (fun q => (Close q.2.client).1)) := by
  unfold Manager.cleanup
  simp only [foldl_cleanupStep, List.nil_append]
  congr 2
  apply List.filter_congr
  intro p hp
  have hinj := List.inj_on_of_nodup_map hnd
  by_cases he : now - p.2.lastUsed > m.timeout
  · simp only [he, decide_True, Bool.not_true, decide_eq_false_iff_not, not_not, List.mem_map,
      List.mem_filter]
    exact ⟨p, ⟨hp, decide_eq_true he⟩, rfl⟩
  · simp only [he, decide_False, Bool.not_false, decide_eq_true_eq, List.mem_map,
      List.mem_filter, decide_eq_true_eq, not_exists, not_and, and_imp]
    intro q hq heq hk
    have : q = p := hinj hq hp hk
    rw [this] at heq
    exact he heq

theorem mapGet_ne_none_of_mem (m : List (GoString × Session)) (k : GoString) (s : Session)
    (h : (k, s) ∈ m) : mapGet m k ≠ none := by
  induction m with
  | nil => simp at h
  | cons p rest ih =>
    obtain ⟨k1, s1⟩ := p
    rw [mapGet]
    by_cases hk : k1 = k
    · rw [if_pos hk]
      exact fun e => Option.noConfusion e
    · rw [if_neg hk]
      simp only [List.mem_cons, Prod.mk.injEq] at h
      rcases h with ⟨e, _⟩ | h
      · exact absurd e.symm hk
      · exact ih h

theorem mapGet_of_mem (m : List (GoString × Session)) (hnd : keysNodup m) (k : GoString)
    (s : Session) (h : (k, s) ∈ m) : mapGet m k = some s := by
  cases hg : mapGet m k with
  | none => exact absurd hg (mapGet_ne_none_of_mem m k s h)
  | some s2 =>
    have hinj := List.inj_on_of_nodup_map hnd
    have e : (k, s2) = (k, s) := hinj (mem_of_mapGet m k s2 hg) h rfl
    cases e
    rfl

/-- The operations of the manager keep the keys of the map pairwise
different. -/
theorem keysNodup_invariant (L : StdLib) (counter : Nat) (m : Manager)
    (hnd : keysNodup m.sessions) :
    keysNodup (NewManager m.timeout).sessions ∧
    (∀ dial random now1 now2 host port password dialTimeout maxRequestSize maxResponseSize,
      keysNodup (Manager.Create L counter m dial random now1 now2 host port password
        dialTimeout maxRequestSize maxResponseSize).2.1.sessions) ∧
    (∀ now id, keysNodup (Manager.Get m now id).1.sessions) ∧
    (∀ id, keysNodup (Manager.Remove m id).1.sessions) ∧
    (∀ now, keysNodup (Manager.cleanup m now).1.sessions) := by
  refine ⟨List.nodup_nil, ?_, ?_, ?_, ?_⟩
  · intro dial random now1 now2 host port password dialTimeout maxRequestSize maxResponseSize
    unfold Manager.Create
    simp only
    split
    · exact hnd
    · exact keysNodup_mapSet _ hnd _ _
  · intro now id
    unfold Manager.Get
    split
    · exact keysNodup_mapSet _ hnd _ _
    · exact hnd
  · intro id
    unfold Manager.Remove
    split
    · exact keysNodup_filter _ hnd _
    · exact hnd
  · intro now
    rw [Manager.cleanup_eq m now hnd]
    exact keysNodup_filter _ hnd _

/-- C18: on a map with pairwise different keys, one sweep at the time `now`
keeps, unchanged, exactly the sessions with `now - lastUsed <= timeout`, removes
the others and calls `Close` once on the client of each session it removes and
on no other client; and a session returned by `Get` at the time `t` is still
in the map after a sweep at any time `now <= t + timeout`. -/
theorem Manager.cleanup_spec (m : Manager) (now : Int) (hnd : keysNodup m.sessions) :
    (Manager.cleanup m now).1.timeout = m.timeout ∧
    (∀ k s, mapGet m.sessions k = some s → now - s.lastUsed ≤ m.timeout →
      mapGet (Manager.cleanup m now).1.sessions k = some s) ∧
    (∀ k s, mapGet m.sessions k = some s → now - s.lastUsed > m.timeout →
      mapGet (Manager.cleanup m now).1.sessions k = none ∧
      (Close s.client).1 ∈ (Manager.cleanup m now).2) ∧
    (∀ k, mapGet m.sessions k = none →
      mapGet (Manager.cleanup m now).1.sessions k = none) ∧
    (Manager.cleanup m now).2 =
      (m.sessions.filter (fun q => decide (now - q.2.lastUsed > m.timeout))).map
        (fun q => (Close q.2.client).1) ∧
    (∀ c ∈ (Manager.cleanup m now).2, ∃ k s, mapGet m.sessions k = some s ∧
      now - s.lastUsed > m.timeout ∧ c = (Close s.client).1) ∧
    (∀ (t : Int) (id : GoString) (s1 : Session), (Manager.Get m t id).2 = some s1 →
      now ≤ t + m.timeout →
      mapGet (Manager.cleanup (Manager.Get m t id).1 now).1.sessions id = some s1) := by
  have hget : ∀ (m1 : Manager), keysNodup m1.sessions → ∀ k,
      mapGet (Manager.cleanup m1 now).1.sessions k
        = (mapGet m1.sessions k).filter
            (fun s => !decide (now - s.lastUsed > m1.timeout)) := by
    intro m1 h1 k
    rw [Manager.cleanup_eq m1 now h1]
    exact mapGet_filter m1.sessions h1 _ k
  refine ⟨?_, ?_, ?_, ?_, ?_, ?_, ?_⟩
  · rw [Manager.cleanup_eq m now hnd]
  · intro k s hs hle
    rw [hget m hnd k, hs]
    simp [Option.filter, not_lt.mpr hle]
  · intro k s hs hgt
    constructor
    · rw [hget m hnd k, hs]
      simp [Option.filter, hgt]
    · rw [Manager.cleanup_eq m now hnd]
      simp only [List.mem_map, List.mem_filter, decide_eq_true_eq]
      exact ⟨(k, s), ⟨mem_of_mapGet _ _ _ hs, hgt⟩, rfl⟩
  · intro k hk
    rw [hget m hnd k, hk]
    rfl
  · rw [Manager.cleanup_eq m now hnd]
  · intro c hc
    rw [Manager.cleanup_eq m now hnd] at hc
    simp only [List.mem_map, List.mem_filter, decide_eq_true_eq] at hc
    obtain ⟨q, ⟨hq, hgt⟩, hqc⟩ := hc
    exact ⟨q.1, q.2, mapGet_of_mem _ hnd _ _ hq, hgt, hqc.symm⟩
  · intro t id s1 hg hle
    cases hs : mapGet m.sessions id with
    | none =>
      unfold Manager.Get at hg
      rw [hs] at hg
      cases hg
    | some s =>
      have hgm : Manager.Get m t id =
          ({ m with sessions := mapSet m.sessions id { s with lastUsed := t } },
            some { s with lastUsed := t }) := by
        unfold Manager.Get
        rw [hs]
      rw [hgm] at hg ⊢
      simp only [Option.some.injEq] at hg
      subst hg
      rw [hget _ (keysNodup_mapSet m.sessions hnd id _) id]
      simp only [mapGet_mapSet_self, Option.filter]
      have : ¬ now - t > m.timeout := by omega
      simp [this]


theorem Manager.cleanup_spec_witness :
    mapGet (Manager.cleanup exampleManager 120).1.sessions (ascii "bb")
      = some (exampleSession (ascii "bb") 100) ∧
    (mapGet (Manager.cleanup exampleManager 120).1.sessions (ascii "aa") = none ∧
      (Close (exampleSession (ascii "aa") 0).client).1
        ∈ (Manager.cleanup exampleManager 120).2) :=
  ⟨(Manager.cleanup_spec exampleManager 120 (by unfold keysNodup; decide)).2.1
      (ascii "bb") (exampleSession (ascii "bb") 100) rfl (by decide),
   (Manager.cleanup_spec exampleManager 120 (by unfold keysNodup; decide)).2.2.1
      (ascii "aa") (exampleSession (ascii "aa") 0) rfl (by decide)⟩

/-! ## C19: `Close` twice -/

/-- C19, counterexample: the second `Close` on a connected client returns an
error. -/
theorem Close_twice_counterexample :
    (Close (readyClient [])).2 = Except.ok () ∧
    (Close (Close (readyClient [])).1).2 = Except.error Error.closeFailed :=
  ⟨rfl, rfl⟩

/-- C19, amended: on a client without a connection `Close` succeeds and changes
nothing; on a client with a connection a second `Close` leaves the client in
the state the first left it in, and returns the error of closing a connection
that is already closed. -/
theorem Close_twice (c : Client) :
    (c.conn = none → Close c = (c, Except.ok ())) ∧
    (Close (Close c).1).1 = (Close c).1 ∧
    (∀ conn, c.conn = some conn →
      (Close (Close c).1).2 = Except.error Error.closeFailed) ∧
    (∀ conn, c.conn = some conn → conn.closed = false → (Close c).2 = Except.ok ()) := by
  have hsome : ∀ conn, c.conn = some conn → ∀ conn1, conn1.closed = true →
      Close { c with conn := some conn1 }
        = ({ c with conn := some conn1 }, Except.error Error.closeFailed) := by
    intro conn _ conn1 h1
    simp [Close, Conn.Close, h1]
  have hfirst : ∀ conn, c.conn = some conn →
      (Close c).1 = { c with conn := some conn.Close.1 } := by
    intro conn hc
    unfold Close
    rw [hc]
    simp only
    generalize conn.Close = p
    obtain ⟨conn1, okc⟩ := p
    cases okc <;> rfl
  refine ⟨?_, ?_, ?_, ?_⟩
  · intro hc
    unfold Close
    rw [hc]
  · cases hc : c.conn with
    | none =>
      have : Close c = (c, Except.ok ()) := by
        unfold Close
        rw [hc]
      rw [this, this]
    | some conn =>
      rw [hfirst conn hc, hsome conn hc _ (Conn.Close_closed conn)]
  · intro conn hc
    rw [hfirst conn hc, hsome conn hc _ (Conn.Close_closed conn)]
  · intro conn hc hopen
    simp [Close, hc, Conn.Close, hopen]

theorem Close_twice_witness :
    Close freshClient = (freshClient, Except.ok ()) ∧
    (Close (Close (readyClient [])).1).2 = Except.error Error.closeFailed ∧
    (Close (readyClient [])).2 = Except.ok () :=
  ⟨(Close_twice freshClient).1 rfl,
   (Close_twice (readyClient [])).2.2.1 (openConn []) rfl,
   (Close_twice (readyClient [])).2.2.2 (openConn []) rfl rfl⟩

/-! ## C20: the end-to-end example -/

/-- C20, counterexample: after the handshake of the example, `Execute` returns
a Response whose `contentBody` is not the object with an empty `players`
list. -/
theorem Execute_example_counterexample :
    ∃ resp,
      (Execute goStd 2 exampleReady (ascii "GetServerInformation")
        (Value.obj [(ascii "Name", Value.str (ascii "players"))])).2.2 = Except.ok resp ∧
      resp.contentBody ≠ Value.obj [(ascii "players", Value.arr [])] :=
  ⟨_, rfl, fun h => Value.noConfusion h⟩

/-- C20, amended: after the handshake of the example (key `testkey`, token
`tok-123`), `Execute` returns a Response with status 200 whose `contentBody` is
the string `{"players":[]}` as the peer sent it; `parseContentBody`, which the
HTTP handler applies to it, gives the object with an empty `players` list. -/
theorem Execute_example :
    exampleReady.xorKey = ascii "testkey" ∧
    exampleReady.authToken = ascii "tok-123" ∧
    (Execute goStd 2 exampleReady (ascii "GetServerInformation")
      (Value.obj [(ascii "Name", Value.str (ascii "players"))])).2.2
      = Except.ok
        { statusCode := 200, statusMessage := ascii "OK", version := 2,
          name := ascii "GetServerInformation",
          contentBody := Value.str (ascii "\x7b\"players\":[]\x7d") } ∧
    parseContentBody goStd (Value.str (ascii "\x7b\"players\":[]\x7d"))
      = Value.obj [(ascii "players", Value.arr [])] :=
  ⟨rfl, rfl, rfl, rfl⟩

/-! ## C22: the header read -/

/-- C22, the code at a failing input: the peer sends the frame of a response
with id 6 and a 107-byte body. Delivered in one piece, `Execute` returns that
response. Delivered as 4 bytes and then the rest, with no read error, the header
the exchange parses is the 4 bytes that arrived followed by zeros, so the
content length it uses is 0 instead of the 107 the peer sent, and `Execute`
fails. -/
theorem exchange_short_header_read :
    (Execute goStd 5
      (readyClient [ReadEvent.data (replyFrame 6 rejectedReply (ascii "testkey"))])
      (ascii "GetServerInformation") Value.null).2.2
      = Except.ok { statusCode := 400, statusMessage := ascii "Bad Request", version := 2,
                    name := ascii "GetServerInformation", contentBody := Value.str [] } ∧
    decodeHeader ((replyFrame 6 rejectedReply (ascii "testkey")).take HeaderSize) = (6, 107) ∧
    (readyClient [ReadEvent.data ((replyFrame 6 rejectedReply (ascii "testkey")).take 4),
        ReadEvent.data ((replyFrame 6 rejectedReply (ascii "testkey")).drop 4)]).conn.bind
      (fun conn => (conn.Read HeaderSize).2)
      = some ((replyFrame 6 rejectedReply (ascii "testkey")).take 4) ∧
    decodeHeader (storeAt (List.replicate HeaderSize 0) 0
      ((replyFrame 6 rejectedReply (ascii "testkey")).take 4)) = (6, 0) ∧
    (Execute goStd 5
      (readyClient [ReadEvent.data ((replyFrame 6 rejectedReply (ascii "testkey")).take 4),
        ReadEvent.data ((replyFrame 6 rejectedReply (ascii "testkey")).drop 4)])
      (ascii "GetServerInformation") Value.null).2.2
      = Except.error Error.unmarshalResponse :=
  ⟨rfl, by decide, rfl, by decide, rfl⟩

/-! ## The body loop over a stream of chunks -/

/-- On an open connection whose next events deliver the chunks `ds`, holding at
least the bytes still missing, the body loop returns the buffer filled with the
next bytes of the stream and leaves on the connection exactly the bytes after
them. -/
theorem readBody_chunks_rest (contentLength : Nat) (fuel : Nat) :
    ∀ (conn : Conn) (body : List Nat) (totalRead : Nat) (ds : List (List Nat))
      (later : List ReadEvent),
      conn.closed = false →
      conn.incoming = ds.map ReadEvent.data ++ later →
      body.length = contentLength →
      totalRead ≤ contentLength →
      contentLength - totalRead ≤ ds.flatten.length →
      (conn.incoming.length < fuel ∨ contentLength ≤ totalRead) →
      ∃ (conn1 : Conn) (ds1 : List (List Nat)),
        readBody fuel conn contentLength body totalRead
          = (conn1, some (Except.ok (body.take totalRead ++
              ds.flatten.take (contentLength - totalRead)))) ∧
        conn1.incoming = ds1.map ReadEvent.data ++ later ∧
        ds1.flatten = ds.flatten.drop (contentLength - totalRead) := by
  induction fuel with
  | zero =>
    intro conn body totalRead ds later _ hinc hlen ht _ hf
    have hge : contentLength ≤ totalRead := by
      rcases hf with h | h
      · exact absurd h (Nat.not_lt_zero _)
      · exact h
    refine ⟨conn, ds, ?_, hinc, ?_⟩
    · rw [readBody_done 0 conn contentLength body totalRead (Nat.not_lt.mpr hge)]
      have e0 : contentLength - totalRead = 0 := by omega
      have e1 : body.take totalRead = body := List.take_of_length_le (by omega)
      rw [e0, e1]
      simp
    · have e0 : contentLength - totalRead = 0 := by omega
      rw [e0]
      rfl
  | succ fuel ih =>
    intro conn body totalRead ds later hopen hinc hlen ht hstream hf
    by_cases hlt : totalRead < contentLength
    · have hfl : conn.incoming.length < fuel + 1 := by
        rcases hf with h | h
        · exact h
        · exact absurd hlt (Nat.not_lt.mpr h)
      cases ds with
      | nil =>
        simp at hstream
        omega
      | cons bs ds1 =>
        have hinc1 : conn.incoming = ReadEvent.data bs :: (ds1.map ReadEvent.data ++ later) := by
          rw [hinc]
          rfl
        rw [hinc1] at hfl
        simp only [List.flatten_cons, List.length_append] at hstream
        simp only [List.length_cons] at hfl
        have hread := Conn.Read_data conn (body.length - totalRead) bs _ hopen hinc1
        unfold readBody
        simp only [hlt, if_true, hread, List.flatten_cons]
        by_cases hle : bs.length ≤ body.length - totalRead
        · simp only [hle, if_true]
          obtain ⟨conn1, ds2, h1, h2, h3⟩ := ih
            { conn with incoming := ds1.map ReadEvent.data ++ later }
            (storeAt body totalRead bs) (totalRead + bs.length) ds1 later hopen rfl
            (by rw [storeAt_length _ _ _ (by omega)]; exact hlen) (by omega)
            (by omega) (Or.inl (by simp only; omega))
          refine ⟨conn1, ds2, ?_, h2, ?_⟩
          · rw [h1]
            have e1 : (storeAt body totalRead bs).take (totalRead + bs.length)
                = body.take totalRead ++ bs := by
              unfold storeAt
              rw [List.take_append_of_le_length (by simp; omega)]
              rw [List.take_of_length_le (by simp)]
            have e2 : (bs ++ ds1.flatten).take (contentLength - totalRead)
                = bs ++ ds1.flatten.take (contentLength - (totalRead + bs.length)) := by
              rw [List.take_append_eq_append_take, List.take_of_length_le (by omega)]
              congr 2
              omega
            rw [e1, e2, List.append_assoc]
          · have e3 : List.drop (contentLength - totalRead) bs = [] :=
              List.drop_of_length_le (by omega)
            rw [h3, List.drop_append_eq_append_drop, e3, List.nil_append]
            congr 1
            omega
        · simp only [hle, if_false]
          have hgl : (bs.take (body.length - totalRead)).length = body.length - totalRead := by
            rw [List.length_take]
            omega
          have hdone := readBody_done fuel
            (⟨ReadEvent.data (bs.drop (body.length - totalRead)) ::
              (ds1.map ReadEvent.data ++ later), conn.written, conn.writeFails, conn.closed⟩ : Conn)
            contentLength (storeAt body totalRead (bs.take (body.length - totalRead)))
            (totalRead + (bs.take (body.length - totalRead)).length) (by omega)
          refine ⟨(⟨ReadEvent.data (bs.drop (body.length - totalRead)) ::
            (ds1.map ReadEvent.data ++ later), conn.written, conn.writeFails, conn.closed⟩ : Conn),
            bs.drop (body.length - totalRead) :: ds1, ?_, rfl, ?_⟩
          · rw [hdone]
            have e1 : storeAt body totalRead (bs.take (body.length - totalRead))
                = body.take totalRead ++ bs.take (body.length - totalRead) := by
              unfold storeAt
              rw [List.drop_of_length_le (by omega)]
              simp
            have e2 : (bs ++ ds1.flatten).take (contentLength - totalRead)
                = bs.take (body.length - totalRead) := by
              rw [List.take_append_eq_append_take, hlen]
              have : contentLength - totalRead - bs.length = 0 := by omega
              rw [this]
              simp
            rw [e1, e2]
          · rw [List.flatten_cons, List.drop_append_eq_append_drop, hlen]
            have : contentLength - totalRead - bs.length = 0 := by omega
            rw [this]
            simp
    · refine ⟨conn, ds, ?_, hinc, ?_⟩
      · rw [readBody_done (fuel + 1) conn contentLength body totalRead hlt]
        have e0 : contentLength - totalRead = 0 := by omega
        have e1 : body.take totalRead = body := List.take_of_length_le (by omega)
        rw [e0, e1]
        simp
      · have e0 : contentLength - totalRead = 0 := by omega
        rw [e0]
        rfl

/-- When the chunks at hand hold fewer bytes than are still missing and are
followed by a read error or by the end of the stream, the body loop fails with
the read error. -/
theorem readBody_chunks_error (contentLength : Nat) (ds : List (List Nat)) :
    ∀ (fuel : Nat) (conn : Conn) (body : List Nat) (totalRead : Nat) (later : List ReadEvent),
      conn.closed = false →
      conn.incoming = ds.map ReadEvent.data ++ later →
      (later = [] ∨ ∃ l2, later = ReadEvent.err :: l2) →
      body.length = contentLength →
      totalRead ≤ contentLength →
      ds.flatten.length < contentLength - totalRead →
      conn.incoming.length < fuel →
      ∃ conn1, readBody fuel conn contentLength body totalRead
        = (conn1, some (Except.error Error.readBodyFailed)) := by
  induction ds with
  | nil =>
    intro fuel conn body totalRead later hopen hinc hlater hlen ht hshort hf
    have hlt : totalRead < contentLength := by omega
    cases fuel with
    | zero => exact absurd hf (Nat.not_lt_zero _)
    | succ fuel =>
      simp only [List.map_nil, List.nil_append] at hinc
      unfold readBody
      simp only [hlt, if_true]
      rcases hlater with h | ⟨l2, h⟩
      · have hr : conn.Read (body.length - totalRead) = (conn, none) := by
          unfold Conn.Read
          simp [hopen, hinc, h]
        rw [hr]
        exact ⟨conn, rfl⟩
      · have hr : conn.Read (body.length - totalRead)
            = ({ conn with incoming := l2 }, none) := by
          unfold Conn.Read
          simp [hopen, hinc, h]
        rw [hr]
        exact ⟨_, rfl⟩
  | cons bs ds1 ih =>
    intro fuel conn body totalRead later hopen hinc hlater hlen ht hshort hf
    have hlt : totalRead < contentLength := by omega
    simp only [List.flatten_cons, List.length_append] at hshort
    cases fuel with
    | zero => exact absurd hf (Nat.not_lt_zero _)
    | succ fuel =>
      have hinc1 : conn.incoming = ReadEvent.data bs :: (ds1.map ReadEvent.data ++ later) := by
        rw [hinc]
        rfl
      rw [hinc1] at hf
      simp only [List.length_cons] at hf
      have hread := Conn.Read_data conn (body.length - totalRead) bs _ hopen hinc1
      have hle : bs.length ≤ body.length - totalRead := by omega
      unfold readBody
      simp only [hlt, if_true, hread, hle]
      exact ih fuel { conn with incoming := ds1.map ReadEvent.data ++ later }
        (storeAt body totalRead bs) (totalRead + bs.length) later hopen rfl hlater
        (by rw [storeAt_length _ _ _ (by omega)]; exact hlen) (by omega) (by omega)
        (by simp only; omega)

/-! ## C23: the body loop -/

/-- C23: after a header announcing a content length within the ceiling, when
the coming reads deliver the chunks `ds` (and then whatever `later` holds): if
the chunks hold at least the announced length, the body loop ends with a buffer
that is the first `contentLength` bytes of the chunks in order, and what it
leaves on the connection is the rest of the chunks followed by `later`; if the
chunks hold fewer bytes and are followed by a read error or by the end of the
stream, the loop ends with the read error and the exchange fails with it. -/
theorem readBody_spec (L : StdLib) (counter : Nat) (c : Client)
    (cmd : GoString) (cb : Value) (data : List Nat) (id : Nat) (conn conn1 conn2 : Conn)
    (got : List Nat) (ds : List (List Nat)) (later : List ReadEvent)
    (hp : (PackRequest L counter c.authToken cmd cb).2 = Except.ok (data, id))
    (hsz : (data.length : Int) ≤ c.maxRequestSize)
    (hc : c.conn = some conn)
    (hw : conn.Write (encryptFrame data c.xorKey) = (conn1, true))
    (hr : conn1.Read HeaderSize = (conn2, some got))
    (hle : ((decodeHeader (storeAt (List.replicate HeaderSize 0) 0 got)).2 : Int)
      ≤ c.maxResponseSize)
    (hin : conn2.incoming = ds.map ReadEvent.data ++ later) :
    ((decodeHeader (storeAt (List.replicate HeaderSize 0) 0 got)).2 ≤ ds.flatten.length →
      ∃ (conn3 : Conn) (ds1 : List (List Nat)),
        readBody (conn2.incoming.length + 1) conn2
          (decodeHeader (storeAt (List.replicate HeaderSize 0) 0 got)).2
          (List.replicate (decodeHeader (storeAt (List.replicate HeaderSize 0) 0 got)).2 0) 0
          = (conn3, some (Except.ok (ds.flatten.take
              (decodeHeader (storeAt (List.replicate HeaderSize 0) 0 got)).2))) ∧
        conn3.incoming = ds1.map ReadEvent.data ++ later ∧
        ds1.flatten = ds.flatten.drop
          (decodeHeader (storeAt (List.replicate HeaderSize 0) 0 got)).2) ∧
    (ds.flatten.length < (decodeHeader (storeAt (List.replicate HeaderSize 0) 0 got)).2 →
      (later = [] ∨ ∃ l2, later = ReadEvent.err :: l2) →
      (∃ conn3 : Conn,
        readBody (conn2.incoming.length + 1) conn2
          (decodeHeader (storeAt (List.replicate HeaderSize 0) 0 got)).2
          (List.replicate (decodeHeader (storeAt (List.replicate HeaderSize 0) 0 got)).2 0) 0
          = (conn3, some (Except.error Error.readBodyFailed))) ∧
      (exchangeUnlocked L counter c cmd cb).2.2 = Except.error Error.readBodyFailed) := by
  have hopen : conn2.closed = false := by
    have h1 := (Conn.Write_true conn conn1 _ hw).1
    have h2 := Conn.Write_closed conn (encryptFrame data c.xorKey)
    have h3 := Conn.Read_closed conn1 HeaderSize
    rw [hw] at h2
    rw [hr] at h3
    simp only at h2 h3
    rw [h3, h2, h1]
  generalize hcl : (decodeHeader (storeAt (List.replicate HeaderSize 0) 0 got)).2 = cl at *
  constructor
  · intro hlen
    obtain ⟨conn3, ds1, h1, h2, h3⟩ := readBody_chunks_rest cl (conn2.incoming.length + 1)
      conn2 (List.replicate cl 0) 0 ds later hopen hin (List.length_replicate _ _)
      (Nat.zero_le _) (by omega) (Or.inl (Nat.lt_succ_self _))
    refine ⟨conn3, ds1, ?_, h2, ?_⟩
    · rw [h1]
      simp
    · rw [h3]
      simp
  · intro hlen hlater
    obtain ⟨conn3, h1⟩ := readBody_chunks_error cl ds (conn2.incoming.length + 1)
      conn2 (List.replicate cl 0) 0 later hopen hin hlater (List.length_replicate _ _)
      (Nat.zero_le _) (by omega) (Nat.lt_succ_self _)
    refine ⟨⟨conn3, h1⟩, ?_⟩
    rw [exchange_after_header L counter c cmd cb data id conn conn1 conn2 got hp hsz hc hw hr]
    rw [hcl, if_neg (not_lt.mpr hle), h1]

theorem readBody_spec_witness :
    (∃ conn2 : Conn,
      conn2.incoming = [ReadEvent.data (ascii "\x7b\"status"), ReadEvent.data [],
        ReadEvent.data (ascii "Code\":200\x7d" ++ [9, 9]), ReadEvent.err] ∧
      ∃ (conn3 : Conn) (ds1 : List (List Nat)),
        readBody (conn2.incoming.length + 1) conn2 18 (List.replicate 18 0) 0
          = (conn3, some (Except.ok (ascii "\x7b\"statusCode\":200\x7d"))) ∧
        conn3.incoming = ds1.map ReadEvent.data ++ [ReadEvent.err] ∧
        ds1.flatten = [9, 9]) ∧
    (exchangeUnlocked goStd 0
      (dialedClient [ReadEvent.data (putUint32 1 ++ putUint32 18),
        ReadEvent.data (ascii "\x7b\"status"), ReadEvent.err])
      (ascii "ServerConnect") (Value.str [])).2.2 = Except.error Error.readBodyFailed :=
  ⟨⟨_, rfl, (readBody_spec goStd 0
      (dialedClient [ReadEvent.data (putUint32 1 ++ putUint32 18),
        ReadEvent.data (ascii "\x7b\"status"), ReadEvent.data [],
        ReadEvent.data (ascii "Code\":200\x7d" ++ [9, 9]), ReadEvent.err])
      (ascii "ServerConnect") (Value.str []) _ 1
      (openConn [ReadEvent.data (putUint32 1 ++ putUint32 18),
        ReadEvent.data (ascii "\x7b\"status"), ReadEvent.data [],
        ReadEvent.data (ascii "Code\":200\x7d" ++ [9, 9]), ReadEvent.err])
      _ _ _ [ascii "\x7b\"status", [], ascii "Code\":200\x7d" ++ [9, 9]] [ReadEvent.err]
      rfl (by decide) rfl rfl rfl (by decide) rfl).1 (by decide)⟩,
   ((readBody_spec goStd 0
      (dialedClient [ReadEvent.data (putUint32 1 ++ putUint32 18),
        ReadEvent.data (ascii "\x7b\"status"), ReadEvent.err])
      (ascii "ServerConnect") (Value.str []) _ 1
      (openConn [ReadEvent.data (putUint32 1 ++ putUint32 18),
        ReadEvent.data (ascii "\x7b\"status"), ReadEvent.err])
      _ _ _ [ascii "\x7b\"status"] [ReadEvent.err]
      rfl (by decide) rfl rfl rfl (by decide) rfl).2 (by decide) (Or.inr ⟨_, rfl⟩)).2⟩

/-! ## C24: `UnpackResponse` -/

theorem UnpackResponse_header (id n : Nat) (body : List Nat) :
    (putUint32 id ++ putUint32 n ++ body).take 4 = putUint32 id ∧
    ((putUint32 id ++ putUint32 n ++ body).drop 4).take 4 = putUint32 n ∧
    (putUint32 id ++ putUint32 n ++ body).length = 8 + body.length := by
  refine ⟨by simp [putUint32], by simp [putUint32], ?_⟩
  simp only [List.length_append, putUint32_length]

/-- When the length field is `2 ^ 32 - 8` or more and the data holds that many
body bytes, the upper bound of the slice expression wraps below `HeaderSize`
and `UnpackResponse` panics. -/
theorem UnpackResponse_wraps (L : StdLib) (id n : Nat) (body : List Nat)
    (hlen : body.length = n) (h1 : 2 ^ 32 - 8 ≤ n) (h2 : n < 2 ^ 32) :
    UnpackResponse L (putUint32 id ++ putUint32 n ++ body) = none := by
  obtain ⟨e1, e2, e3⟩ := UnpackResponse_header id n body
  have c1 : ¬ (putUint32 id ++ putUint32 n ++ body).length < HeaderSize := by
    rw [e3]
    unfold HeaderSize
    omega
  have hcl : uint32LE (putUint32 n) = n := by
    rw [uint32LE_putUint32, Nat.mod_eq_of_lt h2]
  have c2 : ¬ (((putUint32 id ++ putUint32 n ++ body).length : Nat) : Int)
      < (HeaderSize : Int) + ((n : Nat) : Int) := by
    rw [e3, hlen]
    unfold HeaderSize
    omega
  have c3 : (HeaderSize + n) % 2 ^ 32 < HeaderSize ∨
      (putUint32 id ++ putUint32 n ++ body).length < (HeaderSize + n) % 2 ^ 32 := by
    left
    unfold HeaderSize
    omega
  unfold UnpackResponse
  rw [if_neg c1]
  simp only [e1, e2, hcl]
  rw [if_neg c2, if_pos c3]

/-- C24, the code at a failing input: a header announcing `2 ^ 32 - 8` body
bytes followed by that many bytes. No error is returned and no Response: the
slice expression panics. -/
theorem UnpackResponse_overflow :
    UnpackResponse goStd
      (putUint32 7 ++ putUint32 4294967288 ++ List.replicate 4294967288 0) = none :=
  UnpackResponse_wraps goStd 7 4294967288 (List.replicate 4294967288 0)
    (List.length_replicate _ _) (by norm_num) (by norm_num)

/-- Below the wrap-around, `UnpackResponse` returns an error exactly when the
data is shorter than the header, or shorter than the header plus the announced
length, or the announced body is not a JSON Response; and on success it returns
the id of the header and the Response decoded from the announced body. -/
theorem UnpackResponse_spec (L : StdLib) (data : List Nat)
    (hL : HeaderSize + (decodeHeader data).2 < 2 ^ 32) :
    UnpackResponse L data ≠ none ∧
    ((∃ e, UnpackResponse L data = some (Except.error e)) ↔
      (data.length < HeaderSize ∨ data.length < HeaderSize + (decodeHeader data).2 ∨
        L.jsonUnmarshalResponse ((data.drop HeaderSize).take (decodeHeader data).2) = none)) ∧
    (∀ resp id, UnpackResponse L data = some (Except.ok (resp, id)) →
      id = (decodeHeader data).1 ∧
      L.jsonUnmarshalResponse ((data.drop HeaderSize).take (decodeHeader data).2)
        = some resp) := by
  have hsl : ∀ n, (data.take (HeaderSize + n)).drop HeaderSize
      = (data.drop HeaderSize).take n := by
    intro n
    rw [List.drop_take]
    congr 1
    omega
  have hmod : (HeaderSize + (decodeHeader data).2) % 2 ^ 32
      = HeaderSize + (decodeHeader data).2 := Nat.mod_eq_of_lt hL
  have d1 : (decodeHeader data).1 = uint32LE (data.take 4) := rfl
  have d2 : (decodeHeader data).2 = uint32LE ((data.drop 4).take 4) := rfl
  by_cases c1 : data.length < HeaderSize
  · have hres : UnpackResponse L data
        = some (Except.error (Error.responseTooShort data.length)) := by
      unfold UnpackResponse
      rw [if_pos c1]
    rw [hres]
    refine ⟨by simp, ⟨fun _ => Or.inl c1, fun _ => ⟨_, rfl⟩⟩, ?_⟩
    intro resp id h
    cases h
  · by_cases c2 : data.length < HeaderSize + (decodeHeader data).2
    · have c2i : ((data.length : Nat) : Int)
          < (HeaderSize : Int) + (((decodeHeader data).2 : Nat) : Int) := by
        omega
      have hres : UnpackResponse L data = some (Except.error Error.incompleteBody) := by
        unfold UnpackResponse
        rw [if_neg c1]
        simp only
        rw [← d2, if_pos c2i]
      rw [hres]
      refine ⟨by simp, ⟨fun _ => Or.inr (Or.inl c2), fun _ => ⟨_, rfl⟩⟩, ?_⟩
      intro resp id h
      cases h
    · have c2i : ¬ ((data.length : Nat) : Int)
          < (HeaderSize : Int) + (((decodeHeader data).2 : Nat) : Int) := by
        omega
      have c3 : ¬ ((HeaderSize + (decodeHeader data).2) % 2 ^ 32 < HeaderSize ∨
          data.length < (HeaderSize + (decodeHeader data).2) % 2 ^ 32) := by
        rw [hmod]
        omega
      have hres : UnpackResponse L data =
          match L.jsonUnmarshalResponse
              ((data.drop HeaderSize).take (decodeHeader data).2) with
          | none => some (Except.error Error.unmarshalResponse)
          | some resp => some (Except.ok (resp, (decodeHeader data).1)) := by
        unfold UnpackResponse
        rw [if_neg c1]
        simp only
        rw [← d2, ← d1, if_neg c2i, if_neg c3, hmod, hsl]
      rw [hres]
      cases hj : L.jsonUnmarshalResponse
          ((data.drop HeaderSize).take (decodeHeader data).2) with
      | none =>
        refine ⟨by simp, ⟨fun _ => Or.inr (Or.inr rfl), fun _ => ⟨_, rfl⟩⟩, ?_⟩
        intro resp id h
        cases h
      | some r =>
        refine ⟨by simp, ⟨?_, ?_⟩, ?_⟩
        · rintro ⟨e, he⟩
          cases he
        · rintro (h | h | h)
          · exact absurd h c1
          · exact absurd h c2
          · cases h
        · intro resp id h
          simp only [Option.some.injEq, Except.ok.injEq, Prod.mk.injEq] at h
          exact ⟨h.2.symm, by rw [h.1]⟩

theorem UnpackResponse_spec_example :
    UnpackResponse goStd (replyFrame 6 rejectedReply [] ++ [1, 2, 3])
      = some (Except.ok
        ({ statusCode := 400, statusMessage := ascii "Bad Request", version := 2,
           name := ascii "GetServerInformation", contentBody := Value.str [] }, 6)) :=
  rfl

/-! ## C25: `parseContentBody` -/

/-- C25: `parseContentBody` returns its argument unchanged when it is not a
string or is the empty string, the decoded value when it is a non-empty string
that `json.Unmarshal` accepts, and the string itself when it is a non-empty
string that `json.Unmarshal` rejects. -/
theorem parseContentBody_spec (L : StdLib) :
    (∀ v, (∀ s, v ≠ Value.str s) → parseContentBody L v = v) ∧
    parseContentBody L (Value.str []) = Value.str [] ∧
    (∀ s parsed, s ≠ [] → L.jsonUnmarshal s = some parsed →
      parseContentBody L (Value.str s) = parsed) ∧
    (∀ s, s ≠ [] → L.jsonUnmarshal s = none →
      parseContentBody L (Value.str s) = Value.str s) := by
  refine ⟨?_, rfl, ?_, ?_⟩
  · intro v hv
    cases v with
    | str s => exact absurd rfl (hv s)
    | null => rfl
    | bool b => rfl
    | num n => rfl
    | arr xs => rfl
    | obj kvs => rfl
    | unsupported => rfl
  · intro s parsed hs hp
    unfold parseContentBody
    simp only [hs, if_false, hp]
  · intro s hs hp
    unfold parseContentBody
    simp only [hs, if_false, hp]

theorem parseContentBody_spec_witness :
    parseContentBody goStd (Value.num 5) = Value.num 5 ∧
    parseContentBody goStd (Value.str (ascii "\x7b\"players\":[]\x7d"))
      = Value.obj [(ascii "players", Value.arr [])] ∧
    parseContentBody goStd (Value.str (ascii "hello")) = Value.str (ascii "hello") :=
  ⟨(parseContentBody_spec goStd).1 (Value.num 5) (fun _ h => Value.noConfusion h),
   (parseContentBody_spec goStd).2.2.1 (ascii "\x7b\"players\":[]\x7d")
      (Value.obj [(ascii "players", Value.arr [])]) (by decide) rfl,
   (parseContentBody_spec goStd).2.2.2 (ascii "hello") (by decide) rfl⟩

end Rcon
